import Mathlib

/-!
Shallow embedding of the `list_events` operation of
`src/libsplinter/src/admin/service/event/store/diesel/operations/list_events.rs`.

The relational store is modelled as lists of rows (one list per table); diesel
joins become list comprehensions over those rows; the Rust `HashMap`s become
association lists whose iteration order is insertion order (one admissible
iteration order of a hash map); the fallible `for` loops of the source become
structurally recursive functions over the row lists, threading the same
accumulators and short-circuiting on the first error exactly as `?` does.
Builder types, row models and the fallible enum conversions are declared
outside this file in the original crate; they are modelled from the spec where
noted.
-/

/-- Decidable equality for `Except`, needed to evaluate the embedding on
concrete inputs. -/
def exceptDecEq {ε α : Type} [DecidableEq ε] [DecidableEq α] :
    DecidableEq (Except ε α)
  | .error e, .error e' =>
    if h : e = e' then .isTrue (by rw [h])
    else .isFalse (by intro hc; cases hc; exact h rfl)
  | .error _, .ok _ => .isFalse (by intro hc; cases hc)
  | .ok _, .error _ => .isFalse (by intro hc; cases hc)
  | .ok a, .ok a' =>
    if h : a = a' then .isTrue (by rw [h])
    else .isFalse (by intro hc; cases hc; exact h rfl)

instance {ε α : Type} [DecidableEq ε] [DecidableEq α] :
    DecidableEq (Except ε α) := exceptDecEq

/-- Model of Rust `HashMap` lookup (`get`) on an association list. -/
def alGet {κ ν : Type} [DecidableEq κ] (l : List (κ × ν)) (k : κ) : Option ν :=
  (l.find? (fun p => decide (p.1 = k))).map (·.2)

/-- Model of Rust `HashMap` insertion: replaces the binding in place when the
key is present, appends it otherwise, so iteration order is insertion order. -/
def alInsert {κ ν : Type} [DecidableEq κ] :
    List (κ × ν) → κ → ν → List (κ × ν)
  | [], k, v => [(k, v)]
  | p :: t, k, v => if p.1 = k then (k, v) :: t else p :: alInsert t k v

/-- Modelled from the spec: the closed enumeration of circuit-proposal types,
decoded from a stored string code. -/
inductive ProposalType : Type
  | create : ProposalType
  | disband : ProposalType
deriving DecidableEq, Repr

/-- Modelled from the spec: fallible decode of a stored proposal-type code. -/
def ProposalType.tryFrom : String → Except String ProposalType
  | "Create" => .ok .create
  | "Disband" => .ok .disband
  | s => .error ("unable to convert proposal type: " ++ s)

/-- Modelled from the spec: the closed enumeration of authorization types. -/
inductive AuthorizationType : Type
  | trust : AuthorizationType
  | challenge : AuthorizationType
deriving DecidableEq, Repr

/-- Modelled from the spec: fallible decode of a stored authorization-type code. -/
def AuthorizationType.tryFrom : String → Except String AuthorizationType
  | "Trust" => .ok .trust
  | "Challenge" => .ok .challenge
  | s => .error ("unable to convert authorization type: " ++ s)

/-- Modelled from the spec: the closed enumeration of persistence types. -/
inductive PersistenceType : Type
  | any : PersistenceType
deriving DecidableEq, Repr

/-- Modelled from the spec: fallible decode of a stored persistence code. -/
def PersistenceType.tryFrom : String → Except String PersistenceType
  | "Any" => .ok .any
  | s => .error ("unable to convert persistence type: " ++ s)

/-- Modelled from the spec: the closed enumeration of durability types. -/
inductive DurabilityType : Type
  | noDurability : DurabilityType
deriving DecidableEq, Repr

/-- Modelled from the spec: fallible decode of a stored durability code. -/
def DurabilityType.tryFrom : String → Except String DurabilityType
  | "NoDurability" => .ok .noDurability
  | s => .error ("unable to convert durability type: " ++ s)

/-- Modelled from the spec: the closed enumeration of route types. -/
inductive RouteType : Type
  | any : RouteType
deriving DecidableEq, Repr

/-- Modelled from the spec: fallible decode of a stored route code. -/
def RouteType.tryFrom : String → Except String RouteType
  | "Any" => .ok .any
  | s => .error ("unable to convert route type: " ++ s)

/-- Modelled from the spec: the closed enumeration of vote values. -/
inductive Vote : Type
  | accept : Vote
  | reject : Vote
deriving DecidableEq, Repr

/-- Modelled from the spec: fallible decode of a stored vote value. -/
def Vote.tryFrom : String → Except String Vote
  | "Accept" => .ok .accept
  | "Reject" => .ok .reject
  | s => .error ("unable to convert vote: " ++ s)

/-- Modelled from the spec: the closed enumeration of admin event types. -/
inductive EventType : Type
  | proposalSubmitted : EventType
  | proposalVote : EventType
  | proposalAccepted : EventType
  | proposalRejected : EventType
  | circuitReady : EventType
deriving DecidableEq, Repr

/-- Modelled from the spec: fallible decode of a stored event-type code. -/
def EventType.tryFrom : String → Except String EventType
  | "ProposalSubmitted" => .ok .proposalSubmitted
  | "ProposalVote" => .ok .proposalVote
  | "ProposalAccepted" => .ok .proposalAccepted
  | "ProposalRejected" => .ok .proposalRejected
  | "CircuitReady" => .ok .circuitReady
  | s => .error ("unable to convert event type: " ++ s)

/-- Modelled from the spec: one participant's recorded vote on a proposal. -/
structure VoteRecord : Type where
  public_key : String
  vote : Vote
  voter_node_id : String
deriving DecidableEq, Repr

/-- Modelled from the spec: a finalized proposed service of a circuit roster. -/
structure ProposedService : Type where
  service_id : String
  service_type : String
  node_id : String
  arguments : List (String × String)
deriving DecidableEq, Repr

/-- Modelled from the spec: a finalized proposed member node of a circuit. -/
structure ProposedNode : Type where
  node_id : String
  endpoints : List String
deriving DecidableEq, Repr

/-- Modelled from the spec: the structural definition of a proposed circuit. -/
structure ProposedCircuit : Type where
  circuit_id : String
  roster : List ProposedService
  members : List ProposedNode
  authorization_type : AuthorizationType
  persistence : PersistenceType
  durability : DurabilityType
  routes : RouteType
  circuit_management_type : String
  application_metadata : Option String
  comments : Option String
  display_name : Option String
deriving DecidableEq, Repr

/-- Modelled from the spec: a circuit proposal with its accumulated votes. -/
structure CircuitProposal : Type where
  proposal_type : ProposalType
  circuit_id : String
  circuit_hash : String
  requester : String
  requester_node_id : String
  circuit : ProposedCircuit
  votes : List VoteRecord
deriving DecidableEq, Repr

/-- Modelled from the spec: the terminal domain object returned per event. -/
structure AdminServiceEvent : Type where
  event_id : Int
  event_type : EventType
  proposal : CircuitProposal
deriving DecidableEq, Repr

/-- Helper for builder finalization: a required field must be present. -/
def requireField {α : Type} (o : Option α) (msg : String) : Except String α :=
  match o with
  | some a => .ok a
  | none => .error msg

/-- Modelled from the spec: fluent builder for `ProposedService`; `build`
validates that every structurally required field was set. -/
structure ProposedServiceBuilder : Type where
  service_id : Option String := none
  service_type : Option String := none
  node_id : Option String := none
  arguments : Option (List (String × String)) := none
deriving DecidableEq, Repr

def ProposedServiceBuilder.new : ProposedServiceBuilder := {}

def ProposedServiceBuilder.with_service_id (b : ProposedServiceBuilder)
    (v : String) : ProposedServiceBuilder := { b with service_id := some v }

def ProposedServiceBuilder.with_service_type (b : ProposedServiceBuilder)
    (v : String) : ProposedServiceBuilder := { b with service_type := some v }

def ProposedServiceBuilder.with_node_id (b : ProposedServiceBuilder)
    (v : String) : ProposedServiceBuilder := { b with node_id := some v }

def ProposedServiceBuilder.with_arguments (b : ProposedServiceBuilder)
    (v : List (String × String)) : ProposedServiceBuilder :=
  { b with arguments := some v }

/-- Modelled from the spec: finalize a `ProposedServiceBuilder`, reporting the
first missing required field; unset arguments default to the empty list. -/
def ProposedServiceBuilder.build (b : ProposedServiceBuilder) :
    Except String ProposedService := do
  let service_id ← requireField b.service_id
    "unable to build, missing field: service_id"
  let service_type ← requireField b.service_type
    "unable to build, missing field: service_type"
  let node_id ← requireField b.node_id
    "unable to build, missing field: node_id"
  .ok { service_id := service_id, service_type := service_type,
        node_id := node_id, arguments := b.arguments.getD [] }

/-- Modelled from the spec: fluent builder for `ProposedNode`. -/
structure ProposedNodeBuilder : Type where
  node_id : Option String := none
  endpoints : Option (List String) := none
deriving DecidableEq, Repr

def ProposedNodeBuilder.new : ProposedNodeBuilder := {}

def ProposedNodeBuilder.with_node_id (b : ProposedNodeBuilder)
    (v : String) : ProposedNodeBuilder := { b with node_id := some v }

def ProposedNodeBuilder.with_endpoints (b : ProposedNodeBuilder)
    (v : List String) : ProposedNodeBuilder := { b with endpoints := some v }

/-- Modelled from the spec: finalize a `ProposedNodeBuilder`; the node id is
required, unset endpoints default to the empty list. -/
def ProposedNodeBuilder.build (b : ProposedNodeBuilder) :
    Except String ProposedNode := do
  let node_id ← requireField b.node_id "unable to build, missing field: node_id"
  .ok { node_id := node_id, endpoints := b.endpoints.getD [] }

/-- Modelled from the spec: fluent builder for `ProposedCircuit`. -/
structure ProposedCircuitBuilder : Type where
  circuit_id : Option String := none
  roster : Option (List ProposedService) := none
  members : Option (List ProposedNode) := none
  authorization_type : Option AuthorizationType := none
  persistence : Option PersistenceType := none
  durability : Option DurabilityType := none
  routes : Option RouteType := none
  circuit_management_type : Option String := none
  application_metadata : Option String := none
  comments : Option String := none
  display_name : Option String := none
deriving DecidableEq, Repr

def ProposedCircuitBuilder.new : ProposedCircuitBuilder := {}

def ProposedCircuitBuilder.with_circuit_id (b : ProposedCircuitBuilder)
    (v : String) : ProposedCircuitBuilder := { b with circuit_id := some v }

def ProposedCircuitBuilder.with_roster (b : ProposedCircuitBuilder)
    (v : List ProposedService) : ProposedCircuitBuilder :=
  { b with roster := some v }

def ProposedCircuitBuilder.with_members (b : ProposedCircuitBuilder)
    (v : List ProposedNode) : ProposedCircuitBuilder :=
  { b with members := some v }

def ProposedCircuitBuilder.with_authorization_type (b : ProposedCircuitBuilder)
    (v : AuthorizationType) : ProposedCircuitBuilder :=
  { b with authorization_type := some v }

def ProposedCircuitBuilder.with_persistence (b : ProposedCircuitBuilder)
    (v : PersistenceType) : ProposedCircuitBuilder :=
  { b with persistence := some v }

def ProposedCircuitBuilder.with_durability (b : ProposedCircuitBuilder)
    (v : DurabilityType) : ProposedCircuitBuilder :=
  { b with durability := some v }

def ProposedCircuitBuilder.with_routes (b : ProposedCircuitBuilder)
    (v : RouteType) : ProposedCircuitBuilder := { b with routes := some v }

def ProposedCircuitBuilder.with_circuit_management_type
    (b : ProposedCircuitBuilder) (v : String) : ProposedCircuitBuilder :=
  { b with circuit_management_type := some v }

def ProposedCircuitBuilder.with_application_metadata
    (b : ProposedCircuitBuilder) (v : String) : ProposedCircuitBuilder :=
  { b with application_metadata := some v }

def ProposedCircuitBuilder.with_comments (b : ProposedCircuitBuilder)
    (v : String) : ProposedCircuitBuilder := { b with comments := some v }

def ProposedCircuitBuilder.with_display_name (b : ProposedCircuitBuilder)
    (v : String) : ProposedCircuitBuilder := { b with display_name := some v }

/-- Modelled from the spec: finalize a `ProposedCircuitBuilder`; identifiers,
enumerations and the management type are required, roster and members default
to empty, the metadata fields stay optional. -/
def ProposedCircuitBuilder.build (b : ProposedCircuitBuilder) :
    Except String ProposedCircuit := do
  let circuit_id ← requireField b.circuit_id
    "unable to build, missing field: circuit_id"
  let authorization_type ← requireField b.authorization_type
    "unable to build, missing field: authorization_type"
  let persistence ← requireField b.persistence
    "unable to build, missing field: persistence"
  let durability ← requireField b.durability
    "unable to build, missing field: durability"
  let routes ← requireField b.routes
    "unable to build, missing field: routes"
  let circuit_management_type ← requireField b.circuit_management_type
    "unable to build, missing field: circuit_management_type"
  .ok { circuit_id := circuit_id, roster := b.roster.getD [],
        members := b.members.getD [],
        authorization_type := authorization_type, persistence := persistence,
        durability := durability, routes := routes,
        circuit_management_type := circuit_management_type,
        application_metadata := b.application_metadata,
        comments := b.comments, display_name := b.display_name }

/-- Modelled from the spec: fluent builder for `CircuitProposal`. -/
structure CircuitProposalBuilder : Type where
  proposal_type : Option ProposalType := none
  circuit_id : Option String := none
  circuit_hash : Option String := none
  requester : Option String := none
  requester_node_id : Option String := none
  circuit : Option ProposedCircuit := none
  votes : Option (List VoteRecord) := none
deriving DecidableEq, Repr

def CircuitProposalBuilder.new : CircuitProposalBuilder := {}

def CircuitProposalBuilder.with_proposal_type (b : CircuitProposalBuilder)
    (v : ProposalType) : CircuitProposalBuilder :=
  { b with proposal_type := some v }

def CircuitProposalBuilder.with_circuit_id (b : CircuitProposalBuilder)
    (v : String) : CircuitProposalBuilder := { b with circuit_id := some v }

def CircuitProposalBuilder.with_circuit_hash (b : CircuitProposalBuilder)
    (v : String) : CircuitProposalBuilder := { b with circuit_hash := some v }

def CircuitProposalBuilder.with_requester (b : CircuitProposalBuilder)
    (v : String) : CircuitProposalBuilder := { b with requester := some v }

def CircuitProposalBuilder.with_requester_node_id (b : CircuitProposalBuilder)
    (v : String) : CircuitProposalBuilder :=
  { b with requester_node_id := some v }

def CircuitProposalBuilder.with_circuit (b : CircuitProposalBuilder)
    (v : ProposedCircuit) : CircuitProposalBuilder :=
  { b with circuit := some v }

def CircuitProposalBuilder.with_votes (b : CircuitProposalBuilder)
    (v : List VoteRecord) : CircuitProposalBuilder := { b with votes := some v }

/-- Modelled from the spec: finalize a `CircuitProposalBuilder`; every field
except the vote list is required, unset votes default to the empty list. -/
def CircuitProposalBuilder.build (b : CircuitProposalBuilder) :
    Except String CircuitProposal := do
  let proposal_type ← requireField b.proposal_type
    "unable to build, missing field: proposal_type"
  let circuit_id ← requireField b.circuit_id
    "unable to build, missing field: circuit_id"
  let circuit_hash ← requireField b.circuit_hash
    "unable to build, missing field: circuit_hash"
  let requester ← requireField b.requester
    "unable to build, missing field: requester"
  let requester_node_id ← requireField b.requester_node_id
    "unable to build, missing field: requester_node_id"
  let circuit ← requireField b.circuit
    "unable to build, missing field: circuit"
  .ok { proposal_type := proposal_type, circuit_id := circuit_id,
        circuit_hash := circuit_hash, requester := requester,
        requester_node_id := requester_node_id, circuit := circuit,
        votes := b.votes.getD [] }

/-- Row of the `admin_service_event` table (fields used by `list_events`). -/
structure AdminServiceEventModel : Type where
  id : Int
  event_type : String
deriving DecidableEq, Repr

/-- Row of the `admin_event_circuit_proposal` table. -/
structure AdminEventCircuitProposalModel : Type where
  event_id : Int
  proposal_type : String
  circuit_id : String
  circuit_hash : String
  requester : String
  requester_node_id : String
deriving DecidableEq, Repr

/-- Row of the `admin_event_proposed_circuit` table. -/
structure AdminEventProposedCircuitModel : Type where
  event_id : Int
  circuit_id : String
  authorization_type : String
  persistence : String
  durability : String
  routes : String
  circuit_management_type : String
  application_metadata : Option String
  comments : Option String
  display_name : Option String
deriving DecidableEq, Repr

/-- Row of the `admin_event_proposed_service` table. -/
structure AdminEventProposedServiceModel : Type where
  event_id : Int
  service_id : String
  service_type : String
  node_id : String
deriving DecidableEq, Repr

/-- Row of the `admin_event_proposed_service_argument` table. -/
structure AdminEventProposedServiceArgumentModel : Type where
  event_id : Int
  service_id : String
  key : String
  value : String
deriving DecidableEq, Repr

/-- Row of the `admin_event_proposed_node` table. -/
structure AdminEventProposedNodeModel : Type where
  event_id : Int
  node_id : String
deriving DecidableEq, Repr

/-- Row of the `admin_event_proposed_node_endpoint` table. -/
structure AdminEventProposedNodeEndpointModel : Type where
  event_id : Int
  node_id : String
  endpoint : String
deriving DecidableEq, Repr

/-- Row of the `admin_event_vote_record` table. -/
structure AdminEventVoteRecordModel : Type where
  event_id : Int
  public_key : String
  vote : String
  voter_node_id : String
deriving DecidableEq, Repr

/-- Modelled from the spec: fallible conversion from a stored vote row to a
`VoteRecord` (the stored vote value is decoded). -/
def VoteRecord.tryFrom (m : AdminEventVoteRecordModel) :
    Except String VoteRecord := do
  let vote ← Vote.tryFrom m.vote
  .ok { public_key := m.public_key, vote := vote,
        voter_node_id := m.voter_node_id }

/-- Modelled from the spec: fallible conversion from an (event row, finished
proposal) pair to the terminal `AdminServiceEvent`. -/
def AdminServiceEvent.tryFrom (m : AdminServiceEventModel)
    (proposal : CircuitProposal) : Except String AdminServiceEvent := do
  let event_type ← EventType.tryFrom m.event_type
  .ok { event_id := m.id, event_type := event_type, proposal := proposal }

/-- The error type of the store: conversion failures surface as
`internalError`, builder finalize failures as `invalidStateError`. -/
inductive AdminServiceEventStoreError : Type
  | internalError (msg : String) : AdminServiceEventStoreError
  | invalidStateError (msg : String) : AdminServiceEventStoreError
deriving DecidableEq, Repr

/-- Route a conversion or builder error into the store's error type, as the
source's `?` conversions and `map_err` calls do. -/
def asStoreErr {α : Type} (f : String → AdminServiceEventStoreError) :
    Except String α → Except AdminServiceEventStoreError α
  | .ok a => .ok a
  | .error e => .error (f e)

/-- The relational store visible to `list_events`: one list of rows per table,
in the order the backend returns them. -/
structure Db : Type where
  admin_service_event : List AdminServiceEventModel
  admin_event_circuit_proposal : List AdminEventCircuitProposalModel
  admin_event_proposed_circuit : List AdminEventProposedCircuitModel
  admin_event_proposed_service : List AdminEventProposedServiceModel
  admin_event_proposed_service_argument :
    List AdminEventProposedServiceArgumentModel
  admin_event_proposed_node : List AdminEventProposedNodeModel
  admin_event_proposed_node_endpoint :
    List AdminEventProposedNodeEndpointModel
  admin_event_vote_record : List AdminEventVoteRecordModel
deriving DecidableEq, Repr

/-- The primary query: `admin_service_event` filtered to the requested ids,
inner-joined with `admin_event_circuit_proposal` and
`admin_event_proposed_circuit` on the event id. -/
def event_models (db : Db) (event_ids : List Int) :
    List (AdminServiceEventModel × AdminEventCircuitProposalModel ×
      AdminEventProposedCircuitModel) :=
  (db.admin_service_event.filter
      (fun e => decide (e.id ∈ event_ids))).flatMap fun e =>
    (db.admin_event_circuit_proposal.filter
        (fun cp => decide (cp.event_id = e.id))).flatMap fun cp =>
      (db.admin_event_proposed_circuit.filter
          (fun pc => decide (pc.event_id = e.id))).map fun pc => (e, cp, pc)

/-- The source's `if let Some(application_metadata) = ...` attach. -/
def attach_application_metadata (b : ProposedCircuitBuilder) :
    Option String → ProposedCircuitBuilder
  | some application_metadata => b.with_application_metadata application_metadata
  | none => b

/-- The source's `if let Some(comments) = ...` attach. -/
def attach_comments (b : ProposedCircuitBuilder) :
    Option String → ProposedCircuitBuilder
  | some comments => b.with_comments comments
  | none => b

/-- The source's `if let Some(display_name) = ...` attach. -/
def attach_display_name (b : ProposedCircuitBuilder) :
    Option String → ProposedCircuitBuilder
  | some display_name => b.with_display_name display_name
  | none => b

/-- The `CircuitProposalBuilder` seeded from one circuit-proposal row with
its decoded proposal type. -/
def seed_proposal_builder (cp : AdminEventCircuitProposalModel)
    (pt : ProposalType) : CircuitProposalBuilder :=
  CircuitProposalBuilder.new.with_proposal_type pt
    |>.with_circuit_id cp.circuit_id
    |>.with_circuit_hash cp.circuit_hash
    |>.with_requester cp.requester
    |>.with_requester_node_id cp.requester_node_id

/-- The `ProposedCircuitBuilder` seeded from one proposed-circuit row with
its decoded enumerations, the optional metadata fields attached when the row
carries them. -/
def seed_circuit_builder (pc : AdminEventProposedCircuitModel)
    (auth : AuthorizationType) (pers : PersistenceType) (dur : DurabilityType)
    (rt : RouteType) : ProposedCircuitBuilder :=
  attach_display_name
    (attach_comments
      (attach_application_metadata
        (ProposedCircuitBuilder.new.with_circuit_id pc.circuit_id
          |>.with_authorization_type auth
          |>.with_persistence pers
          |>.with_durability dur
          |>.with_routes rt
          |>.with_circuit_management_type pc.circuit_management_type)
        pc.application_metadata)
      pc.comments)
    pc.display_name

/-- The closure of the source's `event_models.into_iter().map(...)`: decode
the enumerations of one joined row and seed the builder pair, keyed by the
event id; a decode failure is a conversion error. -/
def seed_event_row
    (row : AdminServiceEventModel × AdminEventCircuitProposalModel ×
      AdminEventProposedCircuitModel) :
    Except AdminServiceEventStoreError
      (Int × (AdminServiceEventModel × CircuitProposalBuilder ×
        ProposedCircuitBuilder)) := do
  let proposal_type ← asStoreErr .internalError
    (ProposalType.tryFrom row.2.1.proposal_type)
  let authorization_type ← asStoreErr .internalError
    (AuthorizationType.tryFrom row.2.2.authorization_type)
  let persistence ← asStoreErr .internalError
    (PersistenceType.tryFrom row.2.2.persistence)
  let durability ← asStoreErr .internalError
    (DurabilityType.tryFrom row.2.2.durability)
  let routes ← asStoreErr .internalError
    (RouteType.tryFrom row.2.2.routes)
  .ok (row.1.id, (row.1, seed_proposal_builder row.2.1 proposal_type,
    seed_circuit_builder row.2.2 authorization_type persistence durability
      routes))

/-- The loop body of building `events_map`: seed each joined row and key it
by the event id; the first decode failure aborts (the source's
`collect::<Result<HashMap, _>>`). -/
def events_map_loop :
    List (AdminServiceEventModel × AdminEventCircuitProposalModel ×
      AdminEventProposedCircuitModel) →
    List (Int × (AdminServiceEventModel × CircuitProposalBuilder ×
      ProposedCircuitBuilder)) →
    Except AdminServiceEventStoreError
      (List (Int × (AdminServiceEventModel × CircuitProposalBuilder ×
        ProposedCircuitBuilder)))
  | [], acc => .ok acc
  | row :: rest, acc => do
    let kv ← seed_event_row row
    events_map_loop rest (alInsert acc kv.1 kv.2)

/-- One service row's block of the left join: one joined row per matching
argument row, or a single row with a null argument side when none match. -/
def service_join_rows (db : Db) (s : AdminEventProposedServiceModel) :
    List (AdminEventProposedServiceModel ×
      Option AdminEventProposedServiceArgumentModel) :=
  match db.admin_event_proposed_service_argument.filter
      (fun a => decide (a.event_id = s.event_id) &&
        decide (a.service_id = s.service_id)) with
  | [] => [(s, none)]
  | args => args.map fun a => (s, some a)

/-- The service query: `admin_event_proposed_service` filtered to the
requested ids, left-joined with `admin_event_proposed_service_argument` on
(event id, service id), the argument side nullable. -/
def service_rows (db : Db) (event_ids : List Int) :
    List (AdminEventProposedServiceModel ×
      Option AdminEventProposedServiceArgumentModel) :=
  (db.admin_event_proposed_service.filter
      (fun s => decide (s.event_id ∈ event_ids))).flatMap
    (service_join_rows db)

/-- The source's grouping pattern `if let Some(list) = map.get_mut(&k)
then list.push(v) else map.insert(k, vec![v])`. -/
def group_push {κ ν : Type} [DecidableEq κ] (acc : List (κ × List ν)) (k : κ)
    (v : ν) : List (κ × List ν) :=
  match alGet acc k with
  | some l => alInsert acc k (l ++ [v])
  | none => alInsert acc k [v]

/-- The source's `or_insert_with` closure: a `ProposedServiceBuilder` seeded
from a service row. -/
def service_builder_from (proposed_service : AdminEventProposedServiceModel) :
    ProposedServiceBuilder :=
  ProposedServiceBuilder.new.with_service_id proposed_service.service_id
    |>.with_service_type proposed_service.service_type
    |>.with_node_id proposed_service.node_id

/-- The loop over the service rows: accumulate argument values per
(event id, service id) and seed a `ProposedServiceBuilder` the first time a
key is seen (the source's `entry(...).or_insert_with`). -/
def service_loop :
    List (AdminEventProposedServiceModel ×
      Option AdminEventProposedServiceArgumentModel) →
    List ((Int × String) × ProposedServiceBuilder) →
    List ((Int × String) × List (String × String)) →
    List ((Int × String) × ProposedServiceBuilder) ×
      List ((Int × String) × List (String × String))
  | [], proposed_services, arguments_map => (proposed_services, arguments_map)
  | (proposed_service, opt_arg) :: rest, proposed_services, arguments_map =>
    let key := (proposed_service.event_id, proposed_service.service_id)
    let arguments_map :=
      match opt_arg with
      | some arg_model =>
        group_push arguments_map key (arg_model.key, arg_model.value)
      | none => arguments_map
    let proposed_services :=
      match alGet proposed_services key with
      | some _ => proposed_services
      | none =>
        alInsert proposed_services key (service_builder_from proposed_service)
    service_loop rest proposed_services arguments_map

/-- The source's `if let Some(args) = arguments_map.get(...)` attach. -/
def attach_arguments (builder : ProposedServiceBuilder) :
    Option (List (String × String)) → ProposedServiceBuilder
  | some args => builder.with_arguments args
  | none => builder

/-- The loop building each `ProposedService`: attach the accumulated
arguments (if any), finalize the builder (failure is an invalid-state error),
and group the finished services by event id. -/
def built_services_loop :
    List ((Int × String) × ProposedServiceBuilder) →
    List ((Int × String) × List (String × String)) →
    List (Int × List ProposedService) →
    Except AdminServiceEventStoreError (List (Int × List ProposedService))
  | [], _, acc => .ok acc
  | (key, builder) :: rest, arguments_map, acc => do
    let builder := attach_arguments builder (alGet arguments_map key)
    let proposed_service ← asStoreErr .invalidStateError builder.build
    built_services_loop rest arguments_map
      (group_push acc key.1 proposed_service)

/-- One node row's block of the inner join: one joined row per matching
endpoint row. -/
def node_join_rows (db : Db) (n : AdminEventProposedNodeModel) :
    List (AdminEventProposedNodeModel × String) :=
  (db.admin_event_proposed_node_endpoint.filter
      (fun ep => decide (ep.node_id = n.node_id) &&
        decide (ep.event_id = n.event_id))).map fun ep => (n, ep.endpoint)

/-- The node query: `admin_event_proposed_node` filtered to the requested
ids, inner-joined with `admin_event_proposed_node_endpoint` on
(node id, event id), selecting the node row and the endpoint. -/
def node_rows (db : Db) (event_ids : List Int) :
    List (AdminEventProposedNodeModel × String) :=
  (db.admin_event_proposed_node.filter
      (fun n => decide (n.event_id ∈ event_ids))).flatMap (node_join_rows db)

/-- The source's endpoint append on a removed-and-reinserted builder: push
onto the existing endpoint list, or start one. -/
def push_endpoint (b : ProposedNodeBuilder) (endpoint : String) :
    ProposedNodeBuilder :=
  match b.endpoints with
  | some endpoints => b.with_endpoints (endpoints ++ [endpoint])
  | none => b.with_endpoints [endpoint]

/-- The loop over the node rows: append each endpoint to the builder keyed by
(event id, node id), creating the builder on first sight. -/
def node_loop :
    List (AdminEventProposedNodeModel × String) →
    List ((Int × String) × ProposedNodeBuilder) →
    List ((Int × String) × ProposedNodeBuilder)
  | [], proposed_nodes => proposed_nodes
  | (node, endpoint) :: rest, proposed_nodes =>
    let key := (node.event_id, node.node_id)
    let proposed_nodes :=
      match alGet proposed_nodes key with
      | some proposed_node =>
        alInsert proposed_nodes key (push_endpoint proposed_node endpoint)
      | none =>
        alInsert proposed_nodes key
          (ProposedNodeBuilder.new.with_node_id node.node_id
            |>.with_endpoints [endpoint])
    node_loop rest proposed_nodes

/-- The loop building each `ProposedNode` and grouping by event id; a
finalize failure is an invalid-state error. -/
def built_nodes_loop :
    List ((Int × String) × ProposedNodeBuilder) →
    List (Int × List ProposedNode) →
    Except AdminServiceEventStoreError (List (Int × List ProposedNode))
  | [], acc => .ok acc
  | (key, builder) :: rest, acc => do
    let node ← asStoreErr .invalidStateError builder.build
    built_nodes_loop rest (group_push acc key.1 node)

/-- The vote query: `admin_event_vote_record` filtered to the requested ids. -/
def vote_query (db : Db) (event_ids : List Int) :
    List AdminEventVoteRecordModel :=
  db.admin_event_vote_record.filter (fun v => decide (v.event_id ∈ event_ids))

/-- The loop over the vote rows: decode each into a `VoteRecord` (failure is
an invalid-state error, as in the source) and group by event id. -/
def vote_loop :
    List AdminEventVoteRecordModel →
    List (Int × List VoteRecord) →
    Except AdminServiceEventStoreError (List (Int × List VoteRecord))
  | [], acc => .ok acc
  | vote :: rest, acc => do
    let record ← asStoreErr .invalidStateError (VoteRecord.tryFrom vote)
    vote_loop rest (group_push acc vote.event_id record)

/-- The source's `if let Some(services) = built_proposed_services.get(...)`
attach of an event's roster. -/
def attach_roster (b : ProposedCircuitBuilder) :
    Option (List ProposedService) → ProposedCircuitBuilder
  | some services => b.with_roster services
  | none => b

/-- The source's `if let Some(nodes) = built_proposed_nodes.get(...)` attach
of an event's membership. -/
def attach_members (b : ProposedCircuitBuilder) :
    Option (List ProposedNode) → ProposedCircuitBuilder
  | some nodes => b.with_members nodes
  | none => b

/-- The source's `if let Some(votes) = vote_records.get(...)` attach of an
event's votes. -/
def attach_votes (b : CircuitProposalBuilder) :
    Option (List VoteRecord) → CircuitProposalBuilder
  | some votes => b.with_votes votes
  | none => b

/-- Assemble one seeded event: attach its service group, node group and vote
group (each omitted when absent), finalize the circuit and proposal builders
bottom-up, and convert to the terminal `AdminServiceEvent`. -/
def assemble_one (event_id : Int)
    (entry : AdminServiceEventModel × CircuitProposalBuilder ×
      ProposedCircuitBuilder)
    (built_proposed_services : List (Int × List ProposedService))
    (built_proposed_nodes : List (Int × List ProposedNode))
    (vote_records : List (Int × List VoteRecord)) :
    Except AdminServiceEventStoreError AdminServiceEvent := do
  let proposal_builder :=
    attach_votes entry.2.1 (alGet vote_records event_id)
  let proposed_circuit_builder :=
    attach_roster entry.2.2 (alGet built_proposed_services event_id)
  let proposed_circuit_builder :=
    attach_members proposed_circuit_builder (alGet built_proposed_nodes event_id)
  let circuit ← asStoreErr .invalidStateError proposed_circuit_builder.build
  let proposal ← asStoreErr .invalidStateError
    (proposal_builder.with_circuit circuit).build
  asStoreErr .internalError (AdminServiceEvent.tryFrom entry.1 proposal)

/-- The final loop of `list_events`: assemble every seeded event in turn,
short-circuiting on the first failure. -/
def assemble_loop :
    List (Int × (AdminServiceEventModel × CircuitProposalBuilder ×
      ProposedCircuitBuilder)) →
    List (Int × List ProposedService) →
    List (Int × List ProposedNode) →
    List (Int × List VoteRecord) →
    List AdminServiceEvent →
    Except AdminServiceEventStoreError (List AdminServiceEvent)
  | [], _, _, _, events => .ok events
  | (event_id, entry) :: rest, built_proposed_services, built_proposed_nodes,
      vote_records, events => do
    let event ← assemble_one event_id entry built_proposed_services
      built_proposed_nodes vote_records
    assemble_loop rest built_proposed_services built_proposed_nodes
      vote_records (events ++ [event])

/-- The final `events.sort_by_key(|a| a.event_id)`: a stable sort by event id
in ascending order. -/
def sort_events (events : List AdminServiceEvent) : List AdminServiceEvent :=
  List.insertionSort (fun a b => a.event_id ≤ b.event_id) events

/-- The `list_events` operation: the five stages of the source, executed in
order over one snapshot of the store, the result sorted ascending by event
id; any error anywhere surfaces as the call's single error. -/
def list_events (db : Db) (event_ids : List Int) :
    Except AdminServiceEventStoreError (List AdminServiceEvent) := do
  let events_map ← events_map_loop (event_models db event_ids) []
  let services_fold := service_loop (service_rows db event_ids) [] []
  let built_proposed_services ←
    built_services_loop services_fold.1 services_fold.2 []
  let proposed_nodes := node_loop (node_rows db event_ids) []
  let built_proposed_nodes ← built_nodes_loop proposed_nodes []
  let vote_records ← vote_loop (vote_query db event_ids) []
  let events ← assemble_loop events_map built_proposed_services
    built_proposed_nodes vote_records []
  .ok (sort_events events)

/-! Lemmas about the association-list model of `HashMap`. -/

/-- Keys of an association list, in iteration order. -/
def alKeys {κ ν : Type} (l : List (κ × ν)) : List κ := l.map Prod.fst

theorem alGet_nil {κ ν : Type} [DecidableEq κ] (k : κ) :
    alGet ([] : List (κ × ν)) k = none := rfl

theorem alGet_cons {κ ν : Type} [DecidableEq κ] (p : κ × ν) (t : List (κ × ν))
    (k : κ) : alGet (p :: t) k = if p.1 = k then some p.2 else alGet t k := by
  by_cases h : p.1 = k <;> simp [alGet, List.find?_cons, h]

theorem alGet_alInsert_self {κ ν : Type} [DecidableEq κ] (l : List (κ × ν))
    (k : κ) (v : ν) : alGet (alInsert l k v) k = some v := by
  induction l with
  | nil => simp [alInsert, alGet_cons]
  | cons p t ih => by_cases h : p.1 = k <;> simp [alInsert, h, alGet_cons, ih]

theorem alGet_alInsert_ne {κ ν : Type} [DecidableEq κ] (l : List (κ × ν))
    (k k' : κ) (v : ν) (h : k' ≠ k) :
    alGet (alInsert l k v) k' = alGet l k' := by
  have hkk : ¬ (k = k') := fun hc => h hc.symm
  induction l with
  | nil => simp [alInsert, alGet_cons, hkk]
  | cons p t ih =>
    by_cases hp : p.1 = k
    · have hp' : ¬ (p.1 = k') := fun hc => hkk (hp.symm.trans hc)
      simp [alInsert, hp, alGet_cons, hkk, hp']
    · simp only [alInsert, hp, if_false]
      rw [alGet_cons, alGet_cons, ih]

theorem mem_alInsert {κ ν : Type} [DecidableEq κ] (p : κ × ν)
    (l : List (κ × ν)) (k : κ) (v : ν) :
    p ∈ alInsert l k v → p = (k, v) ∨ p ∈ l := by
  induction l with
  | nil => simp [alInsert]
  | cons q t ih =>
    by_cases hq : q.1 = k
    · simp only [alInsert, hq, if_true, List.mem_cons]
      tauto
    · simp only [alInsert, hq, if_false, List.mem_cons]
      intro hm
      rcases hm with hm | hm
      · tauto
      · rcases ih hm with hm' | hm' <;> tauto

theorem alInsert_cons_self {κ ν : Type} [DecidableEq κ] (p : κ × ν)
    (t : List (κ × ν)) (v : ν) : alInsert (p :: t) p.1 v = (p.1, v) :: t := by
  simp [alInsert]

theorem alInsert_cons_ne {κ ν : Type} [DecidableEq κ] (p : κ × ν)
    (t : List (κ × ν)) (k : κ) (v : ν) (h : ¬ (p.1 = k)) :
    alInsert (p :: t) k v = p :: alInsert t k v := by
  simp [alInsert, h]

theorem mem_alKeys_alInsert {κ ν : Type} [DecidableEq κ] (l : List (κ × ν))
    (k k' : κ) (v : ν) :
    k' ∈ alKeys (alInsert l k v) ↔ k' = k ∨ k' ∈ alKeys l := by
  induction l with
  | nil => simp [alInsert, alKeys, eq_comm]
  | cons p t ih =>
    by_cases hp : p.1 = k
    · subst hp
      rw [alInsert_cons_self]
      simp only [alKeys, List.map_cons, List.mem_cons]
      tauto
    · rw [alInsert_cons_ne p t k v hp]
      simp only [alKeys, List.map_cons, List.mem_cons]
      simp only [alKeys] at ih
      tauto

theorem nodup_alKeys_alInsert {κ ν : Type} [DecidableEq κ] (l : List (κ × ν))
    (k : κ) (v : ν) (h : (alKeys l).Nodup) :
    (alKeys (alInsert l k v)).Nodup := by
  induction l with
  | nil => simp [alInsert, alKeys]
  | cons p t ih =>
    simp only [alKeys, List.map_cons, List.nodup_cons] at h
    by_cases hp : p.1 = k
    · subst hp
      rw [alInsert_cons_self]
      simp only [alKeys, List.map_cons, List.nodup_cons]
      exact ⟨h.1, h.2⟩
    · rw [alInsert_cons_ne p t k v hp]
      simp only [alKeys, List.map_cons, List.nodup_cons]
      refine ⟨fun hc => ?_, ih h.2⟩
      rcases (mem_alKeys_alInsert t k p.1 v).mp hc with h' | h'
      · exact hp h'
      · exact h.1 h'

theorem alGet_eq_none_iff {κ ν : Type} [DecidableEq κ] (l : List (κ × ν))
    (k : κ) : alGet l k = none ↔ k ∉ alKeys l := by
  simp only [alGet, Option.map_eq_none', List.find?_eq_none, alKeys,
    List.mem_map, decide_eq_true_eq]
  constructor
  · rintro h ⟨p, hp, hk⟩
    exact h p hp hk
  · rintro h p hp hk
    exact h ⟨p, hp, hk⟩

theorem alGet_mem {κ ν : Type} [DecidableEq κ] (l : List (κ × ν)) (k : κ)
    (v : ν) (h : alGet l k = some v) : (k, v) ∈ l := by
  simp only [alGet, Option.map_eq_some'] at h
  obtain ⟨p, hp, hv⟩ := h
  have hm := List.mem_of_find?_eq_some hp
  have hk := List.find?_some hp
  simp only [decide_eq_true_eq] at hk
  have hpkv : p = (k, v) := by
    cases p
    simp only [Prod.mk.injEq]
    exact ⟨hk, hv⟩
  exact hpkv ▸ hm

/-! Lemmas about builder finalization. -/

/-- A `ProposedServiceBuilder` whose required fields are all set. -/
def ProposedServiceBuilder.seeded (b : ProposedServiceBuilder) : Prop :=
  b.service_id.isSome = true ∧ b.service_type.isSome = true ∧
    b.node_id.isSome = true

instance (b : ProposedServiceBuilder) : Decidable b.seeded := by
  unfold ProposedServiceBuilder.seeded; infer_instance

/-- The service a seeded `ProposedServiceBuilder` finalizes to. -/
def service_build_value (b : ProposedServiceBuilder) : ProposedService :=
  { service_id := b.service_id.getD "", service_type := b.service_type.getD "",
    node_id := b.node_id.getD "", arguments := b.arguments.getD [] }

theorem service_builder_build_eq (b : ProposedServiceBuilder)
    (hs : b.seeded) : b.build = .ok (service_build_value b) := by
  obtain ⟨h1, h2, h3⟩ := hs
  obtain ⟨sid, h1⟩ := Option.isSome_iff_exists.mp h1
  obtain ⟨st, h2⟩ := Option.isSome_iff_exists.mp h2
  obtain ⟨nid, h3⟩ := Option.isSome_iff_exists.mp h3
  simp [ProposedServiceBuilder.build, requireField, h1, h2, h3,
    service_build_value, Bind.bind, Except.bind]

/-- The node a `ProposedNodeBuilder` with a node id finalizes to. -/
def node_build_value (b : ProposedNodeBuilder) : ProposedNode :=
  { node_id := b.node_id.getD "", endpoints := b.endpoints.getD [] }

theorem node_builder_build_eq (b : ProposedNodeBuilder)
    (hs : b.node_id.isSome = true) : b.build = .ok (node_build_value b) := by
  obtain ⟨nid, h1⟩ := Option.isSome_iff_exists.mp hs
  simp [ProposedNodeBuilder.build, requireField, h1, node_build_value,
    Bind.bind, Except.bind]

/-- A `ProposedCircuitBuilder` whose required fields are all set. -/
def ProposedCircuitBuilder.seeded (b : ProposedCircuitBuilder) : Prop :=
  b.circuit_id.isSome = true ∧ b.authorization_type.isSome = true ∧
    b.persistence.isSome = true ∧ b.durability.isSome = true ∧
    b.routes.isSome = true ∧ b.circuit_management_type.isSome = true

instance (b : ProposedCircuitBuilder) : Decidable b.seeded := by
  unfold ProposedCircuitBuilder.seeded; infer_instance

/-- The circuit a seeded `ProposedCircuitBuilder` finalizes to. -/
def circuit_build_value (b : ProposedCircuitBuilder) : ProposedCircuit :=
  { circuit_id := b.circuit_id.getD "", roster := b.roster.getD [],
    members := b.members.getD [],
    authorization_type := b.authorization_type.getD .trust,
    persistence := b.persistence.getD .any,
    durability := b.durability.getD .noDurability,
    routes := b.routes.getD .any,
    circuit_management_type := b.circuit_management_type.getD "",
    application_metadata := b.application_metadata,
    comments := b.comments, display_name := b.display_name }

theorem circuit_builder_build_eq (b : ProposedCircuitBuilder)
    (hs : b.seeded) : b.build = .ok (circuit_build_value b) := by
  obtain ⟨h1, h2, h3, h4, h5, h6⟩ := hs
  obtain ⟨v1, h1⟩ := Option.isSome_iff_exists.mp h1
  obtain ⟨v2, h2⟩ := Option.isSome_iff_exists.mp h2
  obtain ⟨v3, h3⟩ := Option.isSome_iff_exists.mp h3
  obtain ⟨v4, h4⟩ := Option.isSome_iff_exists.mp h4
  obtain ⟨v5, h5⟩ := Option.isSome_iff_exists.mp h5
  obtain ⟨v6, h6⟩ := Option.isSome_iff_exists.mp h6
  simp [ProposedCircuitBuilder.build, requireField, h1, h2, h3, h4, h5, h6,
    circuit_build_value, Bind.bind, Except.bind]

/-- A `CircuitProposalBuilder` whose required fields other than the circuit
are all set. -/
def CircuitProposalBuilder.seeded (b : CircuitProposalBuilder) : Prop :=
  b.proposal_type.isSome = true ∧ b.circuit_id.isSome = true ∧
    b.circuit_hash.isSome = true ∧ b.requester.isSome = true ∧
    b.requester_node_id.isSome = true

instance (b : CircuitProposalBuilder) : Decidable b.seeded := by
  unfold CircuitProposalBuilder.seeded; infer_instance

/-- The proposal a seeded `CircuitProposalBuilder` with a circuit finalizes
to. -/
def proposal_build_value (b : CircuitProposalBuilder) (c : ProposedCircuit) :
    CircuitProposal :=
  { proposal_type := b.proposal_type.getD .create,
    circuit_id := b.circuit_id.getD "", circuit_hash := b.circuit_hash.getD "",
    requester := b.requester.getD "",
    requester_node_id := b.requester_node_id.getD "", circuit := c,
    votes := b.votes.getD [] }

theorem proposal_builder_build_eq (b : CircuitProposalBuilder)
    (c : ProposedCircuit) (hs : b.seeded) :
    (b.with_circuit c).build = .ok (proposal_build_value b c) := by
  obtain ⟨h1, h2, h3, h4, h5⟩ := hs
  obtain ⟨v1, h1⟩ := Option.isSome_iff_exists.mp h1
  obtain ⟨v2, h2⟩ := Option.isSome_iff_exists.mp h2
  obtain ⟨v3, h3⟩ := Option.isSome_iff_exists.mp h3
  obtain ⟨v4, h4⟩ := Option.isSome_iff_exists.mp h4
  obtain ⟨v5, h5⟩ := Option.isSome_iff_exists.mp h5
  simp [CircuitProposalBuilder.build, CircuitProposalBuilder.with_circuit,
    requireField, h1, h2, h3, h4, h5, proposal_build_value, Bind.bind,
    Except.bind]

/-! Lemmas about `Except` and the grouping helper. -/

theorem except_isOk_iff {ε α : Type} (e : Except ε α) :
    e.isOk = true ↔ ∃ a, e = .ok a := by
  cases e <;> simp [Except.isOk, Except.toBool]

theorem alGet_group_push_self {κ ν : Type} [DecidableEq κ]
    (acc : List (κ × List ν)) (k : κ) (v : ν) :
    alGet (group_push acc k v) k = some ((alGet acc k).getD [] ++ [v]) := by
  unfold group_push
  cases h : alGet acc k <;> simp [h, alGet_alInsert_self]

theorem alGet_group_push_ne {κ ν : Type} [DecidableEq κ]
    (acc : List (κ × List ν)) (k k' : κ) (v : ν) (h : k' ≠ k) :
    alGet (group_push acc k v) k' = alGet acc k' := by
  unfold group_push
  cases hg : alGet acc k <;> simp [alGet_alInsert_ne _ _ _ _ h]

/-! Lemmas about seeding the primary-stage builders. -/

/-- All five enumeration decodes of one primary-join row succeed. -/
def event_row_decodes
    (row : AdminServiceEventModel × AdminEventCircuitProposalModel ×
      AdminEventProposedCircuitModel) : Prop :=
  (ProposalType.tryFrom row.2.1.proposal_type).isOk = true ∧
    (AuthorizationType.tryFrom row.2.2.authorization_type).isOk = true ∧
    (PersistenceType.tryFrom row.2.2.persistence).isOk = true ∧
    (DurabilityType.tryFrom row.2.2.durability).isOk = true ∧
    (RouteType.tryFrom row.2.2.routes).isOk = true

instance (row : AdminServiceEventModel × AdminEventCircuitProposalModel ×
    AdminEventProposedCircuitModel) : Decidable (event_row_decodes row) := by
  unfold event_row_decodes; infer_instance

theorem attach_application_metadata_seeded (b : ProposedCircuitBuilder)
    (o : Option String) (h : b.seeded) :
    (attach_application_metadata b o).seeded := by
  cases o <;> simp_all [attach_application_metadata,
    ProposedCircuitBuilder.with_application_metadata,
    ProposedCircuitBuilder.seeded]

theorem attach_comments_seeded (b : ProposedCircuitBuilder)
    (o : Option String) (h : b.seeded) : (attach_comments b o).seeded := by
  cases o <;> simp_all [attach_comments, ProposedCircuitBuilder.with_comments,
    ProposedCircuitBuilder.seeded]

theorem attach_display_name_seeded (b : ProposedCircuitBuilder)
    (o : Option String) (h : b.seeded) : (attach_display_name b o).seeded := by
  cases o <;> simp_all [attach_display_name,
    ProposedCircuitBuilder.with_display_name, ProposedCircuitBuilder.seeded]

theorem seed_proposal_builder_seeded (cp : AdminEventCircuitProposalModel)
    (pt : ProposalType) : (seed_proposal_builder cp pt).seeded := by
  simp [seed_proposal_builder, CircuitProposalBuilder.new,
    CircuitProposalBuilder.seeded, CircuitProposalBuilder.with_proposal_type,
    CircuitProposalBuilder.with_circuit_id,
    CircuitProposalBuilder.with_circuit_hash,
    CircuitProposalBuilder.with_requester,
    CircuitProposalBuilder.with_requester_node_id]

theorem seed_circuit_builder_seeded (pc : AdminEventProposedCircuitModel)
    (auth : AuthorizationType) (pers : PersistenceType) (dur : DurabilityType)
    (rt : RouteType) : (seed_circuit_builder pc auth pers dur rt).seeded := by
  apply attach_display_name_seeded
  apply attach_comments_seeded
  apply attach_application_metadata_seeded
  simp [ProposedCircuitBuilder.new, ProposedCircuitBuilder.seeded,
    ProposedCircuitBuilder.with_circuit_id,
    ProposedCircuitBuilder.with_authorization_type,
    ProposedCircuitBuilder.with_persistence,
    ProposedCircuitBuilder.with_durability,
    ProposedCircuitBuilder.with_routes,
    ProposedCircuitBuilder.with_circuit_management_type]

theorem seed_event_row_ok
    (row : AdminServiceEventModel × AdminEventCircuitProposalModel ×
      AdminEventProposedCircuitModel) (h : event_row_decodes row) :
    ∃ kv, seed_event_row row = .ok kv ∧ kv.1 = row.1.id ∧ kv.2.1 = row.1 ∧
      kv.2.2.1.seeded ∧ kv.2.2.2.seeded := by
  obtain ⟨h1, h2, h3, h4, h5⟩ := h
  obtain ⟨a1, h1⟩ := (except_isOk_iff _).mp h1
  obtain ⟨a2, h2⟩ := (except_isOk_iff _).mp h2
  obtain ⟨a3, h3⟩ := (except_isOk_iff _).mp h3
  obtain ⟨a4, h4⟩ := (except_isOk_iff _).mp h4
  obtain ⟨a5, h5⟩ := (except_isOk_iff _).mp h5
  refine ⟨(row.1.id, (row.1, seed_proposal_builder row.2.1 a1,
    seed_circuit_builder row.2.2 a2 a3 a4 a5)), ?_, rfl, rfl,
    seed_proposal_builder_seeded _ _, seed_circuit_builder_seeded _ _ _ _ _⟩
  simp [seed_event_row, h1, h2, h3, h4, h5, asStoreErr, Bind.bind,
    Except.bind]

theorem seed_event_row_fails
    (row : AdminServiceEventModel × AdminEventCircuitProposalModel ×
      AdminEventProposedCircuitModel) (h : ¬ event_row_decodes row) :
    ∃ msg, seed_event_row row = .error (.internalError msg) := by
  cases h1 : ProposalType.tryFrom row.2.1.proposal_type with
  | error msg =>
    exact ⟨msg, by simp [seed_event_row, h1, asStoreErr, Bind.bind,
      Except.bind]⟩
  | ok a1 =>
  cases h2 : AuthorizationType.tryFrom row.2.2.authorization_type with
  | error msg =>
    exact ⟨msg, by simp [seed_event_row, h1, h2, asStoreErr, Bind.bind,
      Except.bind]⟩
  | ok a2 =>
  cases h3 : PersistenceType.tryFrom row.2.2.persistence with
  | error msg =>
    exact ⟨msg, by simp [seed_event_row, h1, h2, h3, asStoreErr, Bind.bind,
      Except.bind]⟩
  | ok a3 =>
  cases h4 : DurabilityType.tryFrom row.2.2.durability with
  | error msg =>
    exact ⟨msg, by simp [seed_event_row, h1, h2, h3, h4, asStoreErr,
      Bind.bind, Except.bind]⟩
  | ok a4 =>
  cases h5 : RouteType.tryFrom row.2.2.routes with
  | error msg =>
    exact ⟨msg, by simp [seed_event_row, h1, h2, h3, h4, h5, asStoreErr,
      Bind.bind, Except.bind]⟩
  | ok a5 =>
  exact absurd ⟨by simp [h1, Except.isOk, Except.toBool], by simp [h2, Except.isOk, Except.toBool],
    by simp [h3, Except.isOk, Except.toBool], by simp [h4, Except.isOk, Except.toBool],
    by simp [h5, Except.isOk, Except.toBool]⟩ h

theorem seed_event_row_error_shape
    (row : AdminServiceEventModel × AdminEventCircuitProposalModel ×
      AdminEventProposedCircuitModel) (e : AdminServiceEventStoreError)
    (h : seed_event_row row = .error e) : ∃ msg, e = .internalError msg := by
  by_cases hd : event_row_decodes row
  · obtain ⟨kv, hkv, -⟩ := seed_event_row_ok row hd
    rw [hkv] at h
    cases h
  · obtain ⟨msg, hmsg⟩ := seed_event_row_fails row hd
    rw [hmsg] at h
    exact ⟨msg, (Except.error.inj h).symm⟩

/-! Lemmas about the primary stage (`events_map_loop`). -/

theorem events_map_loop_err (rows : List (AdminServiceEventModel ×
      AdminEventCircuitProposalModel × AdminEventProposedCircuitModel))
    (row : AdminServiceEventModel × AdminEventCircuitProposalModel ×
      AdminEventProposedCircuitModel)
    (hmem : row ∈ rows) (hfail : ¬ event_row_decodes row) :
    ∀ acc, ∃ msg, events_map_loop rows acc = .error (.internalError msg) := by
  induction rows with
  | nil => cases hmem
  | cons r rest ih =>
    intro acc
    rcases List.mem_cons.mp hmem with rfl | hmem'
    · obtain ⟨msg, hmsg⟩ := seed_event_row_fails row hfail
      exact ⟨msg, by simp [events_map_loop, hmsg, Bind.bind, Except.bind]⟩
    · cases hr : seed_event_row r with
      | error e =>
        obtain ⟨msg, rfl⟩ := seed_event_row_error_shape r e hr
        exact ⟨msg, by simp [events_map_loop, hr, Bind.bind, Except.bind]⟩
      | ok kv =>
        obtain ⟨msg, hmsg⟩ := ih hmem' (alInsert acc kv.1 kv.2)
        exact ⟨msg, by simp [events_map_loop, hr, Bind.bind, Except.bind,
          hmsg]⟩

theorem events_map_loop_ok (rows : List (AdminServiceEventModel ×
      AdminEventCircuitProposalModel × AdminEventProposedCircuitModel))
    (hrows : ∀ r ∈ rows, event_row_decodes r) :
    ∀ acc, ∃ m, events_map_loop rows acc = .ok m ∧
      (∀ p ∈ m, p ∈ acc ∨ ∃ r ∈ rows, p.1 = r.1.id ∧ p.2.1 = r.1 ∧
        p.2.2.1.seeded ∧ p.2.2.2.seeded) ∧
      (∀ k, k ∈ alKeys m ↔ k ∈ alKeys acc ∨ ∃ r ∈ rows, r.1.id = k) ∧
      ((alKeys acc).Nodup → (alKeys m).Nodup) := by
  induction rows with
  | nil =>
    intro acc
    refine ⟨acc, rfl, fun p hp => Or.inl hp, fun k => by simp, id⟩
  | cons r rest ih =>
    intro acc
    obtain ⟨kv, hkv, hk1, hk2, hs1, hs2⟩ :=
      seed_event_row_ok r (hrows r (List.mem_cons_self r rest))
    obtain ⟨m, hm, hmem, hkeys, hnd⟩ :=
      ih (fun r' h' => hrows r' (List.mem_cons_of_mem r h'))
        (alInsert acc kv.1 kv.2)
    refine ⟨m, ?_, ?_, ?_, ?_⟩
    · simp [events_map_loop, hkv, Bind.bind, Except.bind, hm]
    · intro p hp
      rcases hmem p hp with hacc | ⟨r', hr', hprops⟩
      · rcases mem_alInsert p _ _ _ hacc with hkv' | hacc'
        · refine Or.inr ⟨r, List.mem_cons_self r rest, ?_, ?_, ?_, ?_⟩ <;>
            rw [hkv'] <;> simp [hk1, hk2, hs1, hs2]
        · exact Or.inl hacc'
      · exact Or.inr ⟨r', List.mem_cons_of_mem r hr', hprops⟩
    · intro k
      rw [hkeys k, mem_alKeys_alInsert]
      constructor
      · rintro ((rfl | hk) | ⟨r', hr', hid⟩)
        · exact Or.inr ⟨r, List.mem_cons_self r rest, hk1.symm⟩
        · exact Or.inl hk
        · exact Or.inr ⟨r', List.mem_cons_of_mem r hr', hid⟩
      · rintro (hk | ⟨r', hr', hid⟩)
        · exact Or.inl (Or.inr hk)
        · rcases List.mem_cons.mp hr' with rfl | hr''
          · exact Or.inl (Or.inl (hid ▸ hk1.symm))
          · exact Or.inr ⟨r', hr'', hid⟩
    · intro hnd0
      exact hnd (nodup_alKeys_alInsert _ _ _ hnd0)

theorem events_map_loop_ok_inv (rows : List (AdminServiceEventModel ×
      AdminEventCircuitProposalModel × AdminEventProposedCircuitModel))
    (m : List (Int × (AdminServiceEventModel × CircuitProposalBuilder ×
      ProposedCircuitBuilder))) :
    ∀ acc, events_map_loop rows acc = .ok m →
      ((∀ p ∈ acc, p.2.1.id = p.1) → ∀ p ∈ m, p.2.1.id = p.1) ∧
      ((alKeys acc).Nodup → (alKeys m).Nodup) := by
  induction rows with
  | nil =>
    intro acc h
    cases h
    exact ⟨fun h' => h', id⟩
  | cons r rest ih =>
    intro acc h
    cases hr : seed_event_row r with
    | error e => simp [events_map_loop, hr, Bind.bind, Except.bind] at h
    | ok kv =>
      simp only [events_map_loop, hr, Bind.bind, Except.bind] at h
      obtain ⟨hinv, hnd⟩ := ih (alInsert acc kv.1 kv.2) h
      have hkid : kv.2.1.id = kv.1 := by
        by_cases hd : event_row_decodes r
        · obtain ⟨kv', hkv', hk1, hk2, -⟩ := seed_event_row_ok r hd
          rw [hkv'] at hr
          cases hr
          rw [hk2, hk1]
        · obtain ⟨msg, hmsg⟩ := seed_event_row_fails r hd
          rw [hmsg] at hr
          cases hr
      refine ⟨fun hacc => hinv ?_, fun h0 => hnd (nodup_alKeys_alInsert
        _ _ _ h0)⟩
      intro p hp
      rcases mem_alInsert p _ _ _ hp with hkv' | hacc'
      · rw [hkv']
        exact hkid
      · exact hacc p hacc'

/-! Lemmas about the service stage. -/

/-- The argument values a run of joined service rows contributes to one
(event id, service id) key, in arrival order. -/
def args_of (key : Int × String)
    (rows : List (AdminEventProposedServiceModel ×
      Option AdminEventProposedServiceArgumentModel)) :
    List (String × String) :=
  rows.filterMap fun p =>
    if (p.1.event_id, p.1.service_id) = key then
      p.2.map (fun a => (a.key, a.value))
    else none

/-- The first joined service row carrying one (event id, service id) key. -/
def first_service_row (key : Int × String)
    (rows : List (AdminEventProposedServiceModel ×
      Option AdminEventProposedServiceArgumentModel)) :
    Option AdminEventProposedServiceModel :=
  (rows.find?
    (fun p => decide ((p.1.event_id, p.1.service_id) = key))).map (·.1)

theorem service_loop_cons_none (svc : AdminEventProposedServiceModel)
    (rest : List (AdminEventProposedServiceModel ×
      Option AdminEventProposedServiceArgumentModel))
    (ps : List ((Int × String) × ProposedServiceBuilder))
    (am : List ((Int × String) × List (String × String))) :
    service_loop ((svc, none) :: rest) ps am =
      service_loop rest
        (match alGet ps (svc.event_id, svc.service_id) with
         | some _ => ps
         | none => alInsert ps (svc.event_id, svc.service_id)
             (service_builder_from svc))
        am := rfl

theorem service_loop_cons_some (svc : AdminEventProposedServiceModel)
    (a : AdminEventProposedServiceArgumentModel)
    (rest : List (AdminEventProposedServiceModel ×
      Option AdminEventProposedServiceArgumentModel))
    (ps : List ((Int × String) × ProposedServiceBuilder))
    (am : List ((Int × String) × List (String × String))) :
    service_loop ((svc, some a) :: rest) ps am =
      service_loop rest
        (match alGet ps (svc.event_id, svc.service_id) with
         | some _ => ps
         | none => alInsert ps (svc.event_id, svc.service_id)
             (service_builder_from svc))
        (group_push am (svc.event_id, svc.service_id) (a.key, a.value)) := rfl

theorem args_of_cons_none (svc : AdminEventProposedServiceModel)
    (rest : List (AdminEventProposedServiceModel ×
      Option AdminEventProposedServiceArgumentModel)) (key : Int × String) :
    args_of key ((svc, none) :: rest) = args_of key rest := by
  by_cases hK : (svc.event_id, svc.service_id) = key <;>
    simp [args_of, List.filterMap_cons, hK]

theorem args_of_cons_some_self (svc : AdminEventProposedServiceModel)
    (a : AdminEventProposedServiceArgumentModel)
    (rest : List (AdminEventProposedServiceModel ×
      Option AdminEventProposedServiceArgumentModel)) (key : Int × String)
    (hK : (svc.event_id, svc.service_id) = key) :
    args_of key ((svc, some a) :: rest) =
      (a.key, a.value) :: args_of key rest := by
  simp [args_of, List.filterMap_cons, hK]

theorem args_of_cons_some_ne (svc : AdminEventProposedServiceModel)
    (a : AdminEventProposedServiceArgumentModel)
    (rest : List (AdminEventProposedServiceModel ×
      Option AdminEventProposedServiceArgumentModel)) (key : Int × String)
    (hK : ¬ ((svc.event_id, svc.service_id) = key)) :
    args_of key ((svc, some a) :: rest) = args_of key rest := by
  simp [args_of, List.filterMap_cons, hK]

theorem service_loop_args
    (rows : List (AdminEventProposedServiceModel ×
      Option AdminEventProposedServiceArgumentModel)) :
    ∀ ps am key, alGet (service_loop rows ps am).2 key =
      if args_of key rows = [] then alGet am key
      else some ((alGet am key).getD [] ++ args_of key rows) := by
  induction rows with
  | nil =>
    intro ps am key
    simp [service_loop, args_of]
  | cons row rest ih =>
    intro ps am key
    obtain ⟨svc, oarg⟩ := row
    cases oarg with
    | none =>
      rw [service_loop_cons_none, ih, args_of_cons_none]
    | some a =>
      rw [service_loop_cons_some, ih]
      by_cases hK : (svc.event_id, svc.service_id) = key
      · rw [args_of_cons_some_self svc a rest key hK, hK]
        by_cases hrest : args_of key rest = []
        · simp [hrest, alGet_group_push_self]
        · simp [hrest, alGet_group_push_self, List.append_assoc]
      · rw [args_of_cons_some_ne svc a rest key hK,
          alGet_group_push_ne am _ key (a.key, a.value)
            (fun hc => hK hc.symm)]

theorem first_service_row_cons_self (svc : AdminEventProposedServiceModel)
    (oarg : Option AdminEventProposedServiceArgumentModel)
    (rest : List (AdminEventProposedServiceModel ×
      Option AdminEventProposedServiceArgumentModel)) (key : Int × String)
    (hK : (svc.event_id, svc.service_id) = key) :
    first_service_row key ((svc, oarg) :: rest) = some svc := by
  simp [first_service_row, List.find?_cons, hK]

theorem first_service_row_cons_ne (svc : AdminEventProposedServiceModel)
    (oarg : Option AdminEventProposedServiceArgumentModel)
    (rest : List (AdminEventProposedServiceModel ×
      Option AdminEventProposedServiceArgumentModel)) (key : Int × String)
    (hK : ¬ ((svc.event_id, svc.service_id) = key)) :
    first_service_row key ((svc, oarg) :: rest) =
      first_service_row key rest := by
  simp [first_service_row, List.find?_cons, hK]

theorem service_loop_builders
    (rows : List (AdminEventProposedServiceModel ×
      Option AdminEventProposedServiceArgumentModel)) :
    ∀ ps am key, alGet (service_loop rows ps am).1 key =
      (alGet ps key).or
        ((first_service_row key rows).map service_builder_from) := by
  induction rows with
  | nil =>
    intro ps am key
    cases h : alGet ps key <;> simp [service_loop, first_service_row, h,
      Option.or]
  | cons row rest ih =>
    intro ps am key
    obtain ⟨svc, oarg⟩ := row
    have hstep : (service_loop ((svc, oarg) :: rest) ps am).1 =
        (service_loop rest
          (match alGet ps (svc.event_id, svc.service_id) with
           | some _ => ps
           | none => alInsert ps (svc.event_id, svc.service_id)
               (service_builder_from svc))
          (match oarg with
           | some a =>
             group_push am (svc.event_id, svc.service_id) (a.key, a.value)
           | none => am)).1 := by
      cases oarg <;> rfl
    rw [hstep, ih]
    by_cases hK : (svc.event_id, svc.service_id) = key
    · rw [first_service_row_cons_self svc oarg rest key hK]
      cases hget : alGet ps (svc.event_id, svc.service_id) with
      | some b =>
        rw [hK] at hget
        simp [hget, Option.or]
      | none =>
        rw [hK] at hget
        simp [hget, hK, alGet_alInsert_self, Option.or]
    · rw [first_service_row_cons_ne svc oarg rest key hK]
      cases hget : alGet ps (svc.event_id, svc.service_id) with
      | some b => simp [hget]
      | none =>
        simp only [hget]
        rw [alGet_alInsert_ne _ _ _ _ (fun hc => hK hc.symm)]

/-- Every builder entry of the service map comes from some service row and is
keyed by that row's (event id, service id). -/
def service_entry_wf (p : (Int × String) × ProposedServiceBuilder) : Prop :=
  ∃ svc : AdminEventProposedServiceModel,
    p.2 = service_builder_from svc ∧ p.1 = (svc.event_id, svc.service_id)

theorem service_loop_entries_wf
    (rows : List (AdminEventProposedServiceModel ×
      Option AdminEventProposedServiceArgumentModel)) :
    ∀ ps am, (∀ p ∈ ps, service_entry_wf p) →
      ∀ p ∈ (service_loop rows ps am).1, service_entry_wf p := by
  induction rows with
  | nil =>
    intro ps am h
    simpa [service_loop] using h
  | cons row rest ih =>
    intro ps am h
    obtain ⟨svc, oarg⟩ := row
    have hstep : (service_loop ((svc, oarg) :: rest) ps am).1 =
        (service_loop rest
          (match alGet ps (svc.event_id, svc.service_id) with
           | some _ => ps
           | none => alInsert ps (svc.event_id, svc.service_id)
               (service_builder_from svc))
          (match oarg with
           | some a =>
             group_push am (svc.event_id, svc.service_id) (a.key, a.value)
           | none => am)).1 := by
      cases oarg <;> rfl
    rw [hstep]
    apply ih
    cases hget : alGet ps (svc.event_id, svc.service_id) with
    | some b => simpa [hget] using h
    | none =>
      simp only [hget]
      intro p hp
      rcases mem_alInsert p _ _ _ hp with hkv | hp'
      · exact ⟨svc, by rw [hkv], by rw [hkv]⟩
      · exact h p hp'

theorem service_loop_keys_nodup
    (rows : List (AdminEventProposedServiceModel ×
      Option AdminEventProposedServiceArgumentModel)) :
    ∀ ps am, (alKeys ps).Nodup →
      (alKeys (service_loop rows ps am).1).Nodup := by
  induction rows with
  | nil =>
    intro ps am h
    simpa [service_loop] using h
  | cons row rest ih =>
    intro ps am h
    obtain ⟨svc, oarg⟩ := row
    have hstep : (service_loop ((svc, oarg) :: rest) ps am).1 =
        (service_loop rest
          (match alGet ps (svc.event_id, svc.service_id) with
           | some _ => ps
           | none => alInsert ps (svc.event_id, svc.service_id)
               (service_builder_from svc))
          (match oarg with
           | some a =>
             group_push am (svc.event_id, svc.service_id) (a.key, a.value)
           | none => am)).1 := by
      cases oarg <;> rfl
    rw [hstep]
    apply ih
    cases hget : alGet ps (svc.event_id, svc.service_id) with
    | some b => simpa [hget] using h
    | none =>
      simp only [hget]
      exact nodup_alKeys_alInsert _ _ _ h

theorem service_builder_from_seeded (svc : AdminEventProposedServiceModel) :
    (service_builder_from svc).seeded := by
  simp [service_builder_from, ProposedServiceBuilder.new,
    ProposedServiceBuilder.seeded, ProposedServiceBuilder.with_service_id,
    ProposedServiceBuilder.with_service_type,
    ProposedServiceBuilder.with_node_id]

theorem attach_arguments_seeded (b : ProposedServiceBuilder)
    (o : Option (List (String × String))) (h : b.seeded) :
    (attach_arguments b o).seeded := by
  cases o <;> simp_all [attach_arguments, ProposedServiceBuilder.with_arguments,
    ProposedServiceBuilder.seeded]

theorem service_build_value_attach (svc : AdminEventProposedServiceModel)
    (o : Option (List (String × String))) :
    service_build_value (attach_arguments (service_builder_from svc) o) =
      { service_id := svc.service_id, service_type := svc.service_type,
        node_id := svc.node_id, arguments := o.getD [] } := by
  cases o <;> simp [attach_arguments, service_build_value,
    service_builder_from, ProposedServiceBuilder.new,
    ProposedServiceBuilder.with_service_id,
    ProposedServiceBuilder.with_service_type,
    ProposedServiceBuilder.with_node_id,
    ProposedServiceBuilder.with_arguments]

theorem built_services_loop_ok
    (ps : List ((Int × String) × ProposedServiceBuilder))
    (am : List ((Int × String) × List (String × String))) :
    ∀ acc, (∀ p ∈ ps, service_entry_wf p) →
      ∃ m, built_services_loop ps am acc = .ok m ∧
        ∀ i s, ((alGet m i).getD []).filter
            (fun svc => decide (svc.service_id = s)) =
          ((alGet acc i).getD []).filter
              (fun svc => decide (svc.service_id = s)) ++
            (ps.filter (fun p => decide (p.1 = (i, s)))).map
              (fun p =>
                service_build_value (attach_arguments p.2 (alGet am p.1))) := by
  induction ps with
  | nil =>
    intro acc h
    exact ⟨acc, rfl, fun i s => by simp⟩
  | cons entry rest ih =>
    intro acc h
    obtain ⟨key, b⟩ := entry
    obtain ⟨svc, hb, hkey⟩ := h (key, b) (List.mem_cons_self _ _)
    simp only at hb hkey
    have hseeded : (attach_arguments b (alGet am key)).seeded := by
      rw [hb]
      exact attach_arguments_seeded _ _ (service_builder_from_seeded svc)
    have hbuild := service_builder_build_eq _ hseeded
    obtain ⟨m, hm, hgroup⟩ := ih
      (group_push acc key.1
        (service_build_value (attach_arguments b (alGet am key))))
      (fun p hp => h p (List.mem_cons_of_mem _ hp))
    refine ⟨m, ?_, ?_⟩
    · simp [built_services_loop, hbuild, asStoreErr, Bind.bind, Except.bind,
        hm]
    · intro i s
      rw [hgroup i s]
      have hVsid : (service_build_value
          (attach_arguments b (alGet am key))).service_id = svc.service_id := by
        rw [hb, service_build_value_attach]
      by_cases hi : key.1 = i
      · subst hi
        rw [alGet_group_push_self]
        simp only [Option.getD_some, List.filter_append]
        by_cases hs : svc.service_id = s
        · have hkeyis : key = (key.1, s) := by
            rw [hkey]
            simp [hs]
          have hfilter : ((key, b) :: rest).filter
              (fun p => decide (p.1 = (key.1, s))) =
              (key, b) :: rest.filter (fun p => decide (p.1 = (key.1, s))) := by
            simp [List.filter_cons, eq_true hkeyis]
          rw [hfilter, List.map_cons]
          have hfV : List.filter (fun svc => decide (svc.service_id = s))
              [service_build_value (attach_arguments b (alGet am key))] =
              [service_build_value (attach_arguments b (alGet am key))] := by
            simp [List.filter_cons, hVsid, hs]
          rw [hfV, List.append_assoc]
          rfl
        · have hkeyis : ¬ (key = (key.1, s)) := by
            rw [hkey]
            simp [Prod.ext_iff, hs]
          have hfV : List.filter (fun svc => decide (svc.service_id = s))
              [service_build_value (attach_arguments b (alGet am key))] =
              [] := by
            simp [List.filter_cons, hVsid, hs]
          rw [hfV, List.append_nil]
          have hfilter : ((key, b) :: rest).filter
              (fun p => decide (p.1 = (key.1, s))) =
              rest.filter (fun p => decide (p.1 = (key.1, s))) := by
            simp [List.filter_cons, hkeyis]
          rw [hfilter]
      · rw [alGet_group_push_ne acc key.1 i _ (fun hc => hi hc.symm)]
        have hkeyis : ¬ (key = (i, s)) := by
          intro hc
          exact hi (congrArg Prod.fst hc)
        have hfilter : ((key, b) :: rest).filter
            (fun p => decide (p.1 = (i, s))) =
            rest.filter (fun p => decide (p.1 = (i, s))) := by
          simp [List.filter_cons, hkeyis]
        rw [hfilter]

theorem built_services_loop_first_err (key : Int × String)
    (b : ProposedServiceBuilder)
    (ps₂ : List ((Int × String) × ProposedServiceBuilder))
    (am : List ((Int × String) × List (String × String))) (msg : String)
    (hfail : (attach_arguments b (alGet am key)).build = .error msg) :
    ∀ ps₁, (∀ p ∈ ps₁,
        ∃ svc, (attach_arguments p.2 (alGet am p.1)).build = .ok svc) →
      ∀ acc, built_services_loop (ps₁ ++ (key, b) :: ps₂) am acc =
        .error (.invalidStateError msg) := by
  intro ps₁
  induction ps₁ with
  | nil =>
    intro _ acc
    simp [built_services_loop, hfail, asStoreErr, Bind.bind, Except.bind]
  | cons q qs ih =>
    intro hpre acc
    obtain ⟨qk, qb⟩ := q
    obtain ⟨svc, hq⟩ := hpre (qk, qb) (List.mem_cons_self _ _)
    simp only at hq
    simp only [List.cons_append, built_services_loop, hq, asStoreErr,
      Bind.bind, Except.bind]
    exact ih (fun p hp => hpre p (List.mem_cons_of_mem _ hp)) _

/-! Lemmas about the node stage. -/

/-- The endpoints a run of joined node rows contributes to one
(event id, node id) key, in arrival order. -/
def endpoints_of (key : Int × String)
    (rows : List (AdminEventProposedNodeModel × String)) : List String :=
  rows.filterMap fun p =>
    if (p.1.event_id, p.1.node_id) = key then some p.2 else none

theorem endpoints_of_cons_self (node : AdminEventProposedNodeModel)
    (ep : String) (rest : List (AdminEventProposedNodeModel × String))
    (key : Int × String) (hK : (node.event_id, node.node_id) = key) :
    endpoints_of key ((node, ep) :: rest) = ep :: endpoints_of key rest := by
  simp [endpoints_of, List.filterMap_cons, hK]

theorem endpoints_of_cons_ne (node : AdminEventProposedNodeModel)
    (ep : String) (rest : List (AdminEventProposedNodeModel × String))
    (key : Int × String) (hK : ¬ ((node.event_id, node.node_id) = key)) :
    endpoints_of key ((node, ep) :: rest) = endpoints_of key rest := by
  simp [endpoints_of, List.filterMap_cons, hK]

theorem node_loop_cons (node : AdminEventProposedNodeModel) (ep : String)
    (rest : List (AdminEventProposedNodeModel × String))
    (pn : List ((Int × String) × ProposedNodeBuilder)) :
    node_loop ((node, ep) :: rest) pn =
      node_loop rest
        (match alGet pn (node.event_id, node.node_id) with
         | some proposed_node =>
           alInsert pn (node.event_id, node.node_id)
             (push_endpoint proposed_node ep)
         | none =>
           alInsert pn (node.event_id, node.node_id)
             (ProposedNodeBuilder.new.with_node_id node.node_id
               |>.with_endpoints [ep])) := rfl

theorem push_endpoint_eq (b : ProposedNodeBuilder) (ep : String) :
    push_endpoint b ep =
      { node_id := b.node_id, endpoints := some (b.endpoints.getD [] ++ [ep]) } := by
  obtain ⟨nid, eps⟩ := b
  cases eps <;> rfl

theorem node_loop_get (rows : List (AdminEventProposedNodeModel × String)) :
    ∀ pn key, alGet (node_loop rows pn) key =
      if endpoints_of key rows = [] then alGet pn key
      else some
        { node_id := (alGet pn key).elim (some key.2) (fun b => b.node_id),
          endpoints := some
            (((alGet pn key).elim [] (fun b => b.endpoints.getD [])) ++
              endpoints_of key rows) } := by
  induction rows with
  | nil =>
    intro pn key
    simp [node_loop, endpoints_of]
  | cons row rest ih =>
    intro pn key
    obtain ⟨node, ep⟩ := row
    rw [node_loop_cons, ih]
    by_cases hK : (node.event_id, node.node_id) = key
    · have hkey2 : node.node_id = key.2 := by
        rw [← hK]
      rw [endpoints_of_cons_self node ep rest key hK]
      cases hget : alGet pn (node.event_id, node.node_id) with
      | some b =>
        rw [hK] at hget
        rw [hK, hget]
        rw [alGet_alInsert_self]
        by_cases hrest : endpoints_of key rest = []
        · simp [hrest, hget, push_endpoint_eq]
        · simp [hrest, hget, push_endpoint_eq, List.append_assoc]
      | none =>
        rw [hK] at hget
        rw [hK, hget]
        rw [alGet_alInsert_self]
        by_cases hrest : endpoints_of key rest = []
        · simp [hrest, hget, ProposedNodeBuilder.new,
            ProposedNodeBuilder.with_node_id,
            ProposedNodeBuilder.with_endpoints, hkey2]
        · simp [hrest, hget, ProposedNodeBuilder.new,
            ProposedNodeBuilder.with_node_id,
            ProposedNodeBuilder.with_endpoints, hkey2]
    · rw [endpoints_of_cons_ne node ep rest key hK]
      have hpn : alGet
          (match alGet pn (node.event_id, node.node_id) with
           | some proposed_node =>
             alInsert pn (node.event_id, node.node_id)
               (push_endpoint proposed_node ep)
           | none =>
             alInsert pn (node.event_id, node.node_id)
               (ProposedNodeBuilder.new.with_node_id node.node_id
                 |>.with_endpoints [ep])) key = alGet pn key := by
        cases hget : alGet pn (node.event_id, node.node_id) <;>
          simp [alGet_alInsert_ne _ _ _ _ (fun hc => hK hc.symm)]
      rw [hpn]

/-- Every builder entry of the node map carries the node id of its key. -/
def node_entry_wf (p : (Int × String) × ProposedNodeBuilder) : Prop :=
  p.2.node_id = some p.1.2

theorem node_loop_entries_wf
    (rows : List (AdminEventProposedNodeModel × String)) :
    ∀ pn, (∀ p ∈ pn, node_entry_wf p) →
      ∀ p ∈ node_loop rows pn, node_entry_wf p := by
  induction rows with
  | nil =>
    intro pn h
    simpa [node_loop] using h
  | cons row rest ih =>
    intro pn h
    obtain ⟨node, ep⟩ := row
    rw [node_loop_cons]
    apply ih
    cases hget : alGet pn (node.event_id, node.node_id) with
    | some b =>
      intro p hp
      rcases mem_alInsert p _ _ _ hp with hkv | hp'
      · have hb : node_entry_wf ((node.event_id, node.node_id), b) :=
          h _ (alGet_mem pn _ b hget)
        rw [hkv]
        unfold node_entry_wf at hb ⊢
        rw [push_endpoint_eq]
        exact hb
      · exact h p hp'
    | none =>
      intro p hp
      rcases mem_alInsert p _ _ _ hp with hkv | hp'
      · rw [hkv]
        unfold node_entry_wf
        rfl
      · exact h p hp'

theorem node_loop_keys_nodup
    (rows : List (AdminEventProposedNodeModel × String)) :
    ∀ pn, (alKeys pn).Nodup → (alKeys (node_loop rows pn)).Nodup := by
  induction rows with
  | nil =>
    intro pn h
    simpa [node_loop] using h
  | cons row rest ih =>
    intro pn h
    obtain ⟨node, ep⟩ := row
    rw [node_loop_cons]
    apply ih
    cases hget : alGet pn (node.event_id, node.node_id) <;>
      exact nodup_alKeys_alInsert _ _ _ h

theorem built_nodes_loop_ok (pn : List ((Int × String) × ProposedNodeBuilder)) :
    ∀ acc, (∀ p ∈ pn, node_entry_wf p) →
      ∃ m, built_nodes_loop pn acc = .ok m ∧
        ∀ i n, ((alGet m i).getD []).filter
            (fun nd => decide (nd.node_id = n)) =
          ((alGet acc i).getD []).filter
              (fun nd => decide (nd.node_id = n)) ++
            (pn.filter (fun p => decide (p.1 = (i, n)))).map
              (fun p => node_build_value p.2) := by
  induction pn with
  | nil =>
    intro acc h
    exact ⟨acc, rfl, fun i n => by simp⟩
  | cons entry rest ih =>
    intro acc h
    obtain ⟨key, b⟩ := entry
    have hwf : b.node_id = some key.2 := h (key, b) (List.mem_cons_self _ _)
    have hbuild' : b.build = .ok (node_build_value b) :=
      node_builder_build_eq b (by rw [hwf]; rfl)
    obtain ⟨m, hm, hgroup⟩ := ih (group_push acc key.1 (node_build_value b))
      (fun p hp => h p (List.mem_cons_of_mem _ hp))
    refine ⟨m, ?_, ?_⟩
    · simp [built_nodes_loop, hbuild', asStoreErr, Bind.bind, Except.bind, hm]
    · intro i n
      rw [hgroup i n]
      have hVnid : (node_build_value b).node_id = key.2 := by
        unfold node_build_value
        rw [hwf]
        rfl
      by_cases hi : key.1 = i
      · subst hi
        rw [alGet_group_push_self]
        simp only [Option.getD_some, List.filter_append]
        by_cases hn : key.2 = n
        · have hkeyis : key = (key.1, n) := by
            rw [← hn]
          have hfilter : ((key, b) :: rest).filter
              (fun p => decide (p.1 = (key.1, n))) =
              (key, b) :: rest.filter (fun p => decide (p.1 = (key.1, n))) := by
            simp [List.filter_cons, eq_true hkeyis]
          rw [hfilter, List.map_cons]
          have hfV : List.filter (fun nd => decide (nd.node_id = n))
              [node_build_value b] = [node_build_value b] := by
            simp [List.filter_cons, hVnid, hn]
          rw [hfV, List.append_assoc]
          rfl
        · have hkeyis : ¬ (key = (key.1, n)) := by
            intro hc
            exact hn (congrArg Prod.snd hc)
          have hfV : List.filter (fun nd => decide (nd.node_id = n))
              [node_build_value b] = [] := by
            simp [List.filter_cons, hVnid, hn]
          rw [hfV, List.append_nil]
          have hfilter : ((key, b) :: rest).filter
              (fun p => decide (p.1 = (key.1, n))) =
              rest.filter (fun p => decide (p.1 = (key.1, n))) := by
            simp [List.filter_cons, hkeyis]
          rw [hfilter]
      · rw [alGet_group_push_ne acc key.1 i _ (fun hc => hi hc.symm)]
        have hkeyis : ¬ (key = (i, n)) := by
          intro hc
          exact hi (congrArg Prod.fst hc)
        have hfilter : ((key, b) :: rest).filter
            (fun p => decide (p.1 = (i, n))) =
            rest.filter (fun p => decide (p.1 = (i, n))) := by
          simp [List.filter_cons, hkeyis]
        rw [hfilter]

theorem built_nodes_loop_first_err (key : Int × String)
    (b : ProposedNodeBuilder)
    (pn₂ : List ((Int × String) × ProposedNodeBuilder)) (msg : String)
    (hfail : b.build = .error msg) :
    ∀ pn₁, (∀ p ∈ pn₁, ∃ nd, (p.2 : ProposedNodeBuilder).build = .ok nd) →
      ∀ acc, built_nodes_loop (pn₁ ++ (key, b) :: pn₂) acc =
        .error (.invalidStateError msg) := by
  intro pn₁
  induction pn₁ with
  | nil =>
    intro _ acc
    simp [built_nodes_loop, hfail, asStoreErr, Bind.bind, Except.bind]
  | cons q qs ih =>
    intro hpre acc
    obtain ⟨qk, qb⟩ := q
    obtain ⟨nd, hq⟩ := hpre (qk, qb) (List.mem_cons_self _ _)
    simp only at hq
    simp only [List.cons_append, built_nodes_loop, hq, asStoreErr, Bind.bind,
      Except.bind]
    exact ih (fun p hp => hpre p (List.mem_cons_of_mem _ hp)) _

/-! Lemmas about the vote stage. -/

theorem vote_loop_ok (rows : List AdminEventVoteRecordModel)
    (h : ∀ v ∈ rows, (VoteRecord.tryFrom v).isOk = true) :
    ∀ acc, ∃ m, vote_loop rows acc = .ok m := by
  induction rows with
  | nil =>
    intro acc
    exact ⟨acc, rfl⟩
  | cons v rest ih =>
    intro acc
    obtain ⟨vr, hvr⟩ := (except_isOk_iff _).mp (h v (List.mem_cons_self _ _))
    obtain ⟨m, hm⟩ := ih (fun v' h' => h v' (List.mem_cons_of_mem _ h'))
      (group_push acc v.event_id vr)
    exact ⟨m, by simp [vote_loop, hvr, asStoreErr, Bind.bind, Except.bind,
      hm]⟩

theorem vote_loop_err (rows : List AdminEventVoteRecordModel)
    (v : AdminEventVoteRecordModel) (hmem : v ∈ rows)
    (hfail : ¬ (VoteRecord.tryFrom v).isOk = true) :
    ∀ acc, ∃ msg, vote_loop rows acc = .error (.invalidStateError msg) := by
  induction rows with
  | nil => cases hmem
  | cons r rest ih =>
    intro acc
    cases hr : VoteRecord.tryFrom r with
    | error msg =>
      exact ⟨msg, by simp [vote_loop, hr, asStoreErr, Bind.bind,
        Except.bind]⟩
    | ok vr =>
      rcases List.mem_cons.mp hmem with rfl | hmem'
      · rw [hr] at hfail
        simp [Except.isOk, Except.toBool] at hfail
      · obtain ⟨msg, hmsg⟩ := ih hmem' (group_push acc r.event_id vr)
        exact ⟨msg, by simp [vote_loop, hr, asStoreErr, Bind.bind,
          Except.bind, hmsg]⟩

/-! Lemmas about the assembly stage. -/

theorem attach_roster_seeded (b : ProposedCircuitBuilder)
    (o : Option (List ProposedService)) (h : b.seeded) :
    (attach_roster b o).seeded := by
  cases o <;> simp_all [attach_roster, ProposedCircuitBuilder.with_roster,
    ProposedCircuitBuilder.seeded]

theorem attach_members_seeded (b : ProposedCircuitBuilder)
    (o : Option (List ProposedNode)) (h : b.seeded) :
    (attach_members b o).seeded := by
  cases o <;> simp_all [attach_members, ProposedCircuitBuilder.with_members,
    ProposedCircuitBuilder.seeded]

theorem attach_votes_seeded (b : CircuitProposalBuilder)
    (o : Option (List VoteRecord)) (h : b.seeded) :
    (attach_votes b o).seeded := by
  cases o <;> simp_all [attach_votes, CircuitProposalBuilder.with_votes,
    CircuitProposalBuilder.seeded]

theorem assemble_one_event_id (event_id : Int)
    (entry : AdminServiceEventModel × CircuitProposalBuilder ×
      ProposedCircuitBuilder)
    (svcs : List (Int × List ProposedService))
    (nodes : List (Int × List ProposedNode))
    (votes : List (Int × List VoteRecord)) (ev : AdminServiceEvent)
    (h : assemble_one event_id entry svcs nodes votes = .ok ev) :
    ev.event_id = entry.1.id := by
  simp only [assemble_one] at h
  cases hc : (attach_members (attach_roster entry.2.2 (alGet svcs event_id))
      (alGet nodes event_id)).build with
  | error e => simp [hc, asStoreErr, Bind.bind, Except.bind] at h
  | ok c =>
    rw [hc] at h
    simp only [asStoreErr, Bind.bind, Except.bind] at h
    cases hp : ((attach_votes entry.2.1 (alGet votes event_id)).with_circuit
        c).build with
    | error e => simp [hp] at h
    | ok prop =>
      rw [hp] at h
      simp only [AdminServiceEvent.tryFrom] at h
      cases het : EventType.tryFrom entry.1.event_type with
      | error e => simp [het, Bind.bind, Except.bind] at h
      | ok et =>
        rw [het] at h
        simp only [Bind.bind, Except.bind] at h
        cases h
        rfl

theorem assemble_one_ok (event_id : Int)
    (entry : AdminServiceEventModel × CircuitProposalBuilder ×
      ProposedCircuitBuilder)
    (svcs : List (Int × List ProposedService))
    (nodes : List (Int × List ProposedNode))
    (votes : List (Int × List VoteRecord))
    (hpb : entry.2.1.seeded) (hpcb : entry.2.2.seeded)
    (het : (EventType.tryFrom entry.1.event_type).isOk = true) :
    ∃ ev, assemble_one event_id entry svcs nodes votes = .ok ev ∧
      ev.event_id = entry.1.id := by
  have hc : (attach_members (attach_roster entry.2.2 (alGet svcs event_id))
      (alGet nodes event_id)).seeded :=
    attach_members_seeded _ _ (attach_roster_seeded _ _ hpcb)
  have hcb := circuit_builder_build_eq _ hc
  have hpb' : (attach_votes entry.2.1 (alGet votes event_id)).seeded :=
    attach_votes_seeded _ _ hpb
  have hpbuild := proposal_builder_build_eq
    (attach_votes entry.2.1 (alGet votes event_id))
    (circuit_build_value (attach_members
      (attach_roster entry.2.2 (alGet svcs event_id))
      (alGet nodes event_id))) hpb'
  obtain ⟨et, het'⟩ := (except_isOk_iff _).mp het
  have hok : (assemble_one event_id entry svcs nodes votes).isOk = true := by
    simp [assemble_one, hcb, hpbuild, asStoreErr, Bind.bind, Except.bind,
      AdminServiceEvent.tryFrom, het', Except.isOk, Except.toBool]
  obtain ⟨ev, hev⟩ := (except_isOk_iff _).mp hok
  exact ⟨ev, hev, assemble_one_event_id _ _ _ _ _ _ hev⟩

theorem assemble_loop_ids (svcs : List (Int × List ProposedService))
    (nodes : List (Int × List ProposedNode))
    (votes : List (Int × List VoteRecord)) :
    ∀ em acc evs, assemble_loop em svcs nodes votes acc = .ok evs →
      evs.map (fun ev => ev.event_id) =
        acc.map (fun ev => ev.event_id) ++ em.map (fun p => p.2.1.id) := by
  intro em
  induction em with
  | nil =>
    intro acc evs h
    cases h
    simp
  | cons entry rest ih =>
    intro acc evs h
    obtain ⟨k, e⟩ := entry
    cases ha : assemble_one k e svcs nodes votes with
    | error err => simp [assemble_loop, ha, Bind.bind, Except.bind] at h
    | ok ev =>
      simp only [assemble_loop, ha, Bind.bind, Except.bind] at h
      rw [ih (acc ++ [ev]) evs h]
      have hid : ev.event_id = e.1.id :=
        assemble_one_event_id k e svcs nodes votes ev ha
      simp [hid, List.append_assoc]

theorem assemble_loop_ok (svcs : List (Int × List ProposedService))
    (nodes : List (Int × List ProposedNode))
    (votes : List (Int × List VoteRecord)) :
    ∀ em, (∀ p ∈ em, p.2.2.1.seeded ∧ p.2.2.2.seeded ∧
        (EventType.tryFrom p.2.1.event_type).isOk = true) →
      ∀ acc, ∃ evs, assemble_loop em svcs nodes votes acc = .ok evs := by
  intro em
  induction em with
  | nil =>
    intro _ acc
    exact ⟨acc, rfl⟩
  | cons entry rest ih =>
    intro h acc
    obtain ⟨k, e⟩ := entry
    obtain ⟨h1, h2, h3⟩ := h (k, e) (List.mem_cons_self _ _)
    obtain ⟨ev, hev, -⟩ := assemble_one_ok k e svcs nodes votes h1 h2 h3
    obtain ⟨evs, hevs⟩ :=
      ih (fun p hp => h p (List.mem_cons_of_mem _ hp)) (acc ++ [ev])
    exact ⟨evs, by simp [assemble_loop, hev, Bind.bind, Except.bind, hevs]⟩

theorem assemble_loop_first_err (svcs : List (Int × List ProposedService))
    (nodes : List (Int × List ProposedNode))
    (votes : List (Int × List VoteRecord)) (k : Int)
    (entry : AdminServiceEventModel × CircuitProposalBuilder ×
      ProposedCircuitBuilder)
    (em₂ : List (Int × (AdminServiceEventModel × CircuitProposalBuilder ×
      ProposedCircuitBuilder))) (msg : String)
    (hfail : assemble_one k entry svcs nodes votes =
      .error (.invalidStateError msg)) :
    ∀ em₁, (∀ p ∈ em₁, ∃ ev, assemble_one p.1 p.2 svcs nodes votes = .ok ev) →
      ∀ acc, assemble_loop (em₁ ++ (k, entry) :: em₂) svcs nodes votes acc =
        .error (.invalidStateError msg) := by
  intro em₁
  induction em₁ with
  | nil =>
    intro _ acc
    simp [assemble_loop, hfail, Bind.bind, Except.bind]
  | cons q qs ih =>
    intro hpre acc
    obtain ⟨qk, qe⟩ := q
    obtain ⟨ev, hq⟩ := hpre (qk, qe) (List.mem_cons_self _ _)
    simp only at hq
    simp only [List.cons_append, assemble_loop, hq, Bind.bind, Except.bind]
    exact ih (fun p hp => hpre p (List.mem_cons_of_mem _ hp)) _

/-! Lemmas about the final sort. -/

instance : IsTotal AdminServiceEvent (fun a b => a.event_id ≤ b.event_id) :=
  ⟨fun a b => le_total _ _⟩

instance : IsTrans AdminServiceEvent (fun a b => a.event_id ≤ b.event_id) :=
  ⟨fun _ _ _ hab hbc => le_trans hab hbc⟩

theorem sort_events_perm (evs : List AdminServiceEvent) :
    (sort_events evs).Perm evs :=
  List.perm_insertionSort _ _

theorem sort_events_sorted_lt (evs : List AdminServiceEvent)
    (hnd : (evs.map (fun e => e.event_id)).Nodup) :
    List.Pairwise (fun a b => a.event_id < b.event_id) (sort_events evs) := by
  have hsorted : List.Pairwise
      (fun a b : AdminServiceEvent => a.event_id ≤ b.event_id)
      (sort_events evs) :=
    List.sorted_insertionSort
      (fun a b : AdminServiceEvent => a.event_id ≤ b.event_id) evs
  have hperm : ((sort_events evs).map (fun e => e.event_id)).Perm
      (evs.map (fun e => e.event_id)) := (sort_events_perm evs).map _
  have hnd' : ((sort_events evs).map (fun e => e.event_id)).Nodup :=
    hperm.nodup_iff.mpr hnd
  have hne : List.Pairwise (fun a b => a.event_id ≠ b.event_id)
      (sort_events evs) := List.pairwise_map.mp hnd'
  exact (hsorted.and hne).imp (fun h => lt_of_le_of_ne h.1 h.2)

/-! Lemmas relating the join queries to per-key table filters. -/

theorem args_of_append (key : Int × String)
    (l₁ l₂ : List (AdminEventProposedServiceModel ×
      Option AdminEventProposedServiceArgumentModel)) :
    args_of key (l₁ ++ l₂) = args_of key l₁ ++ args_of key l₂ := by
  simp [args_of, List.filterMap_append]

theorem first_service_row_append (key : Int × String)
    (l₁ l₂ : List (AdminEventProposedServiceModel ×
      Option AdminEventProposedServiceArgumentModel)) :
    first_service_row key (l₁ ++ l₂) =
      (first_service_row key l₁).or (first_service_row key l₂) := by
  simp only [first_service_row, List.find?_append]
  cases List.find? (fun p => decide ((p.1.event_id, p.1.service_id) = key))
    l₁ <;> simp [Option.or]

theorem args_of_join_block_ne (db : Db)
    (q : AdminEventProposedServiceModel) (key : Int × String)
    (h : ¬ ((q.event_id, q.service_id) = key)) :
    args_of key (service_join_rows db q) = [] := by
  unfold service_join_rows
  cases hf : db.admin_event_proposed_service_argument.filter
      (fun a => decide (a.event_id = q.event_id) &&
        decide (a.service_id = q.service_id)) with
  | nil => simp [args_of, List.filterMap_cons, h]
  | cons a as =>
    simp only [args_of, List.filterMap_map]
    apply List.filterMap_eq_nil_iff.mpr
    intro x hx
    simp [Function.comp, h]

theorem first_service_row_join_block_ne (db : Db)
    (q : AdminEventProposedServiceModel) (key : Int × String)
    (h : ¬ ((q.event_id, q.service_id) = key)) :
    first_service_row key (service_join_rows db q) = none := by
  unfold service_join_rows
  cases hf : db.admin_event_proposed_service_argument.filter
      (fun a => decide (a.event_id = q.event_id) &&
        decide (a.service_id = q.service_id)) with
  | nil => simp [first_service_row, List.find?_cons, h]
  | cons a as =>
    simp only [first_service_row, Option.map_eq_none', List.find?_eq_none]
    intro x hx
    simp only [List.mem_map] at hx
    obtain ⟨y, hy, rfl⟩ := hx
    simp [h]

theorem args_of_join_block_self (db : Db)
    (q : AdminEventProposedServiceModel) :
    args_of (q.event_id, q.service_id) (service_join_rows db q) =
      (db.admin_event_proposed_service_argument.filter
        (fun a => decide (a.event_id = q.event_id) &&
          decide (a.service_id = q.service_id))).map
        (fun a => (a.key, a.value)) := by
  unfold service_join_rows
  cases hf : db.admin_event_proposed_service_argument.filter
      (fun a => decide (a.event_id = q.event_id) &&
        decide (a.service_id = q.service_id)) with
  | nil => simp [args_of, List.filterMap_cons]
  | cons a as =>
    simp only [args_of, List.filterMap_map]
    rw [List.filterMap_eq_map_iff_forall_eq_some.mpr ?_]
    intro x hx
    simp [Function.comp]

theorem first_service_row_join_block_self (db : Db)
    (q : AdminEventProposedServiceModel) :
    first_service_row (q.event_id, q.service_id) (service_join_rows db q) =
      some q := by
  unfold service_join_rows
  cases hf : db.admin_event_proposed_service_argument.filter
      (fun a => decide (a.event_id = q.event_id) &&
        decide (a.service_id = q.service_id)) with
  | nil => simp [first_service_row, List.find?_cons]
  | cons a as => simp [first_service_row, List.find?_cons]

theorem service_table_zero (db : Db) (event_ids : List Int) (i : Int)
    (s : String) :
    ∀ L : List AdminEventProposedServiceModel,
      L.filter (fun q => decide (q.event_id = i) &&
        decide (q.service_id = s)) = [] →
      args_of (i, s) ((L.filter
          (fun q => decide (q.event_id ∈ event_ids))).flatMap
        (service_join_rows db)) = [] ∧
      first_service_row (i, s) ((L.filter
          (fun q => decide (q.event_id ∈ event_ids))).flatMap
        (service_join_rows db)) = none := by
  intro L
  induction L with
  | nil =>
    intro _
    exact ⟨rfl, rfl⟩
  | cons q L ih =>
    intro hz
    have hq : ¬ ((q.event_id, q.service_id) = (i, s)) := by
      intro hc
      have h1 : q.event_id = i := congrArg Prod.fst hc
      have h2 : q.service_id = s := congrArg Prod.snd hc
      simp [List.filter_cons, h1, h2] at hz
    have hz' : L.filter (fun q => decide (q.event_id = i) &&
        decide (q.service_id = s)) = [] := by
      by_cases hp : (decide (q.event_id = i) && decide (q.service_id = s))
          = true
      · simp [List.filter_cons, hp] at hz
      · simpa [List.filter_cons, hp] using hz
    obtain ⟨iha, ihf⟩ := ih hz'
    by_cases hin : q.event_id ∈ event_ids
    · rw [List.filter_cons, if_pos (by simpa using hin), List.flatMap_cons]
      rw [args_of_append, first_service_row_append,
        args_of_join_block_ne db q _ hq,
        first_service_row_join_block_ne db q _ hq, iha, ihf]
      exact ⟨rfl, rfl⟩
    · rw [List.filter_cons, if_neg (by simpa using hin)]
      exact ⟨iha, ihf⟩

theorem service_table_one (db : Db) (event_ids : List Int) (i : Int)
    (s : String) (r : AdminEventProposedServiceModel) (hin : i ∈ event_ids) :
    ∀ L : List AdminEventProposedServiceModel,
      L.filter (fun q => decide (q.event_id = i) &&
        decide (q.service_id = s)) = [r] →
      args_of (i, s) ((L.filter
          (fun q => decide (q.event_id ∈ event_ids))).flatMap
        (service_join_rows db)) =
        (db.admin_event_proposed_service_argument.filter
          (fun a => decide (a.event_id = i) &&
            decide (a.service_id = s))).map (fun a => (a.key, a.value)) ∧
      first_service_row (i, s) ((L.filter
          (fun q => decide (q.event_id ∈ event_ids))).flatMap
        (service_join_rows db)) = some r := by
  intro L
  induction L with
  | nil =>
    intro hz
    cases hz
  | cons q L ih =>
    intro hone
    by_cases hp : (decide (q.event_id = i) && decide (q.service_id = s))
        = true
    · have hp12 : q.event_id = i ∧ q.service_id = s := by simpa using hp
      obtain ⟨hp1, hp2⟩ := hp12
      rw [List.filter_cons, if_pos hp] at hone
      injection hone with hqr hz
      subst hqr
      obtain ⟨za, zf⟩ := service_table_zero db event_ids i s L hz
      have hinq : q.event_id ∈ event_ids := by
        rw [hp1]
        exact hin
      rw [List.filter_cons, if_pos (by simpa using hinq), List.flatMap_cons,
        args_of_append, first_service_row_append, za, zf]
      constructor
      · rw [List.append_nil]
        have hblock := args_of_join_block_self db q
        rw [hp1, hp2] at hblock
        exact hblock
      · have hblock := first_service_row_join_block_self db q
        rw [hp1, hp2] at hblock
        rw [hblock]
        rfl
    · rw [List.filter_cons, if_neg hp] at hone
      have hq : ¬ ((q.event_id, q.service_id) = (i, s)) := by
        intro hc
        apply hp
        simp only [Bool.and_eq_true, decide_eq_true_eq]
        exact ⟨congrArg Prod.fst hc, congrArg Prod.snd hc⟩
      obtain ⟨iha, ihf⟩ := ih hone
      by_cases hinq : q.event_id ∈ event_ids
      · rw [List.filter_cons, if_pos (by simpa using hinq), List.flatMap_cons,
          args_of_append, first_service_row_append,
          args_of_join_block_ne db q _ hq,
          first_service_row_join_block_ne db q _ hq, iha, ihf]
        exact ⟨rfl, rfl⟩
      · rw [List.filter_cons, if_neg (by simpa using hinq)]
        exact ⟨iha, ihf⟩

theorem endpoints_of_append (key : Int × String)
    (l₁ l₂ : List (AdminEventProposedNodeModel × String)) :
    endpoints_of key (l₁ ++ l₂) =
      endpoints_of key l₁ ++ endpoints_of key l₂ := by
  simp [endpoints_of, List.filterMap_append]

theorem endpoints_of_node_block_ne (db : Db)
    (q : AdminEventProposedNodeModel) (key : Int × String)
    (h : ¬ ((q.event_id, q.node_id) = key)) :
    endpoints_of key (node_join_rows db q) = [] := by
  unfold node_join_rows
  simp only [endpoints_of, List.filterMap_map]
  apply List.filterMap_eq_nil_iff.mpr
  intro x hx
  simp [Function.comp, h]

theorem endpoints_of_node_block_self (db : Db)
    (q : AdminEventProposedNodeModel) :
    endpoints_of (q.event_id, q.node_id) (node_join_rows db q) =
      (db.admin_event_proposed_node_endpoint.filter
        (fun ep => decide (ep.node_id = q.node_id) &&
          decide (ep.event_id = q.event_id))).map (fun ep => ep.endpoint) := by
  unfold node_join_rows
  simp only [endpoints_of, List.filterMap_map]
  rw [List.filterMap_eq_map_iff_forall_eq_some.mpr ?_]
  intro x hx
  simp [Function.comp]

theorem node_table_zero (db : Db) (event_ids : List Int) (i : Int)
    (n : String)
    (hz : db.admin_event_proposed_node_endpoint.filter
      (fun ep => decide (ep.node_id = n) && decide (ep.event_id = i)) = []) :
    ∀ L : List AdminEventProposedNodeModel,
      endpoints_of (i, n) ((L.filter
          (fun q => decide (q.event_id ∈ event_ids))).flatMap
        (node_join_rows db)) = [] := by
  intro L
  induction L with
  | nil => rfl
  | cons q L ih =>
    by_cases hq : (q.event_id, q.node_id) = (i, n)
    · have hq1 : q.event_id = i := congrArg Prod.fst hq
      have hq2 : q.node_id = n := congrArg Prod.snd hq
      by_cases hinq : q.event_id ∈ event_ids
      · rw [List.filter_cons, if_pos (by simpa using hinq),
          List.flatMap_cons, endpoints_of_append]
        have hblock := endpoints_of_node_block_self db q
        rw [hq1, hq2, hz] at hblock
        rw [hblock, ih]
        rfl
      · rw [List.filter_cons, if_neg (by simpa using hinq)]
        exact ih
    · by_cases hinq : q.event_id ∈ event_ids
      · rw [List.filter_cons, if_pos (by simpa using hinq),
          List.flatMap_cons, endpoints_of_append,
          endpoints_of_node_block_ne db q _ hq, ih]
        rfl
      · rw [List.filter_cons, if_neg (by simpa using hinq)]
        exact ih

theorem node_table_one (db : Db) (event_ids : List Int) (i : Int)
    (n : String) (r : AdminEventProposedNodeModel) (hin : i ∈ event_ids) :
    ∀ L : List AdminEventProposedNodeModel,
      L.filter (fun q => decide (q.event_id = i) &&
        decide (q.node_id = n)) = [r] →
      endpoints_of (i, n) ((L.filter
          (fun q => decide (q.event_id ∈ event_ids))).flatMap
        (node_join_rows db)) =
        (db.admin_event_proposed_node_endpoint.filter
          (fun ep => decide (ep.node_id = n) &&
            decide (ep.event_id = i))).map (fun ep => ep.endpoint) := by
  intro L
  induction L with
  | nil =>
    intro hz
    cases hz
  | cons q L ih =>
    intro hone
    by_cases hp : (decide (q.event_id = i) && decide (q.node_id = n)) = true
    · have hp12 : q.event_id = i ∧ q.node_id = n := by simpa using hp
      obtain ⟨hp1, hp2⟩ := hp12
      rw [List.filter_cons, if_pos hp] at hone
      injection hone with hqr hz
      subst hqr
      have hz' : ∀ L' : List AdminEventProposedNodeModel,
          L'.filter (fun q' => decide (q'.event_id = i) &&
            decide (q'.node_id = n)) = [] →
          endpoints_of (i, n) ((L'.filter
              (fun q' => decide (q'.event_id ∈ event_ids))).flatMap
            (node_join_rows db)) = [] := by
        intro L'
        induction L' with
        | nil =>
          intro _
          rfl
        | cons q' L' ih' =>
          intro hz0
          have hq' : ¬ ((q'.event_id, q'.node_id) = (i, n)) := by
            intro hc
            have h1 : q'.event_id = i := congrArg Prod.fst hc
            have h2 : q'.node_id = n := congrArg Prod.snd hc
            simp [List.filter_cons, h1, h2] at hz0
          have hz0' : L'.filter (fun q' => decide (q'.event_id = i) &&
              decide (q'.node_id = n)) = [] := by
            by_cases hp' : (decide (q'.event_id = i) &&
                decide (q'.node_id = n)) = true
            · simp [List.filter_cons, hp'] at hz0
            · simpa [List.filter_cons, hp'] using hz0
          by_cases hinq' : q'.event_id ∈ event_ids
          · rw [List.filter_cons, if_pos (by simpa using hinq'),
              List.flatMap_cons, endpoints_of_append,
              endpoints_of_node_block_ne db q' _ hq', ih' hz0']
            rfl
          · rw [List.filter_cons, if_neg (by simpa using hinq')]
            exact ih' hz0'
      have hinq : q.event_id ∈ event_ids := by
        rw [hp1]
        exact hin
      rw [List.filter_cons, if_pos (by simpa using hinq), List.flatMap_cons,
        endpoints_of_append, hz' L hz, List.append_nil]
      have hblock := endpoints_of_node_block_self db q
      rw [hp1, hp2] at hblock
      exact hblock
    · rw [List.filter_cons, if_neg hp] at hone
      have hq : ¬ ((q.event_id, q.node_id) = (i, n)) := by
        intro hc
        apply hp
        simp only [Bool.and_eq_true, decide_eq_true_eq]
        exact ⟨congrArg Prod.fst hc, congrArg Prod.snd hc⟩
      by_cases hinq : q.event_id ∈ event_ids
      · rw [List.filter_cons, if_pos (by simpa using hinq),
          List.flatMap_cons, endpoints_of_append,
          endpoints_of_node_block_ne db q _ hq, ih hone]
        rfl
      · rw [List.filter_cons, if_neg (by simpa using hinq)]
        exact ih hone

/-! Bridging `alGet` results to entry filters. -/

theorem filter_key_eq_nil_of_alGet_none {κ ν : Type} [DecidableEq κ]
    (l : List (κ × ν)) (k : κ) (h : alGet l k = none) :
    l.filter (fun p => decide (p.1 = k)) = [] := by
  rw [List.filter_eq_nil_iff]
  intro p hp
  simp only [decide_eq_true_eq]
  intro hc
  rw [alGet_eq_none_iff] at h
  exact h (hc ▸ List.mem_map_of_mem Prod.fst hp)

theorem filter_key_of_alGet_some {κ ν : Type} [DecidableEq κ]
    (l : List (κ × ν)) (k : κ) (v : ν) (hnd : (alKeys l).Nodup)
    (h : alGet l k = some v) :
    l.filter (fun p => decide (p.1 = k)) = [(k, v)] := by
  induction l with
  | nil => cases h
  | cons p t ih =>
    rw [alGet_cons] at h
    simp only [alKeys, List.map_cons, List.nodup_cons] at hnd
    by_cases hp : p.1 = k
    · rw [if_pos hp] at h
      injection h with hv
      have hpkv : p = (k, v) := by
        cases p
        simp only [Prod.mk.injEq]
        exact ⟨hp, hv⟩
      rw [List.filter_cons, if_pos (by simp [hp])]
      have htail : t.filter (fun p => decide (p.1 = k)) = [] := by
        rw [List.filter_eq_nil_iff]
        intro q hq
        simp only [decide_eq_true_eq]
        intro hc
        apply hnd.1
        rw [hp, ← hc]
        exact List.mem_map_of_mem Prod.fst hq
      rw [htail, hpkv]
    · rw [if_neg hp] at h
      rw [List.filter_cons, if_neg (by simp [hp])]
      exact ih hnd.2 h

/-! Characterization of the primary join's ids. -/

theorem event_models_mem_id (db : Db) (event_ids : List Int) (i : Int) :
    (∃ row ∈ event_models db event_ids, row.1.id = i) ↔
      (i ∈ event_ids ∧ (∃ e ∈ db.admin_service_event, e.id = i) ∧
        (∃ cp ∈ db.admin_event_circuit_proposal, cp.event_id = i) ∧
        (∃ pc ∈ db.admin_event_proposed_circuit, pc.event_id = i)) := by
  constructor
  · rintro ⟨row, hrow, hid⟩
    unfold event_models at hrow
    obtain ⟨e, heF, hrow1⟩ := List.mem_flatMap.mp hrow
    obtain ⟨he, heid⟩ := List.mem_filter.mp heF
    obtain ⟨cp, hcpF, hrow2⟩ := List.mem_flatMap.mp hrow1
    obtain ⟨hcp, hcpe⟩ := List.mem_filter.mp hcpF
    obtain ⟨pc, hpcF, hrow3⟩ := List.mem_map.mp hrow2
    obtain ⟨hpc, hpce⟩ := List.mem_filter.mp hpcF
    simp only [decide_eq_true_eq] at heid hcpe hpce
    rw [← hrow3] at hid
    simp only at hid
    refine ⟨hid ▸ heid, ⟨e, he, hid⟩, ⟨cp, hcp, ?_⟩, ⟨pc, hpc, ?_⟩⟩
    · rw [hcpe, hid]
    · rw [hpce, hid]
  · rintro ⟨hiE, ⟨e, he, hei⟩, ⟨cp, hcp, hcpi⟩, ⟨pc, hpc, hpci⟩⟩
    refine ⟨(e, cp, pc), ?_, hei⟩
    unfold event_models
    refine List.mem_flatMap.mpr ⟨e, List.mem_filter.mpr ⟨he, ?_⟩, ?_⟩
    · simp only [decide_eq_true_eq]
      rw [hei]
      exact hiE
    refine List.mem_flatMap.mpr ⟨cp, List.mem_filter.mpr ⟨hcp, ?_⟩, ?_⟩
    · simp only [decide_eq_true_eq]
      rw [hcpi, hei]
    refine List.mem_map.mpr ⟨pc, List.mem_filter.mpr ⟨hpc, ?_⟩, rfl⟩
    simp only [decide_eq_true_eq]
    rw [hpci, hei]

/-! Lemmas for comparing two presentations (row arrival orders) of one
store. -/

/-- A filter that yields a singleton yields the same singleton on any
permutation of the list. -/
theorem perm_filter_singleton {α : Type} (p : α → Bool) {l₁ l₂ : List α}
    {x : α} (h : List.Perm l₁ l₂) (h1 : l₁.filter p = [x]) :
    l₂.filter p = [x] := by
  have h2 := h.filter p
  rw [h1] at h2
  exact (List.singleton_perm.mp h2).symm

/-- A filter that yields nothing yields nothing on any permutation of the
list. -/
theorem perm_filter_nil {α : Type} (p : α → Bool) {l₁ l₂ : List α}
    (h : List.Perm l₁ l₂) (h1 : l₁.filter p = []) : l₂.filter p = [] := by
  have h2 := h.filter p
  rw [h1] at h2
  exact List.length_eq_zero.mp (by rw [← h2.length_eq]; rfl)

/-- With pairwise-distinct keys, filtering a list to one present key yields
exactly its one carrier. -/
theorem nodup_key_filter {α κ : Type} [DecidableEq κ] (f : α → κ) (k : κ) :
    ∀ l : List α, (l.map f).Nodup → ∀ x ∈ l, f x = k →
      l.filter (fun y => decide (f y = k)) = [x] := by
  intro l
  induction l with
  | nil =>
    intro _ x hx
    cases hx
  | cons y t ih =>
    intro hnd x hx hfx
    simp only [List.map_cons, List.nodup_cons] at hnd
    rcases List.mem_cons.mp hx with rfl | hxt
    · rw [List.filter_cons, if_pos (by simpa using hfx)]
      have htail : t.filter (fun y => decide (f y = k)) = [] := by
        rw [List.filter_eq_nil_iff]
        intro z hz
        simp only [decide_eq_true_eq]
        intro hc
        exact hnd.1 (by rw [hfx, ← hc]; exact List.mem_map_of_mem f hz)
      rw [htail]
    · have hyk : ¬ (f y = k) := by
        intro hc
        exact hnd.1 (by rw [hc, ← hfx]; exact List.mem_map_of_mem f hxt)
      rw [List.filter_cons, if_neg (by simpa using hyk)]
      exact ih hnd.2 x hxt hfx

/-- The service-table filter by the two key columns equals the filter by the
composite key pair. -/
theorem service_filter_pair (l : List AdminEventProposedServiceModel)
    (i : Int) (s : String) :
    l.filter (fun q => decide (q.event_id = i) && decide (q.service_id = s)) =
      l.filter (fun q => decide ((q.event_id, q.service_id) = (i, s))) := by
  apply List.filter_congr
  intro q _
  by_cases h1 : q.event_id = i <;> by_cases h2 : q.service_id = s <;>
    simp [h1, h2, Prod.ext_iff]

/-- The node-table filter by the two key columns equals the filter by the
composite key pair. -/
theorem node_filter_pair (l : List AdminEventProposedNodeModel)
    (i : Int) (n : String) :
    l.filter (fun q => decide (q.event_id = i) && decide (q.node_id = n)) =
      l.filter (fun q => decide ((q.event_id, q.node_id) = (i, n))) := by
  apply List.filter_congr
  intro q _
  by_cases h1 : q.event_id = i <;> by_cases h2 : q.node_id = n <;>
    simp [h1, h2, Prod.ext_iff]

/-- Row-level membership in the primary join. -/
theorem event_models_mem_row (db : Db) (event_ids : List Int)
    (row : AdminServiceEventModel × AdminEventCircuitProposalModel ×
      AdminEventProposedCircuitModel) :
    row ∈ event_models db event_ids ↔
      (row.1 ∈ db.admin_service_event ∧ row.1.id ∈ event_ids ∧
        row.2.1 ∈ db.admin_event_circuit_proposal ∧
        row.2.1.event_id = row.1.id ∧
        row.2.2 ∈ db.admin_event_proposed_circuit ∧
        row.2.2.event_id = row.1.id) := by
  constructor
  · intro hrow
    unfold event_models at hrow
    obtain ⟨e, heF, hrow1⟩ := List.mem_flatMap.mp hrow
    obtain ⟨he, heid⟩ := List.mem_filter.mp heF
    obtain ⟨cp, hcpF, hrow2⟩ := List.mem_flatMap.mp hrow1
    obtain ⟨hcp, hcpe⟩ := List.mem_filter.mp hcpF
    obtain ⟨pc, hpcF, hrow3⟩ := List.mem_map.mp hrow2
    obtain ⟨hpc, hpce⟩ := List.mem_filter.mp hpcF
    simp only [decide_eq_true_eq] at heid hcpe hpce
    rw [← hrow3]
    exact ⟨he, heid, hcp, hcpe, hpc, hpce⟩
  · rintro ⟨he, hei, hcp, hcpi, hpc, hpci⟩
    obtain ⟨e, cp, pc⟩ := row
    simp only at he hei hcp hcpi hpc hpci
    unfold event_models
    refine List.mem_flatMap.mpr
      ⟨e, List.mem_filter.mpr ⟨he, by simpa using hei⟩, ?_⟩
    refine List.mem_flatMap.mpr
      ⟨cp, List.mem_filter.mpr ⟨hcp, by simpa using hcpi⟩, ?_⟩
    exact List.mem_map.mpr
      ⟨pc, List.mem_filter.mpr ⟨hpc, by simpa using hpci⟩, rfl⟩

/-- A primary-join block of one event row, filtered by event id: the whole
block when the ids match, empty otherwise. -/
theorem event_join_block_filter (db : Db) (e : AdminServiceEventModel)
    (i : Int) :
    ((db.admin_event_circuit_proposal.filter
        (fun cp => decide (cp.event_id = e.id))).flatMap fun cp =>
      (db.admin_event_proposed_circuit.filter
          (fun pc => decide (pc.event_id = e.id))).map
        fun pc => (e, cp, pc)).filter (fun r => decide (r.1.id = i)) =
      if e.id = i then
        (db.admin_event_circuit_proposal.filter
            (fun cp => decide (cp.event_id = e.id))).flatMap fun cp =>
          (db.admin_event_proposed_circuit.filter
              (fun pc => decide (pc.event_id = e.id))).map
            fun pc => (e, cp, pc)
      else [] := by
  have hmem : ∀ r ∈ (db.admin_event_circuit_proposal.filter
      (fun cp => decide (cp.event_id = e.id))).flatMap (fun cp =>
        (db.admin_event_proposed_circuit.filter
          (fun pc => decide (pc.event_id = e.id))).map fun pc => (e, cp, pc)),
      r.1 = e := by
    intro r hr
    obtain ⟨cp, -, hr2⟩ := List.mem_flatMap.mp hr
    obtain ⟨pc, -, hr3⟩ := List.mem_map.mp hr2
    rw [← hr3]
  by_cases h : e.id = i
  · rw [if_pos h]
    apply List.filter_eq_self.mpr
    intro r hr
    simp [hmem r hr, h]
  · rw [if_neg h]
    apply List.filter_eq_nil_iff.mpr
    intro r hr
    simp [hmem r hr, h]

/-- With no event row carrying a requested id, the primary join holds no row
with that id. -/
theorem event_join_filter_zero (db : Db) (event_ids : List Int) (i : Int) :
    ∀ L : List AdminServiceEventModel,
      L.filter (fun x => decide (x.id = i)) = [] →
      (((L.filter (fun x => decide (x.id ∈ event_ids))).flatMap fun e =>
        (db.admin_event_circuit_proposal.filter
            (fun cp => decide (cp.event_id = e.id))).flatMap fun cp =>
          (db.admin_event_proposed_circuit.filter
              (fun pc => decide (pc.event_id = e.id))).map
            fun pc => (e, cp, pc)).filter
        (fun r => decide (r.1.id = i))) = [] := by
  intro L
  induction L with
  | nil =>
    intro _
    rfl
  | cons q L ih =>
    intro hz
    have hqi : ¬ (q.id = i) := by
      intro hc
      simp [List.filter_cons, hc] at hz
    have hz' : L.filter (fun x => decide (x.id = i)) = [] := by
      simpa [List.filter_cons, hqi] using hz
    by_cases hin : q.id ∈ event_ids
    · rw [List.filter_cons, if_pos (by simpa using hin), List.flatMap_cons,
        List.filter_append, event_join_block_filter db q i, if_neg hqi,
        ih hz']
      rfl
    · rw [List.filter_cons, if_neg (by simpa using hin)]
      exact ih hz'

/-- With a unique event row for a requested id and singleton per-table
filters for its one-to-one companions, the primary join holds exactly one
row with that id. -/
theorem event_join_filter_one (db : Db) (event_ids : List Int) (i : Int)
    (e : AdminServiceEventModel) (cp : AdminEventCircuitProposalModel)
    (pc : AdminEventProposedCircuitModel) (hin : i ∈ event_ids)
    (hcp : db.admin_event_circuit_proposal.filter
      (fun x => decide (x.event_id = i)) = [cp])
    (hpc : db.admin_event_proposed_circuit.filter
      (fun x => decide (x.event_id = i)) = [pc]) :
    ∀ L : List AdminServiceEventModel,
      L.filter (fun x => decide (x.id = i)) = [e] →
      (((L.filter (fun x => decide (x.id ∈ event_ids))).flatMap fun e' =>
        (db.admin_event_circuit_proposal.filter
            (fun cp' => decide (cp'.event_id = e'.id))).flatMap fun cp' =>
          (db.admin_event_proposed_circuit.filter
              (fun pc' => decide (pc'.event_id = e'.id))).map
            fun pc' => (e', cp', pc')).filter
        (fun r => decide (r.1.id = i))) = [(e, cp, pc)] := by
  intro L
  induction L with
  | nil =>
    intro hz
    cases hz
  | cons q L ih =>
    intro hone
    by_cases hqi : q.id = i
    · rw [List.filter_cons, if_pos (by simpa using hqi)] at hone
      injection hone with hqe hz
      subst hqe
      have hinq : q.id ∈ event_ids := by
        rw [hqi]
        exact hin
      rw [List.filter_cons, if_pos (by simpa using hinq), List.flatMap_cons,
        List.filter_append, event_join_filter_zero db event_ids i L hz,
        List.append_nil, event_join_block_filter db q i, if_pos hqi, hqi,
        hcp, hpc]
      simp
    · rw [List.filter_cons, if_neg (by simpa using hqi)] at hone
      by_cases hinq : q.id ∈ event_ids
      · rw [List.filter_cons, if_pos (by simpa using hinq),
          List.flatMap_cons, List.filter_append,
          event_join_block_filter db q i, if_neg hqi, List.nil_append]
        exact ih hone
      · rw [List.filter_cons, if_neg (by simpa using hinq)]
        exact ih hone

/-- With singleton per-table filters, the primary join filters to exactly
one row for a requested id. -/
theorem event_models_filter_unique (db : Db) (event_ids : List Int) (i : Int)
    (e : AdminServiceEventModel) (cp : AdminEventCircuitProposalModel)
    (pc : AdminEventProposedCircuitModel) (hin : i ∈ event_ids)
    (he : db.admin_service_event.filter (fun x => decide (x.id = i)) = [e])
    (hcp : db.admin_event_circuit_proposal.filter
      (fun x => decide (x.event_id = i)) = [cp])
    (hpc : db.admin_event_proposed_circuit.filter
      (fun x => decide (x.event_id = i)) = [pc]) :
    (event_models db event_ids).filter (fun r => decide (r.1.id = i)) =
      [(e, cp, pc)] := by
  unfold event_models
  exact event_join_filter_one db event_ids i e cp pc hin hcp hpc
    db.admin_service_event he

theorem seed_proposal_builder_votes_none (cp : AdminEventCircuitProposalModel)
    (pt : ProposalType) : (seed_proposal_builder cp pt).votes = none := rfl

theorem seed_circuit_builder_unset (pc : AdminEventProposedCircuitModel)
    (auth : AuthorizationType) (pers : PersistenceType) (dur : DurabilityType)
    (rt : RouteType) :
    (seed_circuit_builder pc auth pers dur rt).roster = none ∧
      (seed_circuit_builder pc auth pers dur rt).members = none := by
  unfold seed_circuit_builder
  cases hm : pc.application_metadata <;> cases hc : pc.comments <;>
    cases hd : pc.display_name <;>
    simp [attach_application_metadata, attach_comments, attach_display_name,
      ProposedCircuitBuilder.with_application_metadata,
      ProposedCircuitBuilder.with_comments,
      ProposedCircuitBuilder.with_display_name, ProposedCircuitBuilder.new,
      ProposedCircuitBuilder.with_circuit_id,
      ProposedCircuitBuilder.with_authorization_type,
      ProposedCircuitBuilder.with_persistence,
      ProposedCircuitBuilder.with_durability,
      ProposedCircuitBuilder.with_routes,
      ProposedCircuitBuilder.with_circuit_management_type]

/-- A successful seed is fully determined by its row: the key is the row's
event id, the model is kept, the builders are the seeded ones with their
vote, roster and membership fields still unset. -/
theorem seed_event_row_det
    (row : AdminServiceEventModel × AdminEventCircuitProposalModel ×
      AdminEventProposedCircuitModel)
    (kv : Int × (AdminServiceEventModel × CircuitProposalBuilder ×
      ProposedCircuitBuilder)) (h : seed_event_row row = .ok kv) :
    kv.1 = row.1.id ∧ kv.2.1 = row.1 ∧ kv.2.2.1.seeded ∧ kv.2.2.2.seeded ∧
      kv.2.2.1.votes = none ∧ kv.2.2.2.roster = none ∧
      kv.2.2.2.members = none := by
  cases h1 : ProposalType.tryFrom row.2.1.proposal_type with
  | error msg =>
    simp [seed_event_row, h1, asStoreErr, Bind.bind, Except.bind] at h
  | ok a1 =>
  cases h2 : AuthorizationType.tryFrom row.2.2.authorization_type with
  | error msg =>
    simp [seed_event_row, h1, h2, asStoreErr, Bind.bind, Except.bind] at h
  | ok a2 =>
  cases h3 : PersistenceType.tryFrom row.2.2.persistence with
  | error msg =>
    simp [seed_event_row, h1, h2, h3, asStoreErr, Bind.bind, Except.bind] at h
  | ok a3 =>
  cases h4 : DurabilityType.tryFrom row.2.2.durability with
  | error msg =>
    simp [seed_event_row, h1, h2, h3, h4, asStoreErr, Bind.bind,
      Except.bind] at h
  | ok a4 =>
  cases h5 : RouteType.tryFrom row.2.2.routes with
  | error msg =>
    simp [seed_event_row, h1, h2, h3, h4, h5, asStoreErr, Bind.bind,
      Except.bind] at h
  | ok a5 =>
  have hval : seed_event_row row = .ok (row.1.id, (row.1,
      seed_proposal_builder row.2.1 a1,
      seed_circuit_builder row.2.2 a2 a3 a4 a5)) := by
    simp [seed_event_row, h1, h2, h3, h4, h5, asStoreErr, Bind.bind,
      Except.bind]
  rw [hval] at h
  have hkv := (Except.ok.inj h).symm
  subst hkv
  exact ⟨rfl, rfl, seed_proposal_builder_seeded _ _,
    seed_circuit_builder_seeded _ _ _ _ _,
    seed_proposal_builder_votes_none _ _,
    (seed_circuit_builder_unset _ _ _ _ _).1,
    (seed_circuit_builder_unset _ _ _ _ _).2⟩

/-- A run of joined rows none of which carries a given id leaves that id's
events-map entry untouched. -/
theorem events_map_loop_get_frozen (i : Int) :
    ∀ rows : List (AdminServiceEventModel × AdminEventCircuitProposalModel ×
      AdminEventProposedCircuitModel),
      rows.filter (fun r => decide (r.1.id = i)) = [] →
      ∀ acc m, events_map_loop rows acc = .ok m →
        alGet m i = alGet acc i := by
  intro rows
  induction rows with
  | nil =>
    intro _ acc m h
    cases h
    rfl
  | cons r rest ih =>
    intro hz acc m h
    have hri : ¬ (r.1.id = i) := by
      intro hc
      simp [List.filter_cons, hc] at hz
    have hz' : rest.filter (fun r => decide (r.1.id = i)) = [] := by
      simpa [List.filter_cons, hri] using hz
    cases hr : seed_event_row r with
    | error e =>
      simp [events_map_loop, hr, Bind.bind, Except.bind] at h
    | ok kv =>
      simp only [events_map_loop, hr, Bind.bind, Except.bind] at h
      rw [ih hz' (alInsert acc kv.1 kv.2) m h]
      have hk1 : kv.1 = r.1.id := (seed_event_row_det r kv hr).1
      have hne : i ≠ kv.1 := by
        rw [hk1]
        exact fun hc => hri hc.symm
      exact alGet_alInsert_ne acc kv.1 i kv.2 hne

/-- When a run of joined rows carries exactly one row with a given id, the
finished events map holds that row's seeded entry at the id. -/
theorem events_map_loop_get_unique (i : Int)
    (row : AdminServiceEventModel × AdminEventCircuitProposalModel ×
      AdminEventProposedCircuitModel)
    (kv : Int × (AdminServiceEventModel × CircuitProposalBuilder ×
      ProposedCircuitBuilder)) (hkv : seed_event_row row = .ok kv) :
    ∀ rows, rows.filter (fun r => decide (r.1.id = i)) = [row] →
      ∀ acc m, events_map_loop rows acc = .ok m → alGet m i = some kv.2 := by
  intro rows
  induction rows with
  | nil =>
    intro hfil
    exact absurd hfil (by simp)
  | cons r rest ih =>
    intro hfil acc m h
    by_cases hri : r.1.id = i
    · rw [List.filter_cons, if_pos (by simpa using hri)] at hfil
      injection hfil with h1 h2
      subst h1
      simp only [events_map_loop, hkv, Bind.bind, Except.bind] at h
      rw [events_map_loop_get_frozen i rest h2 _ m h]
      have hk1 : kv.1 = r.1.id := (seed_event_row_det r kv hkv).1
      have hik : kv.1 = i := by
        rw [hk1, hri]
      rw [← hik]
      exact alGet_alInsert_self acc kv.1 kv.2
    · rw [List.filter_cons, if_neg (by simpa using hri)] at hfil
      cases hr : seed_event_row r with
      | error e =>
        simp [events_map_loop, hr, Bind.bind, Except.bind] at h
      | ok kv' =>
        simp only [events_map_loop, hr, Bind.bind, Except.bind] at h
        exact ih hfil _ m h

/-- The `VoteRecord` a decodable vote row converts to. -/
def vote_build_value (v : AdminEventVoteRecordModel) : VoteRecord :=
  { public_key := v.public_key,
    vote := (Vote.tryFrom v.vote).toOption.getD .accept,
    voter_node_id := v.voter_node_id }

theorem vote_tryFrom_ok_eq (v : AdminEventVoteRecordModel)
    (h : (VoteRecord.tryFrom v).isOk = true) :
    VoteRecord.tryFrom v = .ok (vote_build_value v) := by
  cases hv : Vote.tryFrom v.vote with
  | error e =>
    rw [show VoteRecord.tryFrom v = .error e by
      simp [VoteRecord.tryFrom, hv, Bind.bind, Except.bind]] at h
    simp [Except.isOk, Except.toBool] at h
  | ok w =>
    simp [VoteRecord.tryFrom, hv, Bind.bind, Except.bind, vote_build_value,
      Except.toOption]

/-- The finished vote map groups, at each id, exactly the decoded vote rows
carrying that id, in arrival order. -/
theorem vote_loop_get (i : Int) :
    ∀ rows : List AdminEventVoteRecordModel,
      (∀ v ∈ rows, (VoteRecord.tryFrom v).isOk = true) →
      ∀ acc m, vote_loop rows acc = .ok m →
        alGet m i =
          if rows.filter (fun v => decide (v.event_id = i)) = [] then
            alGet acc i
          else
            some ((alGet acc i).getD [] ++
              (rows.filter (fun v => decide (v.event_id = i))).map
                vote_build_value) := by
  intro rows
  induction rows with
  | nil =>
    intro _ acc m h
    cases h
    simp
  | cons v rest ih =>
    intro hok acc m h
    have hv := vote_tryFrom_ok_eq v (hok v (List.mem_cons_self _ _))
    simp only [vote_loop, hv, asStoreErr, Bind.bind, Except.bind] at h
    have hrec := ih (fun v' h' => hok v' (List.mem_cons_of_mem _ h'))
      (group_push acc v.event_id (vote_build_value v)) m h
    by_cases hvi : v.event_id = i
    · have hacc : alGet (group_push acc v.event_id (vote_build_value v)) i =
          some ((alGet acc i).getD [] ++ [vote_build_value v]) := by
        rw [hvi]
        exact alGet_group_push_self acc i (vote_build_value v)
      have hfc : (v :: rest).filter (fun v' => decide (v'.event_id = i)) =
          v :: rest.filter (fun v' => decide (v'.event_id = i)) := by
        simp [List.filter_cons, hvi]
      rw [hfc, if_neg (by simp), hrec]
      by_cases hrest : rest.filter (fun v' => decide (v'.event_id = i)) = []
      · rw [if_pos hrest, hacc, hrest]
        simp
      · rw [if_neg hrest, hacc]
        simp [List.append_assoc]
    · have hfc : (v :: rest).filter (fun v' => decide (v'.event_id = i)) =
          rest.filter (fun v' => decide (v'.event_id = i)) := by
        simp [List.filter_cons, hvi]
      rw [hfc, hrec,
        alGet_group_push_ne acc v.event_id i _ (fun hc => hvi hc.symm)]

/-- Filtering the vote query to one requested id filters the vote table to
that id. -/
theorem vote_query_filter (db : Db) (event_ids : List Int) (i : Int)
    (hin : i ∈ event_ids) :
    (vote_query db event_ids).filter (fun v => decide (v.event_id = i)) =
      db.admin_event_vote_record.filter
        (fun v => decide (v.event_id = i)) := by
  unfold vote_query
  rw [List.filter_filter]
  apply List.filter_congr
  intro v _
  by_cases h : v.event_id = i
  · simp [h, hin]
  · simp [h]

/-- The event `assemble_one` produces from a seeded entry whose event type
decodes: builders finalized with the entry's attached groups. -/
def assemble_value (event_id : Int)
    (entry : AdminServiceEventModel × CircuitProposalBuilder ×
      ProposedCircuitBuilder)
    (svcs : List (Int × List ProposedService))
    (nodes : List (Int × List ProposedNode))
    (votes : List (Int × List VoteRecord)) (et : EventType) :
    AdminServiceEvent :=
  { event_id := entry.1.id, event_type := et,
    proposal :=
      proposal_build_value (attach_votes entry.2.1 (alGet votes event_id))
        (circuit_build_value
          (attach_members
            (attach_roster entry.2.2 (alGet svcs event_id))
            (alGet nodes event_id))) }

theorem assemble_one_eq (event_id : Int)
    (entry : AdminServiceEventModel × CircuitProposalBuilder ×
      ProposedCircuitBuilder)
    (svcs : List (Int × List ProposedService))
    (nodes : List (Int × List ProposedNode))
    (votes : List (Int × List VoteRecord)) (et : EventType)
    (hpb : entry.2.1.seeded) (hpcb : entry.2.2.seeded)
    (het : EventType.tryFrom entry.1.event_type = .ok et) :
    assemble_one event_id entry svcs nodes votes =
      .ok (assemble_value event_id entry svcs nodes votes et) := by
  have hc := circuit_builder_build_eq
    (attach_members (attach_roster entry.2.2 (alGet svcs event_id))
      (alGet nodes event_id))
    (attach_members_seeded _ _ (attach_roster_seeded _ _ hpcb))
  have hp := proposal_builder_build_eq
    (attach_votes entry.2.1 (alGet votes event_id))
    (circuit_build_value
      (attach_members (attach_roster entry.2.2 (alGet svcs event_id))
        (alGet nodes event_id)))
    (attach_votes_seeded _ _ hpb)
  simp [assemble_one, hc, hp, asStoreErr, Bind.bind, Except.bind,
    AdminServiceEvent.tryFrom, het, assemble_value]

/-- A successful assembly run keeps its accumulator and assembles every
entry of the events map into some returned event. -/
theorem assemble_loop_mem (svcs : List (Int × List ProposedService))
    (nodes : List (Int × List ProposedNode))
    (votes : List (Int × List VoteRecord)) :
    ∀ em acc evs, assemble_loop em svcs nodes votes acc = .ok evs →
      (∀ ev ∈ acc, ev ∈ evs) ∧
      (∀ p ∈ em, ∃ ev ∈ evs,
        assemble_one p.1 p.2 svcs nodes votes = .ok ev) := by
  intro em
  induction em with
  | nil =>
    intro acc evs h
    cases h
    exact ⟨fun ev hev => hev, fun p hp => absurd hp (List.not_mem_nil p)⟩
  | cons entry rest ih =>
    intro acc evs h
    obtain ⟨k, e⟩ := entry
    cases ha : assemble_one k e svcs nodes votes with
    | error err => simp [assemble_loop, ha, Bind.bind, Except.bind] at h
    | ok ev₀ =>
      simp only [assemble_loop, ha, Bind.bind, Except.bind] at h
      obtain ⟨hacc, hrest⟩ := ih (acc ++ [ev₀]) evs h
      refine ⟨fun ev hev => hacc ev (List.mem_append_left _ hev), ?_⟩
      intro p hp
      rcases List.mem_cons.mp hp with rfl | hp'
      · exact ⟨ev₀,
          hacc ev₀ (List.mem_append_right _ (List.mem_singleton.mpr rfl)),
          ha⟩
      · exact hrest p hp'

theorem assemble_value_proposal_scalars (event_id : Int)
    (entry : AdminServiceEventModel × CircuitProposalBuilder ×
      ProposedCircuitBuilder)
    (svcs : List (Int × List ProposedService))
    (nodes : List (Int × List ProposedNode))
    (votes : List (Int × List VoteRecord)) (et : EventType) :
    (assemble_value event_id entry svcs nodes votes
        et).proposal.proposal_type =
      entry.2.1.proposal_type.getD .create ∧
    (assemble_value event_id entry svcs nodes votes et).proposal.circuit_id =
      entry.2.1.circuit_id.getD "" ∧
    (assemble_value event_id entry svcs nodes votes
        et).proposal.circuit_hash =
      entry.2.1.circuit_hash.getD "" ∧
    (assemble_value event_id entry svcs nodes votes et).proposal.requester =
      entry.2.1.requester.getD "" ∧
    (assemble_value event_id entry svcs nodes votes
        et).proposal.requester_node_id =
      entry.2.1.requester_node_id.getD "" := by
  unfold assemble_value proposal_build_value
  cases alGet votes event_id <;>
    simp [attach_votes, CircuitProposalBuilder.with_votes]

theorem assemble_value_votes (event_id : Int)
    (entry : AdminServiceEventModel × CircuitProposalBuilder ×
      ProposedCircuitBuilder)
    (svcs : List (Int × List ProposedService))
    (nodes : List (Int × List ProposedNode))
    (votes : List (Int × List VoteRecord)) (et : EventType)
    (h : entry.2.1.votes = none) :
    (assemble_value event_id entry svcs nodes votes et).proposal.votes =
      (alGet votes event_id).getD [] := by
  unfold assemble_value proposal_build_value
  cases ho : alGet votes event_id <;>
    simp [attach_votes, CircuitProposalBuilder.with_votes, h]

theorem assemble_value_circuit_scalars (event_id : Int)
    (entry : AdminServiceEventModel × CircuitProposalBuilder ×
      ProposedCircuitBuilder)
    (svcs : List (Int × List ProposedService))
    (nodes : List (Int × List ProposedNode))
    (votes : List (Int × List VoteRecord)) (et : EventType) :
    (assemble_value event_id entry svcs nodes votes
        et).proposal.circuit.circuit_id =
      entry.2.2.circuit_id.getD "" ∧
    (assemble_value event_id entry svcs nodes votes
        et).proposal.circuit.authorization_type =
      entry.2.2.authorization_type.getD .trust ∧
    (assemble_value event_id entry svcs nodes votes
        et).proposal.circuit.persistence =
      entry.2.2.persistence.getD .any ∧
    (assemble_value event_id entry svcs nodes votes
        et).proposal.circuit.durability =
      entry.2.2.durability.getD .noDurability ∧
    (assemble_value event_id entry svcs nodes votes
        et).proposal.circuit.routes =
      entry.2.2.routes.getD .any ∧
    (assemble_value event_id entry svcs nodes votes
        et).proposal.circuit.circuit_management_type =
      entry.2.2.circuit_management_type.getD "" ∧
    (assemble_value event_id entry svcs nodes votes
        et).proposal.circuit.application_metadata =
      entry.2.2.application_metadata ∧
    (assemble_value event_id entry svcs nodes votes
        et).proposal.circuit.comments =
      entry.2.2.comments ∧
    (assemble_value event_id entry svcs nodes votes
        et).proposal.circuit.display_name =
      entry.2.2.display_name := by
  unfold assemble_value proposal_build_value circuit_build_value
  cases alGet svcs event_id <;> cases alGet nodes event_id <;>
    simp [attach_roster, attach_members, attach_votes,
      ProposedCircuitBuilder.with_roster, ProposedCircuitBuilder.with_members]

theorem assemble_value_roster (event_id : Int)
    (entry : AdminServiceEventModel × CircuitProposalBuilder ×
      ProposedCircuitBuilder)
    (svcs : List (Int × List ProposedService))
    (nodes : List (Int × List ProposedNode))
    (votes : List (Int × List VoteRecord)) (et : EventType)
    (h : entry.2.2.roster = none) :
    (assemble_value event_id entry svcs nodes votes
        et).proposal.circuit.roster =
      (alGet svcs event_id).getD [] := by
  unfold assemble_value proposal_build_value circuit_build_value
  cases hs : alGet svcs event_id <;> cases hn : alGet nodes event_id <;>
    simp [attach_roster, attach_members,
      ProposedCircuitBuilder.with_roster, ProposedCircuitBuilder.with_members,
      h]

theorem assemble_value_members (event_id : Int)
    (entry : AdminServiceEventModel × CircuitProposalBuilder ×
      ProposedCircuitBuilder)
    (svcs : List (Int × List ProposedService))
    (nodes : List (Int × List ProposedNode))
    (votes : List (Int × List VoteRecord)) (et : EventType)
    (h : entry.2.2.members = none) :
    (assemble_value event_id entry svcs nodes votes
        et).proposal.circuit.members =
      (alGet nodes event_id).getD [] := by
  unfold assemble_value proposal_build_value circuit_build_value
  cases hs : alGet svcs event_id <;> cases hn : alGet nodes event_id <;>
    simp [attach_roster, attach_members,
      ProposedCircuitBuilder.with_roster, ProposedCircuitBuilder.with_members,
      h]

/-- With no stored node row for a key, the node join contributes no
endpoints for it. -/
theorem node_row_zero (db : Db) (event_ids : List Int) (i : Int)
    (n : String) :
    ∀ L : List AdminEventProposedNodeModel,
      L.filter (fun q => decide (q.event_id = i) &&
        decide (q.node_id = n)) = [] →
      endpoints_of (i, n) ((L.filter
          (fun q => decide (q.event_id ∈ event_ids))).flatMap
        (node_join_rows db)) = [] := by
  intro L
  induction L with
  | nil =>
    intro _
    rfl
  | cons q L ih =>
    intro hz
    have hq : ¬ ((q.event_id, q.node_id) = (i, n)) := by
      intro hc
      have h1 : q.event_id = i := congrArg Prod.fst hc
      have h2 : q.node_id = n := congrArg Prod.snd hc
      simp [List.filter_cons, h1, h2] at hz
    have hz' : L.filter (fun q => decide (q.event_id = i) &&
        decide (q.node_id = n)) = [] := by
      by_cases hp : (decide (q.event_id = i) && decide (q.node_id = n))
          = true
      · simp [List.filter_cons, hp] at hz
      · simpa [List.filter_cons, hp] using hz
    by_cases hin : q.event_id ∈ event_ids
    · rw [List.filter_cons, if_pos (by simpa using hin), List.flatMap_cons,
        endpoints_of_append, endpoints_of_node_block_ne db q _ hq, ih hz']
      rfl
    · rw [List.filter_cons, if_neg (by simpa using hin)]
      exact ih hz'

/-- For a requested (event id, node id) pair with one stored node row and a
nonempty set of endpoint rows, the node stage groups under the event id
exactly one node with that node id, carrying the pair's endpoint rows in
arrival order. -/
theorem node_stage_key_singleton (db : Db) (event_ids : List Int) (i : Int)
    (n : String) (r : AdminEventProposedNodeModel) (hin : i ∈ event_ids)
    (hone : db.admin_event_proposed_node.filter
      (fun q => decide (q.event_id = i) && decide (q.node_id = n)) = [r])
    (hne : ¬ (db.admin_event_proposed_node_endpoint.filter
      (fun ep => decide (ep.node_id = n) &&
        decide (ep.event_id = i)) = [])) :
    ∃ m lst,
      built_nodes_loop (node_loop (node_rows db event_ids) []) [] = .ok m ∧
      alGet m i = some lst ∧
      lst.filter (fun nd => decide (nd.node_id = n)) =
        [{ node_id := n,
           endpoints := (db.admin_event_proposed_node_endpoint.filter
             (fun ep => decide (ep.node_id = n) &&
               decide (ep.event_id = i))).map (fun ep => ep.endpoint) }] := by
  have heps' : endpoints_of (i, n) (node_rows db event_ids) =
      (db.admin_event_proposed_node_endpoint.filter
        (fun ep => decide (ep.node_id = n) &&
          decide (ep.event_id = i))).map (fun ep => ep.endpoint) :=
    node_table_one db event_ids i n r hin db.admin_event_proposed_node hone
  have hnz : ¬ (endpoints_of (i, n) (node_rows db event_ids) = []) := by
    intro hc
    rw [hc] at heps'
    exact hne (List.map_eq_nil_iff.mp heps'.symm)
  have hb : alGet (node_loop (node_rows db event_ids) []) (i, n) =
      some { node_id := some n,
             endpoints :=
               some (endpoints_of (i, n) (node_rows db event_ids)) } := by
    rw [node_loop_get (node_rows db event_ids) [] (i, n), if_neg hnz]
    simp [alGet_nil, Option.elim]
  have hnwf := node_loop_entries_wf (node_rows db event_ids) [] (by simp)
  have hndk := node_loop_keys_nodup (node_rows db event_ids) []
    (by simp [alKeys])
  obtain ⟨m, hm, hgroup⟩ := built_nodes_loop_ok
    (node_loop (node_rows db event_ids) []) [] hnwf
  have hfilterpn := filter_key_of_alGet_some _ _ _ hndk hb
  have hgi := hgroup i n
  rw [hfilterpn] at hgi
  simp only [List.map_cons, List.map_nil, alGet_nil, Option.getD_none,
    List.filter_nil, List.nil_append] at hgi
  have hval : node_build_value
      { node_id := some n,
        endpoints := some (endpoints_of (i, n) (node_rows db event_ids)) } =
      { node_id := n,
        endpoints := (db.admin_event_proposed_node_endpoint.filter
          (fun ep => decide (ep.node_id = n) &&
            decide (ep.event_id = i))).map (fun ep => ep.endpoint) } := by
    unfold node_build_value
    simp [heps']
  rw [hval] at hgi
  cases halm : alGet m i with
  | none =>
    rw [halm] at hgi
    simp at hgi
  | some lst =>
    rw [halm] at hgi
    simp only [Option.getD_some] at hgi
    exact ⟨m, lst, hm, halm, hgi⟩

/-- With no stored service row for a key, the built service groups hold no
service with that service id. -/
theorem service_group_empty (db : Db) (event_ids : List Int) (i : Int)
    (s : String) (bs : List (Int × List ProposedService))
    (hbs : built_services_loop
      (service_loop (service_rows db event_ids) [] []).1
      (service_loop (service_rows db event_ids) [] []).2 [] = .ok bs)
    (hz : db.admin_event_proposed_service.filter
      (fun q => decide (q.event_id = i) &&
        decide (q.service_id = s)) = []) :
    ((alGet bs i).getD []).filter
      (fun svc => decide (svc.service_id = s)) = [] := by
  obtain ⟨hargz, hfz⟩ := service_table_zero db event_ids i s
    db.admin_event_proposed_service hz
  have hfz' : first_service_row (i, s) (service_rows db event_ids) = none :=
    hfz
  have hps : alGet (service_loop (service_rows db event_ids) [] []).1
      (i, s) = none := by
    rw [service_loop_builders (service_rows db event_ids) [] [] (i, s), hfz']
    rfl
  have hfil : (service_loop (service_rows db event_ids) [] []).1.filter
      (fun p => decide (p.1 = (i, s))) = [] :=
    filter_key_eq_nil_of_alGet_none _ _ hps
  have hwf := service_loop_entries_wf (service_rows db event_ids) [] []
    (by simp)
  obtain ⟨m, hm, hgroup⟩ := built_services_loop_ok
    (service_loop (service_rows db event_ids) [] []).1
    (service_loop (service_rows db event_ids) [] []).2 [] hwf
  have hmbs : m = bs := by
    rw [hm] at hbs
    exact Except.ok.inj hbs
  subst hmbs
  have hgi := hgroup i s
  rw [hfil] at hgi
  simpa [alGet_nil] using hgi

/-- With no endpoint contribution for a key (no node row, or no endpoint
rows), the built node groups hold no node with that node id. -/
theorem node_group_empty (db : Db) (event_ids : List Int) (i : Int)
    (n : String) (bn : List (Int × List ProposedNode))
    (hbn : built_nodes_loop (node_loop (node_rows db event_ids) []) [] =
      .ok bn)
    (hz : endpoints_of (i, n) (node_rows db event_ids) = []) :
    ((alGet bn i).getD []).filter
      (fun nd => decide (nd.node_id = n)) = [] := by
  have hbnone : alGet (node_loop (node_rows db event_ids) []) (i, n) =
      none := by
    rw [node_loop_get (node_rows db event_ids) [] (i, n), if_pos hz]
    rfl
  have hfil := filter_key_eq_nil_of_alGet_none _ _ hbnone
  have hnwf := node_loop_entries_wf (node_rows db event_ids) [] (by simp)
  obtain ⟨m, hm, hgroup⟩ := built_nodes_loop_ok
    (node_loop (node_rows db event_ids) []) [] hnwf
  have hmbn : m = bn := by
    rw [hm] at hbn
    exact Except.ok.inj hbn
  subst hmbn
  have hgi := hgroup i n
  rw [hfil] at hgi
  simpa [alGet_nil] using hgi

/-- Under the decode hypotheses every stage of `list_events` succeeds; the
stage values, the distinct keys of the events map and the returned ids are
exposed for reuse. -/
theorem list_events_stages_ok (db : Db) (event_ids : List Int)
    (hdec : ∀ row ∈ event_models db event_ids,
      event_row_decodes row ∧
        (EventType.tryFrom row.1.event_type).isOk = true)
    (hvotes : ∀ v ∈ db.admin_event_vote_record, v.event_id ∈ event_ids →
      (VoteRecord.tryFrom v).isOk = true) :
    ∃ em bs bn vm events,
      events_map_loop (event_models db event_ids) [] = .ok em ∧
      built_services_loop (service_loop (service_rows db event_ids) [] []).1
        (service_loop (service_rows db event_ids) [] []).2 [] = .ok bs ∧
      built_nodes_loop (node_loop (node_rows db event_ids) []) [] = .ok bn ∧
      vote_loop (vote_query db event_ids) [] = .ok vm ∧
      assemble_loop em bs bn vm [] = .ok events ∧
      list_events db event_ids = .ok (sort_events events) ∧
      (alKeys em).Nodup ∧
      (∀ k : Int, k ∈ alKeys em ↔
        ∃ r ∈ event_models db event_ids, r.1.id = k) ∧
      events.map (fun ev => ev.event_id) = alKeys em := by
  obtain ⟨em, h1, hmem, hkeys, hnd⟩ :=
    events_map_loop_ok (event_models db event_ids)
      (fun r hr => (hdec r hr).1) []
  have hwf : ∀ p ∈ (service_loop (service_rows db event_ids) [] []).1,
      service_entry_wf p :=
    service_loop_entries_wf _ [] [] (by simp)
  obtain ⟨bs, h2, -⟩ := built_services_loop_ok
    (service_loop (service_rows db event_ids) [] []).1
    (service_loop (service_rows db event_ids) [] []).2 [] hwf
  have hnwf : ∀ p ∈ node_loop (node_rows db event_ids) [], node_entry_wf p :=
    node_loop_entries_wf _ [] (by simp)
  obtain ⟨bn, h3, -⟩ := built_nodes_loop_ok
    (node_loop (node_rows db event_ids) []) [] hnwf
  have hvq : ∀ v ∈ vote_query db event_ids,
      (VoteRecord.tryFrom v).isOk = true := by
    intro v hv
    obtain ⟨hmemv, hidv⟩ := List.mem_filter.mp hv
    exact hvotes v hmemv (by simpa using hidv)
  obtain ⟨vm, h4⟩ := vote_loop_ok (vote_query db event_ids) hvq []
  have hready : ∀ p ∈ em, p.2.2.1.seeded ∧ p.2.2.2.seeded ∧
      (EventType.tryFrom p.2.1.event_type).isOk = true := by
    intro p hp
    rcases hmem p hp with hfalse | ⟨r, hr, _, hmodel, hs1, hs2⟩
    · cases hfalse
    · refine ⟨hs1, hs2, ?_⟩
      rw [hmodel]
      exact (hdec r hr).2
  obtain ⟨events, h5⟩ := assemble_loop_ok bs bn vm em hready []
  have hr : list_events db event_ids = .ok (sort_events events) := by
    simp [list_events, h1, h2, h3, h4, h5, Bind.bind, Except.bind]
  obtain ⟨hinv, -⟩ :=
    events_map_loop_ok_inv (event_models db event_ids) em [] h1
  have hndem : (alKeys em).Nodup := hnd (by simp [alKeys])
  have hids := assemble_loop_ids bs bn vm em [] events h5
  have hidkeys : em.map (fun p => p.2.1.id) = alKeys em := by
    unfold alKeys
    exact List.map_congr_left (hinv (by simp))
  have hevents_ids : events.map (fun ev => ev.event_id) = alKeys em := by
    rw [hids, hidkeys]
    simp
  have hkeys' : ∀ k : Int, k ∈ alKeys em ↔
      ∃ r ∈ event_models db event_ids, r.1.id = k := by
    intro k
    have hk := hkeys k
    simp only [alKeys, List.map_nil, List.not_mem_nil, false_or] at hk
    exact hk
  exact ⟨em, bs, bn, vm, events, h1, h2, h3, h4, h5, hr, hndem, hkeys',
    hevents_ids⟩

/-- Two stores hold the same rows in every table, possibly in different
orders: the relation between what two calls of `list_events` observe when
the backend returns unchanged storage in unconstrained arrival orders. -/
def db_perm (db₁ db₂ : Db) : Prop :=
  List.Perm db₁.admin_service_event db₂.admin_service_event ∧
  List.Perm db₁.admin_event_circuit_proposal
    db₂.admin_event_circuit_proposal ∧
  List.Perm db₁.admin_event_proposed_circuit
    db₂.admin_event_proposed_circuit ∧
  List.Perm db₁.admin_event_proposed_service
    db₂.admin_event_proposed_service ∧
  List.Perm db₁.admin_event_proposed_service_argument
    db₂.admin_event_proposed_service_argument ∧
  List.Perm db₁.admin_event_proposed_node db₂.admin_event_proposed_node ∧
  List.Perm db₁.admin_event_proposed_node_endpoint
    db₂.admin_event_proposed_node_endpoint ∧
  List.Perm db₁.admin_event_vote_record db₂.admin_event_vote_record

instance (db₁ db₂ : Db) : Decidable (db_perm db₁ db₂) := by
  unfold db_perm
  infer_instance

/-- The spec's key invariants: one event row per id, one circuit-proposal
and one proposed-circuit row per event id, one service row per (event id,
service id), one node row per (event id, node id). -/
def db_unique_keys (db : Db) : Prop :=
  (db.admin_service_event.map (fun e => e.id)).Nodup ∧
  (db.admin_event_circuit_proposal.map (fun cp => cp.event_id)).Nodup ∧
  (db.admin_event_proposed_circuit.map (fun pc => pc.event_id)).Nodup ∧
  (db.admin_event_proposed_service.map
    (fun q => (q.event_id, q.service_id))).Nodup ∧
  (db.admin_event_proposed_node.map (fun q => (q.event_id, q.node_id))).Nodup

instance (db : Db) : Decidable (db_unique_keys db) := by
  unfold db_unique_keys
  infer_instance

/-- Two proposed services agree except possibly in the order of their
argument lists. -/
def service_matches (s₁ s₂ : ProposedService) : Prop :=
  s₁.service_id = s₂.service_id ∧ s₁.service_type = s₂.service_type ∧
    s₁.node_id = s₂.node_id ∧ List.Perm s₁.arguments s₂.arguments

/-- Two proposed nodes agree except possibly in the order of their endpoint
lists. -/
def node_matches (n₁ n₂ : ProposedNode) : Prop :=
  n₁.node_id = n₂.node_id ∧ List.Perm n₁.endpoints n₂.endpoints

/-- Two rosters hold matching services: for every service id, either neither
roster carries it or each carries exactly one service and the two agree up
to argument order. -/
def roster_matches (l₁ l₂ : List ProposedService) : Prop :=
  ∀ s : String,
    (l₁.filter (fun svc => decide (svc.service_id = s)) = [] ∧
      l₂.filter (fun svc => decide (svc.service_id = s)) = []) ∨
    (∃ svc₁ svc₂,
      l₁.filter (fun svc => decide (svc.service_id = s)) = [svc₁] ∧
      l₂.filter (fun svc => decide (svc.service_id = s)) = [svc₂] ∧
      service_matches svc₁ svc₂)

/-- Two membership lists hold matching nodes: for every node id, either
neither carries it or each carries exactly one node and the two agree up to
endpoint order. -/
def members_matches (l₁ l₂ : List ProposedNode) : Prop :=
  ∀ n : String,
    (l₁.filter (fun nd => decide (nd.node_id = n)) = [] ∧
      l₂.filter (fun nd => decide (nd.node_id = n)) = []) ∨
    (∃ nd₁ nd₂,
      l₁.filter (fun nd => decide (nd.node_id = n)) = [nd₁] ∧
      l₂.filter (fun nd => decide (nd.node_id = n)) = [nd₂] ∧
      node_matches nd₁ nd₂)

/-- Two reconstructed events agree in every scalar field, and in their vote
lists, rosters and memberships up to the order of those sequences and of the
argument and endpoint lists inside them. -/
def event_matches (ev₁ ev₂ : AdminServiceEvent) : Prop :=
  ev₁.event_id = ev₂.event_id ∧
  ev₁.event_type = ev₂.event_type ∧
  ev₁.proposal.proposal_type = ev₂.proposal.proposal_type ∧
  ev₁.proposal.circuit_id = ev₂.proposal.circuit_id ∧
  ev₁.proposal.circuit_hash = ev₂.proposal.circuit_hash ∧
  ev₁.proposal.requester = ev₂.proposal.requester ∧
  ev₁.proposal.requester_node_id = ev₂.proposal.requester_node_id ∧
  List.Perm ev₁.proposal.votes ev₂.proposal.votes ∧
  ev₁.proposal.circuit.circuit_id = ev₂.proposal.circuit.circuit_id ∧
  ev₁.proposal.circuit.authorization_type =
    ev₂.proposal.circuit.authorization_type ∧
  ev₁.proposal.circuit.persistence = ev₂.proposal.circuit.persistence ∧
  ev₁.proposal.circuit.durability = ev₂.proposal.circuit.durability ∧
  ev₁.proposal.circuit.routes = ev₂.proposal.circuit.routes ∧
  ev₁.proposal.circuit.circuit_management_type =
    ev₂.proposal.circuit.circuit_management_type ∧
  ev₁.proposal.circuit.application_metadata =
    ev₂.proposal.circuit.application_metadata ∧
  ev₁.proposal.circuit.comments = ev₂.proposal.circuit.comments ∧
  ev₁.proposal.circuit.display_name = ev₂.proposal.circuit.display_name ∧
  roster_matches ev₁.proposal.circuit.roster ev₂.proposal.circuit.roster ∧
  members_matches ev₁.proposal.circuit.members ev₂.proposal.circuit.members

/-- C7: calling `list_events` with an empty identifier set, or with
identifiers that have no stored rows in any table, returns `Ok` with an
empty sequence rather than an error. -/
theorem c7_empty_or_unknown_ids_ok (db : Db) (event_ids : List Int)
    (hev : ∀ e ∈ db.admin_service_event, e.id ∉ event_ids)
    (hsvc : ∀ s ∈ db.admin_event_proposed_service, s.event_id ∉ event_ids)
    (hnode : ∀ n ∈ db.admin_event_proposed_node, n.event_id ∉ event_ids)
    (hvote : ∀ v ∈ db.admin_event_vote_record, v.event_id ∉ event_ids) :
    list_events db event_ids = .ok [] := by
  have h1 : event_models db event_ids = [] := by
    unfold event_models
    have : db.admin_service_event.filter
        (fun e => decide (e.id ∈ event_ids)) = [] :=
      List.filter_eq_nil_iff.mpr (fun e he => by simpa using hev e he)
    rw [this]
    rfl
  have h2 : service_rows db event_ids = [] := by
    unfold service_rows
    have : db.admin_event_proposed_service.filter
        (fun s => decide (s.event_id ∈ event_ids)) = [] :=
      List.filter_eq_nil_iff.mpr (fun q hq => by simpa using hsvc q hq)
    rw [this]
    rfl
  have h3 : node_rows db event_ids = [] := by
    unfold node_rows
    have : db.admin_event_proposed_node.filter
        (fun n => decide (n.event_id ∈ event_ids)) = [] :=
      List.filter_eq_nil_iff.mpr (fun q hq => by simpa using hnode q hq)
    rw [this]
    rfl
  have h4 : vote_query db event_ids = [] := by
    unfold vote_query
    exact List.filter_eq_nil_iff.mpr (fun v hv => by simpa using hvote v hv)
  unfold list_events
  rw [h1, h2, h3, h4]
  rfl

/-- C3: if any row of the primary join carries an enumerated code (proposal
type, authorization type, persistence, durability or route type) that fails
decoding, the whole `list_events` call returns a conversion error and no
events. -/
theorem c3_decode_failure_aborts (db : Db) (event_ids : List Int)
    (row : AdminServiceEventModel × AdminEventCircuitProposalModel ×
      AdminEventProposedCircuitModel)
    (hrow : row ∈ event_models db event_ids)
    (hfail : ¬ event_row_decodes row) :
    ∃ msg, list_events db event_ids = .error (.internalError msg) := by
  obtain ⟨msg, h⟩ :=
    events_map_loop_err (event_models db event_ids) row hrow hfail []
  exact ⟨msg, by simp [list_events, h, Bind.bind, Except.bind]⟩

/-- C10: a decode failure in a vote row whose event id is requested aborts
the entire call, even when that event id lacks the event/proposal/circuit
triple and would never have appeared in the output. -/
theorem c10_child_row_failure_aborts (db : Db) (event_ids : List Int)
    (v : AdminEventVoteRecordModel) (hmem : v ∈ db.admin_event_vote_record)
    (hid : v.event_id ∈ event_ids)
    (hfail : ¬ (VoteRecord.tryFrom v).isOk = true) :
    ∃ err, list_events db event_ids = .error err := by
  have hvq : v ∈ vote_query db event_ids := by
    unfold vote_query
    exact List.mem_filter.mpr ⟨hmem, by simpa using hid⟩
  cases h1 : events_map_loop (event_models db event_ids) [] with
  | error e => exact ⟨e, by simp [list_events, h1, Bind.bind, Except.bind]⟩
  | ok em =>
    cases h2 : built_services_loop
        (service_loop (service_rows db event_ids) [] []).1
        (service_loop (service_rows db event_ids) [] []).2 [] with
    | error e =>
      exact ⟨e, by simp [list_events, h1, h2, Bind.bind, Except.bind]⟩
    | ok bs =>
      cases h3 : built_nodes_loop (node_loop (node_rows db event_ids) [])
          [] with
      | error e =>
        exact ⟨e, by simp [list_events, h1, h2, h3, Bind.bind, Except.bind]⟩
      | ok bn =>
        obtain ⟨msg, h4⟩ := vote_loop_err (vote_query db event_ids) v hvq
          hfail []
        exact ⟨.invalidStateError msg, by simp [list_events, h1, h2, h3, h4,
          Bind.bind, Except.bind]⟩

/-- Any successful `list_events` result is strictly sorted by event id: the
events come one per `events_map` key, and the final sort orders them. -/
theorem list_events_ok_strict_sorted (db : Db) (event_ids : List Int)
    (evs : List AdminServiceEvent) (h : list_events db event_ids = .ok evs) :
    List.Pairwise (fun a b => a.event_id < b.event_id) evs := by
  cases h1 : events_map_loop (event_models db event_ids) [] with
  | error e =>
    have hr : list_events db event_ids = .error e := by
      simp [list_events, h1, Bind.bind, Except.bind]
    rw [hr] at h
    cases h
  | ok em =>
  cases h2 : built_services_loop
      (service_loop (service_rows db event_ids) [] []).1
      (service_loop (service_rows db event_ids) [] []).2 [] with
  | error e =>
    have hr : list_events db event_ids = .error e := by
      simp [list_events, h1, h2, Bind.bind, Except.bind]
    rw [hr] at h
    cases h
  | ok bs =>
  cases h3 : built_nodes_loop (node_loop (node_rows db event_ids) []) [] with
  | error e =>
    have hr : list_events db event_ids = .error e := by
      simp [list_events, h1, h2, h3, Bind.bind, Except.bind]
    rw [hr] at h
    cases h
  | ok bn =>
  cases h4 : vote_loop (vote_query db event_ids) [] with
  | error e =>
    have hr : list_events db event_ids = .error e := by
      simp [list_events, h1, h2, h3, h4, Bind.bind, Except.bind]
    rw [hr] at h
    cases h
  | ok vm =>
  cases h5 : assemble_loop em bs bn vm [] with
  | error e =>
    have hr : list_events db event_ids = .error e := by
      simp [list_events, h1, h2, h3, h4, h5, Bind.bind, Except.bind]
    rw [hr] at h
    cases h
  | ok events =>
    have hr : list_events db event_ids = .ok (sort_events events) := by
      simp [list_events, h1, h2, h3, h4, h5, Bind.bind, Except.bind]
    rw [hr] at h
    have hevs : sort_events events = evs := Except.ok.inj h
    obtain ⟨hinv, hnd⟩ := events_map_loop_ok_inv (event_models db event_ids)
      em [] h1
    have hndem : (alKeys em).Nodup := hnd (by simp [alKeys])
    have hids := assemble_loop_ids bs bn vm em [] events h5
    have hidkeys : em.map (fun p => p.2.1.id) = alKeys em := by
      unfold alKeys
      exact List.map_congr_left (hinv (by simp))
    have hndids : (events.map (fun ev => ev.event_id)).Nodup := by
      rw [hids]
      simpa [hidkeys] using hndem
    rw [← hevs]
    exact sort_events_sorted_lt events hndids

/-- C2: whenever `list_events` succeeds, the returned sequence is sorted in
strictly ascending order of event id — ascending, with no two events sharing
an event id. -/
theorem c2_strictly_ascending_order (db : Db) (event_ids : List Int)
    (evs : List AdminServiceEvent) (h : list_events db event_ids = .ok evs) :
    List.Pairwise (fun a b => a.event_id < b.event_id) evs :=
  list_events_ok_strict_sorted db event_ids evs h

/-- C1: when every stored code reachable from the requested identifiers
decodes (the error cases are claims C3, C6 and C10), `list_events` succeeds
and returns exactly one event per distinct requested identifier that has all
three of an event row, a circuit-proposal row and a proposed-circuit row;
identifiers lacking any of the three contribute nothing and cause no error. -/
theorem c1_completeness (db : Db) (event_ids : List Int)
    (hdec : ∀ row ∈ event_models db event_ids,
      event_row_decodes row ∧
        (EventType.tryFrom row.1.event_type).isOk = true)
    (hvotes : ∀ v ∈ db.admin_event_vote_record, v.event_id ∈ event_ids →
      (VoteRecord.tryFrom v).isOk = true) :
    ∃ evs, list_events db event_ids = .ok evs ∧
      (evs.map (fun ev => ev.event_id)).Nodup ∧
      (∀ i : Int, i ∈ evs.map (fun ev => ev.event_id) ↔
        (i ∈ event_ids ∧ (∃ e ∈ db.admin_service_event, e.id = i) ∧
          (∃ cp ∈ db.admin_event_circuit_proposal, cp.event_id = i) ∧
          (∃ pc ∈ db.admin_event_proposed_circuit, pc.event_id = i))) := by
  obtain ⟨em, h1, hmem, hkeys, hnd⟩ :=
    events_map_loop_ok (event_models db event_ids)
      (fun r hr => (hdec r hr).1) []
  have hwf : ∀ p ∈ (service_loop (service_rows db event_ids) [] []).1,
      service_entry_wf p :=
    service_loop_entries_wf _ [] [] (by simp)
  obtain ⟨bs, h2, -⟩ := built_services_loop_ok
    (service_loop (service_rows db event_ids) [] []).1
    (service_loop (service_rows db event_ids) [] []).2 [] hwf
  have hnwf : ∀ p ∈ node_loop (node_rows db event_ids) [], node_entry_wf p :=
    node_loop_entries_wf _ [] (by simp)
  obtain ⟨bn, h3, -⟩ := built_nodes_loop_ok
    (node_loop (node_rows db event_ids) []) [] hnwf
  have hvq : ∀ v ∈ vote_query db event_ids,
      (VoteRecord.tryFrom v).isOk = true := by
    intro v hv
    obtain ⟨hmemv, hidv⟩ := List.mem_filter.mp hv
    exact hvotes v hmemv (by simpa using hidv)
  obtain ⟨vm, h4⟩ := vote_loop_ok (vote_query db event_ids) hvq []
  have hready : ∀ p ∈ em, p.2.2.1.seeded ∧ p.2.2.2.seeded ∧
      (EventType.tryFrom p.2.1.event_type).isOk = true := by
    intro p hp
    rcases hmem p hp with hfalse | ⟨r, hr, _, hmodel, hs1, hs2⟩
    · cases hfalse
    · refine ⟨hs1, hs2, ?_⟩
      rw [hmodel]
      exact (hdec r hr).2
  obtain ⟨events, h5⟩ := assemble_loop_ok bs bn vm em hready []
  have hr : list_events db event_ids = .ok (sort_events events) := by
    simp [list_events, h1, h2, h3, h4, h5, Bind.bind, Except.bind]
  obtain ⟨hinv, -⟩ :=
    events_map_loop_ok_inv (event_models db event_ids) em [] h1
  have hndem : (alKeys em).Nodup := hnd (by simp [alKeys])
  have hids := assemble_loop_ids bs bn vm em [] events h5
  have hidkeys : em.map (fun p => p.2.1.id) = alKeys em := by
    unfold alKeys
    exact List.map_congr_left (hinv (by simp))
  have hevents_ids : events.map (fun ev => ev.event_id) = alKeys em := by
    rw [hids, hidkeys]
    simp
  have hperm : ((sort_events events).map (fun ev => ev.event_id)).Perm
      (events.map (fun ev => ev.event_id)) := (sort_events_perm events).map _
  refine ⟨sort_events events, hr, ?_, ?_⟩
  · exact hperm.nodup_iff.mpr (hevents_ids ▸ hndem)
  · intro i
    rw [hperm.mem_iff, hevents_ids]
    have hk := hkeys i
    simp only [alKeys, List.map_nil, List.not_mem_nil, false_or] at hk
    unfold alKeys
    rw [hk]
    exact event_models_mem_id db event_ids i

/-- For a requested (event id, service id) pair with exactly one stored
service row, the service stage groups under the event id exactly one service
with that service id, carrying the pair's argument rows in arrival order. -/
theorem service_stage_key_singleton (db : Db) (event_ids : List Int)
    (i : Int) (s : String) (r : AdminEventProposedServiceModel)
    (hin : i ∈ event_ids)
    (hone : db.admin_event_proposed_service.filter
      (fun q => decide (q.event_id = i) && decide (q.service_id = s)) = [r]) :
    ∃ m lst,
      built_services_loop (service_loop (service_rows db event_ids) [] []).1
        (service_loop (service_rows db event_ids) [] []).2 [] = .ok m ∧
      alGet m i = some lst ∧
      lst.filter (fun svc => decide (svc.service_id = s)) =
        [{ service_id := r.service_id, service_type := r.service_type,
           node_id := r.node_id,
           arguments := (db.admin_event_proposed_service_argument.filter
             (fun a => decide (a.event_id = i) &&
               decide (a.service_id = s))).map
             (fun a => (a.key, a.value)) }] := by
  obtain ⟨hargs, hfirst⟩ := service_table_one db event_ids i s r hin
    db.admin_event_proposed_service hone
  have hargs' : args_of (i, s) (service_rows db event_ids) =
      (db.admin_event_proposed_service_argument.filter
        (fun a => decide (a.event_id = i) &&
          decide (a.service_id = s))).map (fun a => (a.key, a.value)) := hargs
  have hfirst' : first_service_row (i, s) (service_rows db event_ids) =
      some r := hfirst
  have hb : alGet (service_loop (service_rows db event_ids) [] []).1 (i, s) =
      some (service_builder_from r) := by
    rw [service_loop_builders (service_rows db event_ids) [] [] (i, s),
      hfirst']
    rfl
  have ham : (alGet (service_loop (service_rows db event_ids) [] []).2
      (i, s)).getD [] = args_of (i, s) (service_rows db event_ids) := by
    rw [service_loop_args (service_rows db event_ids) [] [] (i, s)]
    by_cases hz : args_of (i, s) (service_rows db event_ids) = []
    · simp [hz, alGet_nil]
    · simp [hz, alGet_nil]
  have hwf := service_loop_entries_wf (service_rows db event_ids) [] []
    (by simp)
  have hndk := service_loop_keys_nodup (service_rows db event_ids) [] []
    (by simp [alKeys])
  obtain ⟨m, hm, hgroup⟩ := built_services_loop_ok
    (service_loop (service_rows db event_ids) [] []).1
    (service_loop (service_rows db event_ids) [] []).2 [] hwf
  have hfilterps : (service_loop (service_rows db event_ids) [] []).1.filter
      (fun p => decide (p.1 = (i, s))) =
      [((i, s), service_builder_from r)] :=
    filter_key_of_alGet_some _ _ _ hndk hb
  have hgi := hgroup i s
  rw [hfilterps] at hgi
  simp only [List.map_cons, List.map_nil, alGet_nil, Option.getD_none,
    List.filter_nil, List.nil_append] at hgi
  have hval : service_build_value (attach_arguments (service_builder_from r)
      (alGet (service_loop (service_rows db event_ids) [] []).2 (i, s))) =
      { service_id := r.service_id, service_type := r.service_type,
        node_id := r.node_id,
        arguments := (db.admin_event_proposed_service_argument.filter
          (fun a => decide (a.event_id = i) &&
            decide (a.service_id = s))).map (fun a => (a.key, a.value)) } := by
    rw [service_build_value_attach, ham, hargs']
  rw [hval] at hgi
  cases halm : alGet m i with
  | none =>
    rw [halm] at hgi
    simp at hgi
  | some lst =>
    rw [halm] at hgi
    simp only [Option.getD_some] at hgi
    exact ⟨m, lst, hm, halm, hgi⟩

/-- C4: for a requested (event id, service id) pair with exactly one stored
proposed-service row and exactly N stored argument rows, the `ProposedService`
constructed by the service stage carries exactly N (key, value) arguments —
duplicates kept, none dropped, none added; zero rows give zero arguments. -/
theorem c4_service_argument_count (db : Db) (event_ids : List Int) (i : Int)
    (s : String) (r : AdminEventProposedServiceModel) (N : Nat)
    (hin : i ∈ event_ids)
    (hone : db.admin_event_proposed_service.filter
      (fun q => decide (q.event_id = i) && decide (q.service_id = s)) = [r])
    (hN : (db.admin_event_proposed_service_argument.filter
      (fun a => decide (a.event_id = i) &&
        decide (a.service_id = s))).length = N) :
    ∃ m lst svc,
      built_services_loop (service_loop (service_rows db event_ids) [] []).1
        (service_loop (service_rows db event_ids) [] []).2 [] = .ok m ∧
      alGet m i = some lst ∧
      lst.filter (fun svc => decide (svc.service_id = s)) = [svc] ∧
      svc.arguments.length = N := by
  obtain ⟨m, lst, hm, halm, hgi⟩ :=
    service_stage_key_singleton db event_ids i s r hin hone
  refine ⟨m, lst, _, hm, halm, hgi, ?_⟩
  simp only [List.length_map]
  exact hN

/-- C5: for a requested (event id, node id) pair with exactly one stored
proposed-node row and exactly K endpoint rows (K ≥ 1), the `ProposedNode`
constructed by the node stage carries exactly K endpoints — multiple rows for
the same key append endpoints, never overwrite an earlier accumulation. -/
theorem c5_node_endpoint_count (db : Db) (event_ids : List Int) (i : Int)
    (n : String) (r : AdminEventProposedNodeModel) (K : Nat)
    (hin : i ∈ event_ids)
    (hone : db.admin_event_proposed_node.filter
      (fun q => decide (q.event_id = i) && decide (q.node_id = n)) = [r])
    (hK : (db.admin_event_proposed_node_endpoint.filter
      (fun ep => decide (ep.node_id = n) &&
        decide (ep.event_id = i))).length = K)
    (hKpos : 1 ≤ K) :
    ∃ m lst nd,
      built_nodes_loop (node_loop (node_rows db event_ids) []) [] = .ok m ∧
      alGet m i = some lst ∧
      lst.filter (fun nd => decide (nd.node_id = n)) = [nd] ∧
      nd.endpoints.length = K := by
  have heps' : endpoints_of (i, n) (node_rows db event_ids) =
      (db.admin_event_proposed_node_endpoint.filter
        (fun ep => decide (ep.node_id = n) &&
          decide (ep.event_id = i))).map (fun ep => ep.endpoint) :=
    node_table_one db event_ids i n r hin db.admin_event_proposed_node hone
  have hnz : ¬ (endpoints_of (i, n) (node_rows db event_ids) = []) := by
    intro hc
    rw [hc] at heps'
    have hfilnil := List.map_eq_nil_iff.mp heps'.symm
    rw [hfilnil] at hK
    simp only [List.length_nil] at hK
    omega
  have hb : alGet (node_loop (node_rows db event_ids) []) (i, n) =
      some { node_id := some n,
             endpoints :=
               some (endpoints_of (i, n) (node_rows db event_ids)) } := by
    rw [node_loop_get (node_rows db event_ids) [] (i, n), if_neg hnz]
    simp [alGet_nil, Option.elim]
  have hnwf := node_loop_entries_wf (node_rows db event_ids) [] (by simp)
  have hndk := node_loop_keys_nodup (node_rows db event_ids) []
    (by simp [alKeys])
  obtain ⟨m, hm, hgroup⟩ := built_nodes_loop_ok
    (node_loop (node_rows db event_ids) []) [] hnwf
  have hfilterpn := filter_key_of_alGet_some _ _ _ hndk hb
  have hgi := hgroup i n
  rw [hfilterpn] at hgi
  simp only [List.map_cons, List.map_nil, alGet_nil, Option.getD_none,
    List.filter_nil, List.nil_append] at hgi
  have hlen : (node_build_value
      { node_id := some n,
        endpoints :=
          some (endpoints_of (i, n) (node_rows db event_ids)) }).endpoints.length
      = K := by
    unfold node_build_value
    simp only [Option.getD_some]
    rw [heps', List.length_map]
    exact hK
  cases halm : alGet m i with
  | none =>
    rw [halm] at hgi
    simp at hgi
  | some lst =>
    rw [halm] at hgi
    simp only [Option.getD_some] at hgi
    exact ⟨m, lst, _, hm, halm, hgi, hlen⟩

/-- C9: the node query inner-joins on endpoints, so a proposed-node row with
zero matching endpoint rows contributes no node to its event's membership
group; the service query left-joins on arguments, so a proposed-service row
with zero argument rows is still grouped into the roster, with an empty
argument list. -/
theorem c9_inner_vs_left_join (db : Db) (event_ids : List Int) (i : Int)
    (n s : String) (rn : AdminEventProposedNodeModel)
    (rs : AdminEventProposedServiceModel)
    (hin : i ∈ event_ids)
    (hrn : rn ∈ db.admin_event_proposed_node)
    (hrni : rn.event_id = i) (hrnn : rn.node_id = n)
    (hzeps : db.admin_event_proposed_node_endpoint.filter
      (fun ep => decide (ep.node_id = n) && decide (ep.event_id = i)) = [])
    (hsone : db.admin_event_proposed_service.filter
      (fun q => decide (q.event_id = i) && decide (q.service_id = s)) = [rs])
    (hargz : db.admin_event_proposed_service_argument.filter
      (fun a => decide (a.event_id = i) &&
        decide (a.service_id = s)) = []) :
    (∃ mn, built_nodes_loop (node_loop (node_rows db event_ids) []) []
        = .ok mn ∧
      ((alGet mn i).getD []).filter (fun nd => decide (nd.node_id = n))
        = []) ∧
    (∃ ms lst svc,
      built_services_loop (service_loop (service_rows db event_ids) [] []).1
        (service_loop (service_rows db event_ids) [] []).2 [] = .ok ms ∧
      alGet ms i = some lst ∧ svc ∈ lst ∧ svc.service_id = s ∧
      svc.arguments = []) := by
  constructor
  · have hz : endpoints_of (i, n) (node_rows db event_ids) = [] :=
      node_table_zero db event_ids i n hzeps db.admin_event_proposed_node
    have hbn : alGet (node_loop (node_rows db event_ids) []) (i, n) =
        none := by
      rw [node_loop_get (node_rows db event_ids) [] (i, n), if_pos hz]
      rfl
    have hfil := filter_key_eq_nil_of_alGet_none _ _ hbn
    have hnwf := node_loop_entries_wf (node_rows db event_ids) [] (by simp)
    obtain ⟨mn, hm, hgroup⟩ := built_nodes_loop_ok
      (node_loop (node_rows db event_ids) []) [] hnwf
    refine ⟨mn, hm, ?_⟩
    have hgi := hgroup i n
    rw [hfil] at hgi
    simpa [alGet_nil] using hgi
  · obtain ⟨ms, lst, hm, halm, hgi⟩ :=
      service_stage_key_singleton db event_ids i s rs hin hsone
    have hsid : rs.service_id = s := by
      have hmemr : rs ∈ db.admin_event_proposed_service.filter
          (fun q => decide (q.event_id = i) && decide (q.service_id = s)) := by
        rw [hsone]
        exact List.mem_singleton.mpr rfl
      have := (List.mem_filter.mp hmemr).2
      simp only [Bool.and_eq_true, decide_eq_true_eq] at this
      exact this.2
    rw [hargz] at hgi
    simp only [List.map_nil] at hgi
    have hmemf :
        ({ service_id := rs.service_id, service_type := rs.service_type,
           node_id := rs.node_id, arguments := [] } : ProposedService) ∈
          lst.filter (fun svc => decide (svc.service_id = s)) := by
      rw [hgi]
      exact List.mem_singleton.mpr rfl
    exact ⟨ms, lst, _, hm, halm, List.mem_of_mem_filter hmemf, hsid, rfl⟩

/-- C6: whenever any builder finalize step fails — a `ProposedService`,
`ProposedNode`, or the `ProposedCircuit`/`CircuitProposal` builds of the
assembly stage — the enclosing loop of `list_events` aborts at the first
such failure and returns that invalid-state error: no per-row skipping and
no partial result. -/
theorem c6_builder_finalize_failure_aborts :
    (∀ (key : Int × String) (b : ProposedServiceBuilder)
      (ps₂ : List ((Int × String) × ProposedServiceBuilder))
      (am : List ((Int × String) × List (String × String))) (msg : String)
      (ps₁ : List ((Int × String) × ProposedServiceBuilder))
      (acc : List (Int × List ProposedService)),
      (attach_arguments b (alGet am key)).build = .error msg →
      (∀ p ∈ ps₁,
        ∃ svc, (attach_arguments p.2 (alGet am p.1)).build = .ok svc) →
      built_services_loop (ps₁ ++ (key, b) :: ps₂) am acc =
        .error (.invalidStateError msg)) ∧
    (∀ (key : Int × String) (b : ProposedNodeBuilder)
      (pn₂ : List ((Int × String) × ProposedNodeBuilder)) (msg : String)
      (pn₁ : List ((Int × String) × ProposedNodeBuilder))
      (acc : List (Int × List ProposedNode)),
      b.build = .error msg →
      (∀ p ∈ pn₁, ∃ nd, (p.2 : ProposedNodeBuilder).build = .ok nd) →
      built_nodes_loop (pn₁ ++ (key, b) :: pn₂) acc =
        .error (.invalidStateError msg)) ∧
    (∀ (svcs : List (Int × List ProposedService))
      (nodes : List (Int × List ProposedNode))
      (votes : List (Int × List VoteRecord)) (k : Int)
      (entry : AdminServiceEventModel × CircuitProposalBuilder ×
        ProposedCircuitBuilder)
      (em₂ : List (Int × (AdminServiceEventModel × CircuitProposalBuilder ×
        ProposedCircuitBuilder))) (msg : String)
      (em₁ : List (Int × (AdminServiceEventModel × CircuitProposalBuilder ×
        ProposedCircuitBuilder))) (acc : List AdminServiceEvent),
      assemble_one k entry svcs nodes votes =
        .error (.invalidStateError msg) →
      (∀ p ∈ em₁, ∃ ev, assemble_one p.1 p.2 svcs nodes votes = .ok ev) →
      assemble_loop (em₁ ++ (k, entry) :: em₂) svcs nodes votes acc =
        .error (.invalidStateError msg)) := by
  refine ⟨?_, ?_, ?_⟩
  · intro key b ps₂ am msg ps₁ acc hfail hpre
    exact built_services_loop_first_err key b ps₂ am msg hfail ps₁ hpre acc
  · intro key b pn₂ msg pn₁ acc hfail hpre
    exact built_nodes_loop_first_err key b pn₂ msg hfail pn₁ hpre acc
  · intro svcs nodes votes k entry em₂ msg em₁ acc hfail hpre
    exact assemble_loop_first_err svcs nodes votes k entry em₂ msg hfail em₁
      hpre acc

/-- C8 (amended): two calls with the same identifier set against unchanged
storage — the same rows per table, presented in possibly different arrival
orders — both succeed under the decode hypotheses and the spec's key
uniqueness invariants, return the same strictly ascending event-id sequence,
and agree on every event's content up to the internal order of the vote
lists, rosters, memberships, argument lists and endpoint lists. Identity of
the full values holds only for equal presentations, as the counterexample
shows. -/
theorem c8_content_identity_up_to_order (db₁ db₂ : Db)
    (event_ids : List Int)
    (hperm : db_perm db₁ db₂) (huniq : db_unique_keys db₁)
    (hdec : ∀ row ∈ event_models db₁ event_ids,
      event_row_decodes row ∧
        (EventType.tryFrom row.1.event_type).isOk = true)
    (hvotes : ∀ v ∈ db₁.admin_event_vote_record, v.event_id ∈ event_ids →
      (VoteRecord.tryFrom v).isOk = true) :
    ∃ evs₁ evs₂, list_events db₁ event_ids = .ok evs₁ ∧
      list_events db₂ event_ids = .ok evs₂ ∧
      evs₁.map (fun ev => ev.event_id) = evs₂.map (fun ev => ev.event_id) ∧
      List.Pairwise (fun a b => a.event_id < b.event_id) evs₁ ∧
      (∀ ev₁ ∈ evs₁, ∀ ev₂ ∈ evs₂, ev₁.event_id = ev₂.event_id →
        event_matches ev₁ ev₂) := by
  unfold db_perm at hperm
  obtain ⟨hpE, hpCP, hpPC, hpS, hpA, hpN, hpEP, hpV⟩ := hperm
  unfold db_unique_keys at huniq
  obtain ⟨huE, huCP, huPC, huS, huN⟩ := huniq
  have hdec₂ : ∀ row ∈ event_models db₂ event_ids,
      event_row_decodes row ∧
        (EventType.tryFrom row.1.event_type).isOk = true := by
    intro row hrow
    obtain ⟨h1, h2, h3, h4, h5, h6⟩ :=
      (event_models_mem_row db₂ event_ids row).mp hrow
    exact hdec row ((event_models_mem_row db₁ event_ids row).mpr
      ⟨hpE.mem_iff.mpr h1, h2, hpCP.mem_iff.mpr h3, h4,
        hpPC.mem_iff.mpr h5, h6⟩)
  have hvotes₂ : ∀ v ∈ db₂.admin_event_vote_record,
      v.event_id ∈ event_ids → (VoteRecord.tryFrom v).isOk = true :=
    fun v hv hid => hvotes v (hpV.mem_iff.mpr hv) hid
  obtain ⟨em₁, bs₁, bn₁, vm₁, events₁, h11, h12, h13, h14, h15, h16, hnd₁,
    hkeys₁, hmap₁⟩ := list_events_stages_ok db₁ event_ids hdec hvotes
  obtain ⟨em₂, bs₂, bn₂, vm₂, events₂, h21, h22, h23, h24, h25, h26, hnd₂,
    hkeys₂, hmap₂⟩ := list_events_stages_ok db₂ event_ids hdec₂ hvotes₂
  have hstrict₁ := list_events_ok_strict_sorted db₁ event_ids _ h16
  have hstrict₂ := list_events_ok_strict_sorted db₂ event_ids _ h26
  have hmemids : ∀ k : Int,
      k ∈ (sort_events events₁).map (fun ev => ev.event_id) ↔
      k ∈ (sort_events events₂).map (fun ev => ev.event_id) := by
    intro k
    have hp₁ : ((sort_events events₁).map (fun ev => ev.event_id)).Perm
        (events₁.map (fun ev => ev.event_id)) :=
      (sort_events_perm events₁).map _
    have hp₂ : ((sort_events events₂).map (fun ev => ev.event_id)).Perm
        (events₂.map (fun ev => ev.event_id)) :=
      (sort_events_perm events₂).map _
    rw [hp₁.mem_iff, hp₂.mem_iff, hmap₁, hmap₂, hkeys₁ k, hkeys₂ k]
    constructor
    · rintro ⟨r, hr, hid⟩
      obtain ⟨m1, m2, m3, m4, m5, m6⟩ :=
        (event_models_mem_row db₁ event_ids r).mp hr
      exact ⟨r, (event_models_mem_row db₂ event_ids r).mpr
        ⟨hpE.mem_iff.mp m1, m2, hpCP.mem_iff.mp m3, m4,
          hpPC.mem_iff.mp m5, m6⟩, hid⟩
    · rintro ⟨r, hr, hid⟩
      obtain ⟨m1, m2, m3, m4, m5, m6⟩ :=
        (event_models_mem_row db₂ event_ids r).mp hr
      exact ⟨r, (event_models_mem_row db₁ event_ids r).mpr
        ⟨hpE.mem_iff.mpr m1, m2, hpCP.mem_iff.mpr m3, m4,
          hpPC.mem_iff.mpr m5, m6⟩, hid⟩
  have hndids₁ : ((sort_events events₁).map
      (fun ev => ev.event_id)).Nodup :=
    List.pairwise_map.mpr (hstrict₁.imp ne_of_lt)
  have hndids₂ : ((sort_events events₂).map
      (fun ev => ev.event_id)).Nodup :=
    List.pairwise_map.mpr (hstrict₂.imp ne_of_lt)
  have hsorted₁le : List.Pairwise (fun a b : Int => a ≤ b)
      ((sort_events events₁).map (fun ev => ev.event_id)) :=
    List.pairwise_map.mpr (hstrict₁.imp le_of_lt)
  have hsorted₂le : List.Pairwise (fun a b : Int => a ≤ b)
      ((sort_events events₂).map (fun ev => ev.event_id)) :=
    List.pairwise_map.mpr (hstrict₂.imp le_of_lt)
  have hidsperm : ((sort_events events₁).map (fun ev => ev.event_id)).Perm
      ((sort_events events₂).map (fun ev => ev.event_id)) :=
    (List.perm_ext_iff_of_nodup hndids₁ hndids₂).mpr hmemids
  have hidseq : (sort_events events₁).map (fun ev => ev.event_id) =
      (sort_events events₂).map (fun ev => ev.event_id) :=
    List.eq_of_perm_of_sorted hidsperm hsorted₁le hsorted₂le
  refine ⟨sort_events events₁, sort_events events₂, h16, h26, hidseq,
    hstrict₁, ?_⟩
  intro ev₁ hev₁ ev₂ hev₂ hid
  have hev₁' : ev₁ ∈ events₁ := (sort_events_perm events₁).mem_iff.mp hev₁
  have hev₂' : ev₂ ∈ events₂ := (sort_events_perm events₂).mem_iff.mp hev₂
  have hkmem₁ : ev₁.event_id ∈ alKeys em₁ := by
    rw [← hmap₁]
    exact List.mem_map_of_mem _ hev₁'
  obtain ⟨r0, hr0, hr0id⟩ := (hkeys₁ ev₁.event_id).mp hkmem₁
  obtain ⟨he0, hiE, hcp0, hcp0i, hpc0, hpc0i⟩ :=
    (event_models_mem_row db₁ event_ids r0).mp hr0
  have hiE' : ev₁.event_id ∈ event_ids := by
    rw [← hr0id]
    exact hiE
  have hfe₁ : db₁.admin_service_event.filter
      (fun x => decide (x.id = ev₁.event_id)) = [r0.1] :=
    nodup_key_filter (fun x => x.id) ev₁.event_id db₁.admin_service_event
      huE r0.1 he0 hr0id
  have hfcp₁ : db₁.admin_event_circuit_proposal.filter
      (fun x => decide (x.event_id = ev₁.event_id)) = [r0.2.1] :=
    nodup_key_filter (fun x => x.event_id) ev₁.event_id
      db₁.admin_event_circuit_proposal huCP r0.2.1 hcp0
      (hcp0i.trans hr0id)
  have hfpc₁ : db₁.admin_event_proposed_circuit.filter
      (fun x => decide (x.event_id = ev₁.event_id)) = [r0.2.2] :=
    nodup_key_filter (fun x => x.event_id) ev₁.event_id
      db₁.admin_event_proposed_circuit huPC r0.2.2 hpc0
      (hpc0i.trans hr0id)
  have hfe₂ := perm_filter_singleton _ hpE hfe₁
  have hfcp₂ := perm_filter_singleton _ hpCP hfcp₁
  have hfpc₂ := perm_filter_singleton _ hpPC hfpc₁
  have hjoin₁ : (event_models db₁ event_ids).filter
      (fun r => decide (r.1.id = ev₁.event_id)) = [r0] :=
    event_models_filter_unique db₁ event_ids ev₁.event_id r0.1 r0.2.1
      r0.2.2 hiE' hfe₁ hfcp₁ hfpc₁
  have hjoin₂ : (event_models db₂ event_ids).filter
      (fun r => decide (r.1.id = ev₁.event_id)) = [r0] :=
    event_models_filter_unique db₂ event_ids ev₁.event_id r0.1 r0.2.1
      r0.2.2 hiE' hfe₂ hfcp₂ hfpc₂
  obtain ⟨hdec0, het0⟩ := hdec r0 hr0
  obtain ⟨kv, hkv, hk1, hk2, hs1, hs2⟩ := seed_event_row_ok r0 hdec0
  obtain ⟨-, -, -, -, hvn, hrn, hmn⟩ := seed_event_row_det r0 kv hkv
  have hget₁ : alGet em₁ ev₁.event_id = some kv.2 :=
    events_map_loop_get_unique ev₁.event_id r0 kv hkv
      (event_models db₁ event_ids) hjoin₁ [] em₁ h11
  have hget₂ : alGet em₂ ev₁.event_id = some kv.2 :=
    events_map_loop_get_unique ev₁.event_id r0 kv hkv
      (event_models db₂ event_ids) hjoin₂ [] em₂ h21
  obtain ⟨-, hall₁⟩ := assemble_loop_mem bs₁ bn₁ vm₁ em₁ [] events₁ h15
  obtain ⟨ev₁', hev₁'', hass₁⟩ :=
    hall₁ (ev₁.event_id, kv.2) (alGet_mem em₁ ev₁.event_id kv.2 hget₁)
  obtain ⟨-, hall₂⟩ := assemble_loop_mem bs₂ bn₂ vm₂ em₂ [] events₂ h25
  obtain ⟨ev₂', hev₂'', hass₂⟩ :=
    hall₂ (ev₁.event_id, kv.2) (alGet_mem em₂ ev₁.event_id kv.2 hget₂)
  have hass₁x : assemble_one ev₁.event_id kv.2 bs₁ bn₁ vm₁ = .ok ev₁' :=
    hass₁
  have hass₂x : assemble_one ev₁.event_id kv.2 bs₂ bn₂ vm₂ = .ok ev₂' :=
    hass₂
  have hndmap₁ : (events₁.map (fun ev => ev.event_id)).Nodup := by
    rw [hmap₁]
    exact hnd₁
  have hndmap₂ : (events₂.map (fun ev => ev.event_id)).Nodup := by
    rw [hmap₂]
    exact hnd₂
  have hid₁' : ev₁'.event_id = ev₁.event_id := by
    rw [assemble_one_event_id _ _ _ _ _ _ hass₁x, hk2, hr0id]
  have hid₂' : ev₂'.event_id = ev₂.event_id := by
    rw [assemble_one_event_id _ _ _ _ _ _ hass₂x, hk2, hr0id]
    exact hid
  have hev₁eq : ev₁' = ev₁ :=
    List.inj_on_of_nodup_map hndmap₁ hev₁'' hev₁' hid₁'
  have hev₂eq : ev₂' = ev₂ :=
    List.inj_on_of_nodup_map hndmap₂ hev₂'' hev₂' hid₂'
  obtain ⟨et, het⟩ := (except_isOk_iff _).mp het0
  have het' : EventType.tryFrom kv.2.1.event_type = .ok et := by
    rw [hk2]
    exact het
  have q₁ : ev₁' = assemble_value ev₁.event_id kv.2 bs₁ bn₁ vm₁ et := by
    rw [assemble_one_eq ev₁.event_id kv.2 bs₁ bn₁ vm₁ et hs1 hs2 het']
      at hass₁x
    exact (Except.ok.inj hass₁x).symm
  have q₂ : ev₂' = assemble_value ev₁.event_id kv.2 bs₂ bn₂ vm₂ et := by
    rw [assemble_one_eq ev₁.event_id kv.2 bs₂ bn₂ vm₂ et hs1 hs2 het']
      at hass₂x
    exact (Except.ok.inj hass₂x).symm
  rw [← hev₁eq, ← hev₂eq, q₁, q₂]
  have hvq₁ : ∀ v ∈ vote_query db₁ event_ids,
      (VoteRecord.tryFrom v).isOk = true := by
    intro v hv
    obtain ⟨hm, hi'⟩ := List.mem_filter.mp hv
    exact hvotes v hm (by simpa using hi')
  have hvq₂ : ∀ v ∈ vote_query db₂ event_ids,
      (VoteRecord.tryFrom v).isOk = true := by
    intro v hv
    obtain ⟨hm, hi'⟩ := List.mem_filter.mp hv
    exact hvotes₂ v hm (by simpa using hi')
  have hvg₁ := vote_loop_get ev₁.event_id (vote_query db₁ event_ids) hvq₁
    [] vm₁ h14
  have hvg₂ := vote_loop_get ev₁.event_id (vote_query db₂ event_ids) hvq₂
    [] vm₂ h24
  rw [vote_query_filter db₁ event_ids ev₁.event_id hiE'] at hvg₁
  rw [vote_query_filter db₂ event_ids ev₁.event_id hiE'] at hvg₂
  have hvotesperm : List.Perm
      ((assemble_value ev₁.event_id kv.2 bs₁ bn₁ vm₁
        et).proposal.votes)
      ((assemble_value ev₁.event_id kv.2 bs₂ bn₂ vm₂
        et).proposal.votes) := by
    rw [assemble_value_votes ev₁.event_id kv.2 bs₁ bn₁ vm₁ et hvn,
      assemble_value_votes ev₁.event_id kv.2 bs₂ bn₂ vm₂ et hvn,
      hvg₁, hvg₂]
    by_cases hz : db₁.admin_event_vote_record.filter
        (fun v => decide (v.event_id = ev₁.event_id)) = []
    · have hz₂ : db₂.admin_event_vote_record.filter
          (fun v => decide (v.event_id = ev₁.event_id)) = [] :=
        perm_filter_nil _ hpV hz
      rw [if_pos hz, if_pos hz₂]
    · have hz₂ : ¬ (db₂.admin_event_vote_record.filter
          (fun v => decide (v.event_id = ev₁.event_id)) = []) := by
        intro hc
        exact hz (perm_filter_nil _ hpV.symm hc)
      rw [if_neg hz, if_neg hz₂]
      simp only [alGet_nil, Option.getD_none, List.nil_append,
        Option.getD_some]
      exact (hpV.filter _).map _
  obtain ⟨ha1, ha2, ha3, ha4, ha5⟩ :=
    assemble_value_proposal_scalars ev₁.event_id kv.2 bs₁ bn₁ vm₁ et
  obtain ⟨hb1, hb2, hb3, hb4, hb5⟩ :=
    assemble_value_proposal_scalars ev₁.event_id kv.2 bs₂ bn₂ vm₂ et
  obtain ⟨hc1, hc2, hc3, hc4, hc5, hc6, hc7, hc8, hc9⟩ :=
    assemble_value_circuit_scalars ev₁.event_id kv.2 bs₁ bn₁ vm₁ et
  obtain ⟨hd1, hd2, hd3, hd4, hd5, hd6, hd7, hd8, hd9⟩ :=
    assemble_value_circuit_scalars ev₁.event_id kv.2 bs₂ bn₂ vm₂ et
  refine ⟨rfl, rfl, ha1.trans hb1.symm, ha2.trans hb2.symm,
    ha3.trans hb3.symm, ha4.trans hb4.symm, ha5.trans hb5.symm, hvotesperm,
    hc1.trans hd1.symm, hc2.trans hd2.symm, hc3.trans hd3.symm,
    hc4.trans hd4.symm, hc5.trans hd5.symm, hc6.trans hd6.symm,
    hc7.trans hd7.symm, hc8.trans hd8.symm, hc9.trans hd9.symm, ?_, ?_⟩
  · -- rosters match per service id
    rw [assemble_value_roster ev₁.event_id kv.2 bs₁ bn₁ vm₁ et hrn,
      assemble_value_roster ev₁.event_id kv.2 bs₂ bn₂ vm₂ et hrn]
    intro s
    cases hS : db₁.admin_event_proposed_service.filter
        (fun q => decide (q.event_id = ev₁.event_id) &&
          decide (q.service_id = s)) with
    | nil =>
      left
      have hS₂ : db₂.admin_event_proposed_service.filter
          (fun q => decide (q.event_id = ev₁.event_id) &&
            decide (q.service_id = s)) = [] :=
        perm_filter_nil _ hpS hS
      exact ⟨service_group_empty db₁ event_ids ev₁.event_id s bs₁ h12 hS,
        service_group_empty db₂ event_ids ev₁.event_id s bs₂ h22 hS₂⟩
    | cons rS rSrest =>
      have hrSmem : rS ∈ db₁.admin_event_proposed_service ∧
          (rS.event_id, rS.service_id) = (ev₁.event_id, s) := by
        have hmem' : rS ∈ db₁.admin_event_proposed_service.filter
            (fun q => decide (q.event_id = ev₁.event_id) &&
              decide (q.service_id = s)) := by
          rw [hS]
          exact List.mem_cons_self _ _
        obtain ⟨hmem'', hpred⟩ := List.mem_filter.mp hmem'
        simp only [Bool.and_eq_true, decide_eq_true_eq] at hpred
        exact ⟨hmem'', by rw [hpred.1, hpred.2]⟩
      have hSone : db₁.admin_event_proposed_service.filter
          (fun q => decide (q.event_id = ev₁.event_id) &&
            decide (q.service_id = s)) = [rS] := by
        rw [service_filter_pair]
        exact nodup_key_filter (fun q => (q.event_id, q.service_id))
          (ev₁.event_id, s) db₁.admin_event_proposed_service huS rS
          hrSmem.1 hrSmem.2
      have hSone₂ : db₂.admin_event_proposed_service.filter
          (fun q => decide (q.event_id = ev₁.event_id) &&
            decide (q.service_id = s)) = [rS] :=
        perm_filter_singleton _ hpS hSone
      obtain ⟨m₁, lst₁, hm₁, halm₁, hgi₁⟩ := service_stage_key_singleton
        db₁ event_ids ev₁.event_id s rS hiE' hSone
      obtain ⟨m₂, lst₂, hm₂, halm₂, hgi₂⟩ := service_stage_key_singleton
        db₂ event_ids ev₁.event_id s rS hiE' hSone₂
      have hm₁bs : m₁ = bs₁ := by
        rw [hm₁] at h12
        exact Except.ok.inj h12
      have hm₂bs : m₂ = bs₂ := by
        rw [hm₂] at h22
        exact Except.ok.inj h22
      subst hm₁bs
      subst hm₂bs
      right
      refine
        ⟨{ service_id := rS.service_id,
           service_type := rS.service_type, node_id := rS.node_id,
           arguments := (db₁.admin_event_proposed_service_argument.filter
             (fun a => decide (a.event_id = ev₁.event_id) &&
               decide (a.service_id = s))).map
             (fun a => (a.key, a.value)) },
         { service_id := rS.service_id,
           service_type := rS.service_type, node_id := rS.node_id,
           arguments := (db₂.admin_event_proposed_service_argument.filter
             (fun a => decide (a.event_id = ev₁.event_id) &&
               decide (a.service_id = s))).map
             (fun a => (a.key, a.value)) },
         ?_, ?_, ?_⟩
      · rw [halm₁]
        simp only [Option.getD_some]
        exact hgi₁
      · rw [halm₂]
        simp only [Option.getD_some]
        exact hgi₂
      · exact ⟨rfl, rfl, rfl, (hpA.filter _).map _⟩
  · -- memberships match per node id
    rw [assemble_value_members ev₁.event_id kv.2 bs₁ bn₁ vm₁ et hmn,
      assemble_value_members ev₁.event_id kv.2 bs₂ bn₂ vm₂ et hmn]
    intro n
    cases hN : db₁.admin_event_proposed_node.filter
        (fun q => decide (q.event_id = ev₁.event_id) &&
          decide (q.node_id = n)) with
    | nil =>
      left
      have hN₂ : db₂.admin_event_proposed_node.filter
          (fun q => decide (q.event_id = ev₁.event_id) &&
            decide (q.node_id = n)) = [] :=
        perm_filter_nil _ hpN hN
      exact ⟨node_group_empty db₁ event_ids ev₁.event_id n bn₁ h13
          (node_row_zero db₁ event_ids ev₁.event_id n
            db₁.admin_event_proposed_node hN),
        node_group_empty db₂ event_ids ev₁.event_id n bn₂ h23
          (node_row_zero db₂ event_ids ev₁.event_id n
            db₂.admin_event_proposed_node hN₂)⟩
    | cons rN rNrest =>
      have hrNmem : rN ∈ db₁.admin_event_proposed_node ∧
          (rN.event_id, rN.node_id) = (ev₁.event_id, n) := by
        have hmem' : rN ∈ db₁.admin_event_proposed_node.filter
            (fun q => decide (q.event_id = ev₁.event_id) &&
              decide (q.node_id = n)) := by
          rw [hN]
          exact List.mem_cons_self _ _
        obtain ⟨hmem'', hpred⟩ := List.mem_filter.mp hmem'
        simp only [Bool.and_eq_true, decide_eq_true_eq] at hpred
        exact ⟨hmem'', by rw [hpred.1, hpred.2]⟩
      have hNone : db₁.admin_event_proposed_node.filter
          (fun q => decide (q.event_id = ev₁.event_id) &&
            decide (q.node_id = n)) = [rN] := by
        rw [node_filter_pair]
        exact nodup_key_filter (fun q => (q.event_id, q.node_id))
          (ev₁.event_id, n) db₁.admin_event_proposed_node huN rN
          hrNmem.1 hrNmem.2
      have hNone₂ : db₂.admin_event_proposed_node.filter
          (fun q => decide (q.event_id = ev₁.event_id) &&
            decide (q.node_id = n)) = [rN] :=
        perm_filter_singleton _ hpN hNone
      cases hEP : db₁.admin_event_proposed_node_endpoint.filter
          (fun ep => decide (ep.node_id = n) &&
            decide (ep.event_id = ev₁.event_id)) with
      | nil =>
        left
        have hEP₂ : db₂.admin_event_proposed_node_endpoint.filter
            (fun ep => decide (ep.node_id = n) &&
              decide (ep.event_id = ev₁.event_id)) = [] :=
          perm_filter_nil _ hpEP hEP
        exact ⟨node_group_empty db₁ event_ids ev₁.event_id n bn₁ h13
            (node_table_zero db₁ event_ids ev₁.event_id n hEP
              db₁.admin_event_proposed_node),
          node_group_empty db₂ event_ids ev₁.event_id n bn₂ h23
            (node_table_zero db₂ event_ids ev₁.event_id n hEP₂
              db₂.admin_event_proposed_node)⟩
      | cons ep eps =>
        have hEPne : ¬ (db₁.admin_event_proposed_node_endpoint.filter
            (fun ep => decide (ep.node_id = n) &&
              decide (ep.event_id = ev₁.event_id)) = []) := by
          rw [hEP]
          simp
        have hEPne₂ : ¬ (db₂.admin_event_proposed_node_endpoint.filter
            (fun ep => decide (ep.node_id = n) &&
              decide (ep.event_id = ev₁.event_id)) = []) := by
          intro hc
          exact hEPne (perm_filter_nil _ hpEP.symm hc)
        obtain ⟨m₁, lst₁, hm₁, halm₁, hgi₁⟩ := node_stage_key_singleton
          db₁ event_ids ev₁.event_id n rN hiE' hNone hEPne
        obtain ⟨m₂, lst₂, hm₂, halm₂, hgi₂⟩ := node_stage_key_singleton
          db₂ event_ids ev₁.event_id n rN hiE' hNone₂ hEPne₂
        have hm₁bn : m₁ = bn₁ := by
          rw [hm₁] at h13
          exact Except.ok.inj h13
        have hm₂bn : m₂ = bn₂ := by
          rw [hm₂] at h23
          exact Except.ok.inj h23
        subst hm₁bn
        subst hm₂bn
        right
        refine
          ⟨{ node_id := n,
             endpoints := (db₁.admin_event_proposed_node_endpoint.filter
               (fun ep => decide (ep.node_id = n) &&
                 decide (ep.event_id = ev₁.event_id))).map
               (fun ep => ep.endpoint) },
           { node_id := n,
             endpoints := (db₂.admin_event_proposed_node_endpoint.filter
               (fun ep => decide (ep.node_id = n) &&
                 decide (ep.event_id = ev₁.event_id))).map
               (fun ep => ep.endpoint) },
           ?_, ?_, ?_⟩
        · rw [halm₁]
          simp only [Option.getD_some]
          exact hgi₁
        · rw [halm₂]
          simp only [Option.getD_some]
          exact hgi₂
        · exact ⟨rfl, (hpEP.filter _).map _⟩

/-! Concrete stores used to evaluate the claims. -/

/-- A store with one complete event (id 7): service "A" with two arguments,
service "B" with none, node "n1" with three endpoints, node "n2" with no
endpoint rows, and two votes. -/
def sampleDb : Db :=
  { admin_service_event := [{ id := 7, event_type := "ProposalSubmitted" }],
    admin_event_circuit_proposal :=
      [{ event_id := 7, proposal_type := "Create", circuit_id := "c1",
         circuit_hash := "h", requester := "r", requester_node_id := "n1" }],
    admin_event_proposed_circuit :=
      [{ event_id := 7, circuit_id := "c1", authorization_type := "Trust",
         persistence := "Any", durability := "NoDurability", routes := "Any",
         circuit_management_type := "mgmt", application_metadata := none,
         comments := none, display_name := none }],
    admin_event_proposed_service :=
      [{ event_id := 7, service_id := "A", service_type := "t",
         node_id := "n1" },
       { event_id := 7, service_id := "B", service_type := "t",
         node_id := "n1" }],
    admin_event_proposed_service_argument :=
      [{ event_id := 7, service_id := "A", key := "k1", value := "v1" },
       { event_id := 7, service_id := "A", key := "k2", value := "v2" }],
    admin_event_proposed_node :=
      [{ event_id := 7, node_id := "n1" }, { event_id := 7, node_id := "n2" }],
    admin_event_proposed_node_endpoint :=
      [{ event_id := 7, node_id := "n1", endpoint := "e1" },
       { event_id := 7, node_id := "n1", endpoint := "e2" },
       { event_id := 7, node_id := "n1", endpoint := "e3" }],
    admin_event_vote_record :=
      [{ event_id := 7, public_key := "pk1", vote := "Accept",
         voter_node_id := "n2" },
       { event_id := 7, public_key := "pk2", vote := "Reject",
         voter_node_id := "n3" }] }

/-- `sampleDb` with its two service rows presented in the opposite order:
the same rows in every table, as a backend free of any ORDER BY may return
them on a second call. -/
def sampleDbSwapped : Db :=
  { sampleDb with
    admin_event_proposed_service :=
      [{ event_id := 7, service_id := "B", service_type := "t",
         node_id := "n1" },
       { event_id := 7, service_id := "A", service_type := "t",
         node_id := "n1" }] }

/-- A one-event store with no child rows at all. -/
def miniDb : Db :=
  { admin_service_event := [{ id := 1, event_type := "ProposalSubmitted" }],
    admin_event_circuit_proposal :=
      [{ event_id := 1, proposal_type := "Create", circuit_id := "c1",
         circuit_hash := "h", requester := "r", requester_node_id := "n1" }],
    admin_event_proposed_circuit :=
      [{ event_id := 1, circuit_id := "c1", authorization_type := "Trust",
         persistence := "Any", durability := "NoDurability", routes := "Any",
         circuit_management_type := "mgmt", application_metadata := none,
         comments := none, display_name := none }],
    admin_event_proposed_service := [],
    admin_event_proposed_service_argument := [],
    admin_event_proposed_node := [],
    admin_event_proposed_node_endpoint := [],
    admin_event_vote_record := [] }

/-- `miniDb` with an undecodable route-type code on its circuit row. -/
def badRouteDb : Db :=
  { miniDb with
    admin_event_proposed_circuit :=
      [{ event_id := 1, circuit_id := "c1", authorization_type := "Trust",
         persistence := "Any", durability := "NoDurability", routes := "BAD",
         circuit_management_type := "mgmt", application_metadata := none,
         comments := none, display_name := none }] }

/-- A store holding only one vote row with an undecodable vote value, for an
event id that has no event/proposal/circuit rows at all. -/
def badVoteDb : Db :=
  { admin_service_event := [],
    admin_event_circuit_proposal := [],
    admin_event_proposed_circuit := [],
    admin_event_proposed_service := [],
    admin_event_proposed_service_argument := [],
    admin_event_proposed_node := [],
    admin_event_proposed_node_endpoint := [],
    admin_event_vote_record :=
      [{ event_id := 5, public_key := "pk", vote := "BAD",
         voter_node_id := "n" }] }

/-- The single event `list_events miniDb [1]` reconstructs. -/
def miniResult : List AdminServiceEvent :=
  [{ event_id := 1, event_type := .proposalSubmitted,
     proposal :=
       { proposal_type := .create, circuit_id := "c1", circuit_hash := "h",
         requester := "r", requester_node_id := "n1",
         circuit :=
           { circuit_id := "c1", roster := [], members := [],
             authorization_type := .trust, persistence := .any,
             durability := .noDurability, routes := .any,
             circuit_management_type := "mgmt",
             application_metadata := none, comments := none,
             display_name := none },
         votes := [] } }]

/-- The joined primary row of `badRouteDb`. -/
def badRouteRow : AdminServiceEventModel × AdminEventCircuitProposalModel ×
    AdminEventProposedCircuitModel :=
  ({ id := 1, event_type := "ProposalSubmitted" },
   { event_id := 1, proposal_type := "Create", circuit_id := "c1",
     circuit_hash := "h", requester := "r", requester_node_id := "n1" },
   { event_id := 1, circuit_id := "c1", authorization_type := "Trust",
     persistence := "Any", durability := "NoDurability", routes := "BAD",
     circuit_management_type := "mgmt", application_metadata := none,
     comments := none, display_name := none })

/-- The "A" service row of `sampleDb`. -/
def svcARow : AdminEventProposedServiceModel :=
  { event_id := 7, service_id := "A", service_type := "t", node_id := "n1" }

/-- The "B" service row of `sampleDb`. -/
def svcBRow : AdminEventProposedServiceModel :=
  { event_id := 7, service_id := "B", service_type := "t", node_id := "n1" }

/-- The "n1" node row of `sampleDb`. -/
def nodeN1Row : AdminEventProposedNodeModel :=
  { event_id := 7, node_id := "n1" }

/-- The "n2" node row of `sampleDb` (no endpoint rows). -/
def nodeN2Row : AdminEventProposedNodeModel :=
  { event_id := 7, node_id := "n2" }

/-- The undecodable vote row of `badVoteDb`. -/
def badVoteRow : AdminEventVoteRecordModel :=
  { event_id := 5, public_key := "pk", vote := "BAD", voter_node_id := "n" }

/-- A seeded events-map entry with empty builders, for exercising builder
finalize failures in the assembly stage. -/
def miniEntry : AdminServiceEventModel × CircuitProposalBuilder ×
    ProposedCircuitBuilder :=
  ({ id := 1, event_type := "ProposalSubmitted" },
   CircuitProposalBuilder.new, ProposedCircuitBuilder.new)

/-- Witness for C1 on `sampleDb` with its one complete event. -/
theorem c1_completeness_witness :
    (∀ row ∈ event_models sampleDb [7], event_row_decodes row ∧
      (EventType.tryFrom row.1.event_type).isOk = true) ∧
    (∀ v ∈ sampleDb.admin_event_vote_record, v.event_id ∈ [(7 : Int)] →
      (VoteRecord.tryFrom v).isOk = true) ∧
    (∃ evs, list_events sampleDb [7] = .ok evs ∧
      (evs.map (fun ev => ev.event_id)).Nodup ∧
      (∀ i : Int, i ∈ evs.map (fun ev => ev.event_id) ↔
        (i ∈ [(7 : Int)] ∧
          (∃ e ∈ sampleDb.admin_service_event, e.id = i) ∧
          (∃ cp ∈ sampleDb.admin_event_circuit_proposal, cp.event_id = i) ∧
          (∃ pc ∈ sampleDb.admin_event_proposed_circuit,
            pc.event_id = i)))) :=
  ⟨by decide, by decide,
    c1_completeness sampleDb [7] (by decide) (by decide)⟩

/-- Witness for C2 on `miniDb`. -/
theorem c2_strictly_ascending_order_witness :
    list_events miniDb [1] = .ok miniResult ∧
    List.Pairwise (fun a b => a.event_id < b.event_id) miniResult :=
  ⟨by decide, c2_strictly_ascending_order miniDb [1] miniResult (by decide)⟩

/-- Witness for C3 on `badRouteDb` whose route code fails to decode. -/
theorem c3_decode_failure_aborts_witness :
    badRouteRow ∈ event_models badRouteDb [1] ∧
    ¬ event_row_decodes badRouteRow ∧
    (∃ msg, list_events badRouteDb [1] = .error (.internalError msg)) :=
  ⟨by decide, by decide,
    c3_decode_failure_aborts badRouteDb [1] badRouteRow (by decide)
      (by decide)⟩

/-- Witness for C4: service "A" of `sampleDb` has exactly two argument rows
and its built `ProposedService` carries exactly two arguments. -/
theorem c4_service_argument_count_witness :
    (7 : Int) ∈ [(7 : Int)] ∧
    sampleDb.admin_event_proposed_service.filter
      (fun q => decide (q.event_id = 7) && decide (q.service_id = "A")) =
      [svcARow] ∧
    (sampleDb.admin_event_proposed_service_argument.filter
      (fun a => decide (a.event_id = 7) &&
        decide (a.service_id = "A"))).length = 2 ∧
    (∃ m lst svc,
      built_services_loop (service_loop (service_rows sampleDb [7]) [] []).1
        (service_loop (service_rows sampleDb [7]) [] []).2 [] = .ok m ∧
      alGet m 7 = some lst ∧
      lst.filter (fun svc => decide (svc.service_id = "A")) = [svc] ∧
      svc.arguments.length = 2) :=
  ⟨by decide, by decide, by decide,
    c4_service_argument_count sampleDb [7] 7 "A" svcARow 2 (by decide)
      (by decide) (by decide)⟩

/-- Witness for C5: node "n1" of `sampleDb` has exactly three endpoint rows
and its built `ProposedNode` carries exactly three endpoints. -/
theorem c5_node_endpoint_count_witness :
    (7 : Int) ∈ [(7 : Int)] ∧
    sampleDb.admin_event_proposed_node.filter
      (fun q => decide (q.event_id = 7) && decide (q.node_id = "n1")) =
      [nodeN1Row] ∧
    (sampleDb.admin_event_proposed_node_endpoint.filter
      (fun ep => decide (ep.node_id = "n1") &&
        decide (ep.event_id = 7))).length = 3 ∧
    (∃ m lst nd,
      built_nodes_loop (node_loop (node_rows sampleDb [7]) []) [] = .ok m ∧
      alGet m 7 = some lst ∧
      lst.filter (fun nd => decide (nd.node_id = "n1")) = [nd] ∧
      nd.endpoints.length = 3) :=
  ⟨by decide, by decide, by decide,
    c5_node_endpoint_count sampleDb [7] 7 "n1" nodeN1Row 3 (by decide)
      (by decide) (by decide) (by decide)⟩

/-- Witness for C6: each of the three loops aborts with the builder's
invalid-state error when handed a builder missing a required field. -/
theorem c6_builder_finalize_failure_aborts_witness :
    built_services_loop [((1, "A"), ProposedServiceBuilder.new)] [] [] =
      .error (.invalidStateError "unable to build, missing field: service_id") ∧
    built_nodes_loop [((1, "n"), ProposedNodeBuilder.new)] [] =
      .error (.invalidStateError "unable to build, missing field: node_id") ∧
    assemble_loop [(1, miniEntry)] [] [] [] [] =
      .error (.invalidStateError "unable to build, missing field: circuit_id") :=
  ⟨c6_builder_finalize_failure_aborts.1 (1, "A") ProposedServiceBuilder.new
      [] [] "unable to build, missing field: service_id" [] [] (by decide)
      (by simp),
   c6_builder_finalize_failure_aborts.2.1 (1, "n") ProposedNodeBuilder.new
      [] "unable to build, missing field: node_id" [] [] (by decide)
      (by simp),
   c6_builder_finalize_failure_aborts.2.2 [] [] [] 1 miniEntry []
      "unable to build, missing field: circuit_id" [] [] (by decide)
      (by simp)⟩

/-- Witness for C7: requesting an identifier with no stored rows returns the
empty sequence. -/
theorem c7_empty_or_unknown_ids_ok_witness :
    (∀ e ∈ miniDb.admin_service_event, e.id ∉ [(99 : Int)]) ∧
    (∀ s ∈ miniDb.admin_event_proposed_service,
      s.event_id ∉ [(99 : Int)]) ∧
    (∀ n ∈ miniDb.admin_event_proposed_node, n.event_id ∉ [(99 : Int)]) ∧
    (∀ v ∈ miniDb.admin_event_vote_record, v.event_id ∉ [(99 : Int)]) ∧
    list_events miniDb [99] = .ok [] :=
  ⟨by decide, by decide, by decide, by decide,
    c7_empty_or_unknown_ids_ok miniDb [99] (by decide) (by decide)
      (by decide) (by decide)⟩

/-- C8, counterexample to the claim as stated: `sampleDbSwapped` holds
exactly the rows of `sampleDb` (tablewise permutations — unchanged storage
under a different arrival order, which the schema guarantees nothing about),
both calls succeed, and yet they return different values: the roster of
event 7 lists its two services in the two arrival orders. -/
theorem c8_row_order_counterexample :
    db_perm sampleDb sampleDbSwapped ∧
    (list_events sampleDb [7]).isOk = true ∧
    (list_events sampleDbSwapped [7]).isOk = true ∧
    list_events sampleDb [7] ≠ list_events sampleDbSwapped [7] :=
  ⟨by decide, by decide, by decide, by decide⟩

/-- Witness for the amended C8 on the `sampleDb`/`sampleDbSwapped` pair of
presentations. -/
theorem c8_content_identity_up_to_order_witness :
    db_perm sampleDb sampleDbSwapped ∧
    db_unique_keys sampleDb ∧
    (∀ row ∈ event_models sampleDb [7], event_row_decodes row ∧
      (EventType.tryFrom row.1.event_type).isOk = true) ∧
    (∀ v ∈ sampleDb.admin_event_vote_record, v.event_id ∈ [(7 : Int)] →
      (VoteRecord.tryFrom v).isOk = true) ∧
    (∃ evs₁ evs₂, list_events sampleDb [7] = .ok evs₁ ∧
      list_events sampleDbSwapped [7] = .ok evs₂ ∧
      evs₁.map (fun ev => ev.event_id) = evs₂.map (fun ev => ev.event_id) ∧
      List.Pairwise (fun a b => a.event_id < b.event_id) evs₁ ∧
      (∀ ev₁ ∈ evs₁, ∀ ev₂ ∈ evs₂, ev₁.event_id = ev₂.event_id →
        event_matches ev₁ ev₂)) :=
  ⟨by decide, by decide, by decide, by decide,
    c8_content_identity_up_to_order sampleDb sampleDbSwapped [7] (by decide)
      (by decide) (by decide) (by decide)⟩

/-- Witness for C9 on `sampleDb`: node "n2" has no endpoint rows and is
excluded; service "B" has no argument rows and is included with an empty
argument list. -/
theorem c9_inner_vs_left_join_witness :
    (7 : Int) ∈ [(7 : Int)] ∧
    nodeN2Row ∈ sampleDb.admin_event_proposed_node ∧
    nodeN2Row.event_id = 7 ∧ nodeN2Row.node_id = "n2" ∧
    sampleDb.admin_event_proposed_node_endpoint.filter
      (fun ep => decide (ep.node_id = "n2") && decide (ep.event_id = 7)) =
      [] ∧
    sampleDb.admin_event_proposed_service.filter
      (fun q => decide (q.event_id = 7) && decide (q.service_id = "B")) =
      [svcBRow] ∧
    sampleDb.admin_event_proposed_service_argument.filter
      (fun a => decide (a.event_id = 7) && decide (a.service_id = "B")) =
      [] ∧
    ((∃ mn, built_nodes_loop (node_loop (node_rows sampleDb [7]) []) [] =
        .ok mn ∧
      ((alGet mn 7).getD []).filter (fun nd => decide (nd.node_id = "n2")) =
        []) ∧
    (∃ ms lst svc,
      built_services_loop (service_loop (service_rows sampleDb [7]) [] []).1
        (service_loop (service_rows sampleDb [7]) [] []).2 [] = .ok ms ∧
      alGet ms 7 = some lst ∧ svc ∈ lst ∧ svc.service_id = "B" ∧
      svc.arguments = [])) :=
  ⟨by decide, by decide, by decide, by decide, by decide, by decide,
    by decide,
    c9_inner_vs_left_join sampleDb [7] 7 "n2" "B" nodeN2Row svcBRow
      (by decide) (by decide) (by decide) (by decide) (by decide)
      (by decide) (by decide)⟩

/-- Witness for C10 on `badVoteDb`: the requested id 5 has no primary rows,
yet its undecodable vote row aborts the call. -/
theorem c10_child_row_failure_aborts_witness :
    badVoteRow ∈ badVoteDb.admin_event_vote_record ∧
    badVoteRow.event_id ∈ [(5 : Int)] ∧
    ¬ (VoteRecord.tryFrom badVoteRow).isOk = true ∧
    (∃ err, list_events badVoteDb [5] = .error err) :=
  ⟨by decide, by decide, by decide,
    c10_child_row_failure_aborts badVoteDb [5] badVoteRow (by decide)
      (by decide) (by decide)⟩
